import Mathlib

/-!
Verification development for the Camera-Controller repository.

Shallow embedding of `src/js/controls/mathUtils.ts`,
`ControlStateInterpolator.ts` and the three state/interpolator families
(`interpolators/OrbitInterpolator.ts`, `interpolators/GroundedInterpolator.ts`,
the latter file also containing the Isotropic family and a copy of the math
utilities).  JavaScript numbers are modelled as real numbers; the three.js
vector / quaternion / spherical / Euler / matrix operations the repository
calls are embedded from the three.js sources.
-/

namespace CamCtl

noncomputable section

open Real

attribute [instance] Classical.propDecidable

/-- `EPSILON` from `mathUtils.ts` (= 1e-5). -/
def EPSILON : ℝ := 1e-5

/-- The private `EPS` of three.js `Spherical.makeSafe` (= 0.000001). -/
def SPH_EPS : ℝ := 1e-6

/-- `Number.EPSILON` of JavaScript (2⁻⁵²). -/
def NUMBER_EPSILON : ℝ := (2 : ℝ) ^ (-52 : ℤ)

/-- `MathUtils.clamp` from three.js: `Math.max(min, Math.min(max, value))`. -/
def clamp (value lo hi : ℝ) : ℝ := max lo (min hi value)

/-- `Math.sign` (returns 0 at 0). -/
def jsSign (v : ℝ) : ℝ := Real.sign v

/-- `Math.trunc`: rounds towards zero. -/
def jsTrunc (v : ℝ) : ℤ := if 0 ≤ v then ⌊v⌋ else ⌈v⌉

/-- `MathUtils.euclideanModulo` from three.js: `((n % m) + m) % m`,
which for positive `m` equals `n - m * ⌊n / m⌋`. -/
def euclideanModulo (n m : ℝ) : ℝ := n - m * ⌊n / m⌋

/-- `MathUtils.DEG2RAD`. -/
def DEG2RAD : ℝ := Real.pi / 180

/-- `approxZero` from `mathUtils.ts`. -/
def approxZero (v : ℝ) (error : ℝ := EPSILON) : Prop := |v| ≤ error

/-- `approxEqual` from `mathUtils.ts`. -/
def approxEqual (a b : ℝ) (error : ℝ := EPSILON) : Prop := approxZero (a - b) error

/-! ### three.js `Vector3` -/

/-- A three.js `Vector3` over the reals. -/
structure Vec3 where
  x : ℝ
  y : ℝ
  z : ℝ

namespace Vec3

instance : Add Vec3 := ⟨fun a b => ⟨a.x + b.x, a.y + b.y, a.z + b.z⟩⟩
instance : Sub Vec3 := ⟨fun a b => ⟨a.x - b.x, a.y - b.y, a.z - b.z⟩⟩
instance : Neg Vec3 := ⟨fun a => ⟨-a.x, -a.y, -a.z⟩⟩
instance : SMul ℝ Vec3 := ⟨fun r a => ⟨r * a.x, r * a.y, r * a.z⟩⟩
instance : Zero Vec3 := ⟨⟨0, 0, 0⟩⟩

/-- `Vector3.dot`. -/
def dot (a b : Vec3) : ℝ := a.x * b.x + a.y * b.y + a.z * b.z

/-- `Vector3.cross`. -/
def cross (a b : Vec3) : Vec3 :=
  ⟨a.y * b.z - a.z * b.y, a.z * b.x - a.x * b.z, a.x * b.y - a.y * b.x⟩

/-- `Vector3.lengthSq`. -/
def lengthSq (a : Vec3) : ℝ := dot a a

/-- `Vector3.length`. -/
def length (a : Vec3) : ℝ := Real.sqrt (lengthSq a)

/-- `Vector3.distanceTo`. -/
def distanceTo (a b : Vec3) : ℝ := length (a - b)

/-- `Vector3.addScaledVector`. -/
def addScaledVector (a v : Vec3) (s : ℝ) : Vec3 := a + s • v

/-- `Vector3.normalize`: `divideScalar(length || 1)`, so the zero vector
stays zero. -/
def normalize (a : Vec3) : Vec3 :=
  if length a = 0 then a else (1 / length a) • a

/-- `Vector3.setLength`: `normalize().multiplyScalar(l)`. -/
def setLength (a : Vec3) (l : ℝ) : Vec3 := l • normalize a

/-- `Vector3.angleTo`: `acos(clamp(dot/√(len²·len²), -1, 1))`, with the
three.js guard returning π/2 when the denominator is zero. -/
def angleTo (a b : Vec3) : ℝ :=
  let d := Real.sqrt (lengthSq a * lengthSq b)
  if d = 0 then Real.pi / 2 else Real.arccos (clamp (dot a b / d) (-1) 1)

end Vec3

/-- `AXIS.X` from `utils/mathUtils.ts`. -/
def xAxis : Vec3 := ⟨1, 0, 0⟩

/-- `AXIS.Y` from `utils/mathUtils.ts`. -/
def yAxis : Vec3 := ⟨0, 1, 0⟩

/-- `AXIS.Z` from `utils/mathUtils.ts`. -/
def zAxis : Vec3 := ⟨0, 0, 1⟩

/-- `approxZeroVec3` from `mathUtils.ts` (componentwise). -/
def approxZeroVec3 (v : Vec3) (error : ℝ := EPSILON) : Prop :=
  approxZero v.x error ∧ approxZero v.y error ∧ approxZero v.z error

/-- `approxEqualVec3` from `mathUtils.ts` (componentwise). -/
def approxEqualVec3 (a b : Vec3) (error : ℝ := EPSILON) : Prop :=
  approxEqual a.x b.x error ∧ approxEqual a.y b.y error ∧ approxEqual a.z b.z error

/-- `approxCollinear` from `mathUtils.ts`. -/
def approxCollinear (a b : Vec3) (error : ℝ := EPSILON) : Prop :=
  approxEqual |Vec3.dot a b| 1 error

/-- `approxParallel` from `mathUtils.ts`. -/
def approxParallel (a b : Vec3) (error : ℝ := EPSILON) : Prop :=
  approxEqual (Vec3.dot a b) 1 error

/-- `approxAntiparallel` from `mathUtils.ts`. -/
def approxAntiparallel (a b : Vec3) (error : ℝ := EPSILON) : Prop :=
  approxEqual (Vec3.dot a b) (-1) error

/-! ### three.js `Quaternion` -/

/-- A three.js `Quaternion` over the reals (component order x, y, z, w). -/
structure Quat where
  x : ℝ
  y : ℝ
  z : ℝ
  w : ℝ

namespace Quat

/-- The identity quaternion (three.js default `Quaternion()`). -/
def id : Quat := ⟨0, 0, 0, 1⟩

/-- `Quaternion.multiplyQuaternions` (Hamilton product, three.js layout). -/
def mul (a b : Quat) : Quat :=
  ⟨a.x * b.w + a.w * b.x + a.y * b.z - a.z * b.y,
   a.y * b.w + a.w * b.y + a.z * b.x - a.x * b.z,
   a.z * b.w + a.w * b.z + a.x * b.y - a.y * b.x,
   a.w * b.w - a.x * b.x - a.y * b.y - a.z * b.z⟩

/-- `Quaternion.invert` (= conjugate in three.js). -/
def invert (q : Quat) : Quat := ⟨-q.x, -q.y, -q.z, q.w⟩

/-- Componentwise negation (not a three.js method; `-q` is the same rotation). -/
def negQ (q : Quat) : Quat := ⟨-q.x, -q.y, -q.z, -q.w⟩

/-- `Quaternion.dot`. -/
def qdot (a b : Quat) : ℝ := a.x * b.x + a.y * b.y + a.z * b.z + a.w * b.w

/-- Squared length. -/
def normSq (q : Quat) : ℝ := qdot q q

/-- `Quaternion.length`. -/
def qlength (q : Quat) : ℝ := Real.sqrt (normSq q)

/-- `Quaternion.normalize`: if the length is 0 the result is the identity,
otherwise each component is divided by the length. -/
def normalize (q : Quat) : Quat :=
  if qlength q = 0 then ⟨0, 0, 0, 1⟩
  else ⟨q.x / qlength q, q.y / qlength q, q.z / qlength q, q.w / qlength q⟩

/-- `Quaternion.setFromAxisAngle` (axis assumed normalized by three.js). -/
def fromAxisAngle (axis : Vec3) (angle : ℝ) : Quat :=
  ⟨axis.x * Real.sin (angle / 2), axis.y * Real.sin (angle / 2),
   axis.z * Real.sin (angle / 2), Real.cos (angle / 2)⟩

/-- `Quaternion.setFromUnitVectors` with the three.js antiparallel fallback
branch and the final `normalize()`. -/
def setFromUnitVectors (vFrom vTo : Vec3) : Quat :=
  let r := Vec3.dot vFrom vTo + 1
  if r < NUMBER_EPSILON then
    if |vFrom.x| > |vFrom.z| then normalize ⟨-vFrom.y, vFrom.x, 0, 0⟩
    else normalize ⟨0, -vFrom.z, vFrom.y, 0⟩
  else
    normalize ⟨(Vec3.cross vFrom vTo).x, (Vec3.cross vFrom vTo).y,
               (Vec3.cross vFrom vTo).z, r⟩

end Quat

/-- `Vector3.applyQuaternion`: `t = 2·(q.xyz × v); v + q.w·t + q.xyz × t`. -/
def applyQuat (q : Quat) (v : Vec3) : Vec3 :=
  let u : Vec3 := ⟨q.x, q.y, q.z⟩
  let t : Vec3 := (2 : ℝ) • Vec3.cross u v
  v + q.w • t + Vec3.cross u t

/-- `approxEqualQuat` from `mathUtils.ts` (componentwise). -/
def approxEqualQuat (a b : Quat) (error : ℝ := EPSILON) : Prop :=
  approxEqual a.x b.x error ∧ approxEqual a.y b.y error ∧
  approxEqual a.z b.z error ∧ approxEqual a.w b.w error

/-- `Quaternion.slerp` from three.js (as a pure function of `this = a`,
`qb = b` and `t`). -/
def slerp (a b : Quat) (t : ℝ) : Quat :=
  if t = 0 then a
  else if t = 1 then b
  else
    let cosHalfTheta := Quat.qdot a b
    let b' := if cosHalfTheta < 0 then Quat.negQ b else b
    let c := if cosHalfTheta < 0 then -cosHalfTheta else cosHalfTheta
    if c ≥ 1 then a
    else
      let sqrSinHalfTheta := 1 - c * c
      if sqrSinHalfTheta ≤ NUMBER_EPSILON then
        let s := 1 - t
        Quat.normalize ⟨s * a.x + t * b'.x, s * a.y + t * b'.y,
                        s * a.z + t * b'.z, s * a.w + t * b'.w⟩
      else
        let sinHalfTheta := Real.sqrt sqrSinHalfTheta
        let halfTheta := Real.arctan (sinHalfTheta / c)
        let ratioA := Real.sin ((1 - t) * halfTheta) / sinHalfTheta
        let ratioB := Real.sin (t * halfTheta) / sinHalfTheta
        ⟨a.x * ratioA + b'.x * ratioB, a.y * ratioA + b'.y * ratioB,
         a.z * ratioA + b'.z * ratioB, a.w * ratioA + b'.w * ratioB⟩

/-! ### Smooth damping (`mathUtils.ts` / `utils/SmoothDamper.ts`) -/

/-- The result of a scalar `smoothDamp` call: the returned output value and
the value written back through the velocity reference. -/
structure DampResult where
  output : ℝ
  velocity : ℝ

/-- The scalar damped-spring step of `smoothDamp` before the overshoot
check: raw output and raw velocity.  `maxSpeed = none` models the default
argument `Infinity`, for which the clamp is inactive. -/
def smoothDampRaw (current target velocity smoothTime : ℝ)
    (maxSpeed : Option ℝ) (deltaTime : ℝ) : ℝ × ℝ :=
  let st := max 0.0001 smoothTime
  let omega := 2 / st
  let x := omega * deltaTime
  let e := 1 / (1 + x + 0.48 * x ^ 2 + 0.235 * x ^ 3)
  let change0 := current - target
  let change := match maxSpeed with
    | none => change0
    | some ms => clamp change0 (-(ms * st)) (ms * st)
  let target1 := current - change
  let temp := (velocity + omega * change) * deltaTime
  let vel1 := (velocity - omega * temp) * e
  let output := target1 + (change + temp) * e
  (output, vel1)

/-- `smoothDamp` from `mathUtils.ts`: raw spring step followed by the
overshoot check `(originalTo - current > 0) == (output > originalTo)`,
which snaps the output to the target and recomputes the velocity as
`(output - originalTo) / deltaTime`. -/
def smoothDamp (current target velocity smoothTime : ℝ)
    (maxSpeed : Option ℝ) (deltaTime : ℝ) : DampResult :=
  let raw := smoothDampRaw current target velocity smoothTime maxSpeed deltaTime
  if (target - current > 0) = (raw.1 > target) then
    { output := target, velocity := (target - target) / deltaTime }
  else
    { output := raw.1, velocity := raw.2 }

/-- The result of a `smoothDampVec3` call. -/
structure DampResultV where
  output : Vec3
  velocity : Vec3

/-- `smoothDampVec3` from `mathUtils.ts` with distinct `current` and `out`
vectors: spring step with magnitude-clamped change, then the overshoot
check `⟨originalTo - current, out - originalTo⟩ > 0`. -/
def smoothDampVec3 (current target velocity : Vec3) (smoothTime : ℝ)
    (maxSpeed : Option ℝ) (deltaTime : ℝ) : DampResultV :=
  let st := max 0.0001 smoothTime
  let omega := 2 / st
  let x := omega * deltaTime
  let e := 1 / (1 + x + 0.48 * x ^ 2 + 0.235 * x ^ 3)
  let change0 := current - target
  let change := match maxSpeed with
    | none => change0
    | some ms =>
        let maxChange := ms * st
        if Vec3.lengthSq change0 > maxChange * maxChange then
          (maxChange / Vec3.length change0) • change0
        else change0
  let target1 := current - change
  let temp := deltaTime • (velocity + omega • change)
  let vel1 := e • (velocity - omega • temp)
  let output := target1 + e • (change + temp)
  if Vec3.dot (target - current) (output - target) > 0 then
    { output := target, velocity := (1 / deltaTime) • (target - target) }
  else
    { output := output, velocity := vel1 }

/-- `smoothDampVec3` as called with `out` aliased to `current`
(`update` passes `this.now.orbitCenter` / `this.now.translation` as both):
the overshoot check then reads the already-overwritten `current`, so its
dot product is `-‖out - originalTo‖² ≤ 0` and the snap never fires. -/
def smoothDampVec3Aliased (current target velocity : Vec3) (smoothTime : ℝ)
    (maxSpeed : Option ℝ) (deltaTime : ℝ) : DampResultV :=
  let st := max 0.0001 smoothTime
  let omega := 2 / st
  let x := omega * deltaTime
  let e := 1 / (1 + x + 0.48 * x ^ 2 + 0.235 * x ^ 3)
  let change0 := current - target
  let change := match maxSpeed with
    | none => change0
    | some ms =>
        let maxChange := ms * st
        if Vec3.lengthSq change0 > maxChange * maxChange then
          (maxChange / Vec3.length change0) • change0
        else change0
  let target1 := current - change
  let temp := deltaTime • (velocity + omega • change)
  let vel1 := e • (velocity - omega • temp)
  let output := target1 + e • (change + temp)
  { output := output, velocity := vel1 }

/-- The result of a `smoothDampQuat` call. -/
structure DampResultQ where
  output : Quat
  velocity : Quat

/-- `smoothDampQuat` from `mathUtils.ts`: slerp by `min(1, Δt/smoothTime)`,
velocity slerped towards the target at rate `1/smoothTime`. -/
def smoothDampQuat (current target velocity : Quat) (smoothTime deltaTime : ℝ) :
    DampResultQ :=
  { output := slerp current target (min 1 (deltaTime / smoothTime)),
    velocity := slerp velocity target (1 / smoothTime) }

/-! ### Iterated fixed-step scalar damping (for the convergence claim) -/

/-- One `smoothDamp` call as a step on the pair (current value, velocity),
with the default `maxSpeed = Infinity`. -/
def dampStep (target smoothTime deltaTime : ℝ) (p : ℝ × ℝ) : ℝ × ℝ :=
  let r := smoothDamp p.1 target p.2 smoothTime none deltaTime
  (r.output, r.velocity)

/-- Repeated fixed-step `smoothDamp` calls starting from velocity 0. -/
def dampIter (c0 target smoothTime deltaTime : ℝ) : ℕ → ℝ × ℝ
  | 0 => (c0, 0)
  | n + 1 => dampStep target smoothTime deltaTime (dampIter c0 target smoothTime deltaTime n)

/-- `omega` of `smoothDamp` (after the `smoothTime` floor). -/
def dampOmega (smoothTime : ℝ) : ℝ := 2 / max 0.0001 smoothTime

/-- `x = omega * deltaTime` of `smoothDamp`. -/
def dampX (smoothTime deltaTime : ℝ) : ℝ := dampOmega smoothTime * deltaTime

/-- The denominator of the exponential approximation of `smoothDamp`. -/
def dampD (smoothTime deltaTime : ℝ) : ℝ :=
  1 + dampX smoothTime deltaTime + 0.48 * dampX smoothTime deltaTime ^ 2 +
    0.235 * dampX smoothTime deltaTime ^ 3

/-- `exp` of `smoothDamp`. -/
def dampE (smoothTime deltaTime : ℝ) : ℝ := 1 / dampD smoothTime deltaTime

/-- Invariant of the damped trajectory: the velocity never points away from
the target and is bounded by `ω·|distance|`. -/
def dampInv (target smoothTime : ℝ) (p : ℝ × ℝ) : Prop :=
  (p.1 - target) * p.2 ≤ 0 ∧ |p.2| ≤ dampOmega smoothTime * |p.1 - target|

/-! ### `Math.atan2`, three.js `Spherical`, `Euler` and rotation matrices -/

/-- `Math.atan2(y, x)`: the argument of the complex number `x + y·i`,
in `(-π, π]`, with `atan2(0, 0) = 0`. -/
def atan2 (y x : ℝ) : ℝ := Complex.arg ⟨x, y⟩

/-- A three.js `Spherical` (radius, phi, theta). -/
structure Spherical where
  radius : ℝ
  phi : ℝ
  theta : ℝ

/-- The default `Spherical()` (radius 1, phi 0, theta 0). -/
def Spherical.default : Spherical := ⟨1, 0, 0⟩

/-- `Vector3.setFromSpherical`. -/
def Spherical.toVec3 (s : Spherical) : Vec3 :=
  ⟨Real.sin s.phi * s.radius * Real.sin s.theta,
   Real.cos s.phi * s.radius,
   Real.sin s.phi * s.radius * Real.cos s.theta⟩

/-- `Spherical.setFromVector3` (via `setFromCartesianCoords`). -/
def Spherical.fromVec3 (v : Vec3) : Spherical :=
  let r := Vec3.length v
  if r = 0 then ⟨0, 0, 0⟩
  else ⟨r, Real.arccos (clamp (v.y / r) (-1) 1), atan2 v.x v.z⟩

/-- `Spherical.makeSafe`: clamps phi into `[EPS, π - EPS]` with `EPS = 1e-6`. -/
def Spherical.makeSafe (s : Spherical) : Spherical :=
  { s with phi := max SPH_EPS (min (Real.pi - SPH_EPS) s.phi) }

/-- Euler angles (order XYZ, as used by the repository's `normalize`). -/
structure EulerAngles where
  ex : ℝ
  ey : ℝ
  ez : ℝ

/-- The rotation part (upper 3×3, column major in three.js) of a `Matrix4`. -/
structure RotM where
  m11 : ℝ
  m12 : ℝ
  m13 : ℝ
  m21 : ℝ
  m22 : ℝ
  m23 : ℝ
  m31 : ℝ
  m32 : ℝ
  m33 : ℝ

/-- `Matrix4.makeBasis`: the three arguments become the columns. -/
def makeBasis (xc yc zc : Vec3) : RotM :=
  ⟨xc.x, yc.x, zc.x, xc.y, yc.y, zc.y, xc.z, yc.z, zc.z⟩

/-- `Matrix4.makeRotationFromQuaternion` (via `compose` with identity
position/scale). -/
def matFromQuat (q : Quat) : RotM :=
  ⟨1 - 2 * (q.y * q.y + q.z * q.z), 2 * (q.x * q.y - q.w * q.z),
    2 * (q.x * q.z + q.w * q.y),
   2 * (q.x * q.y + q.w * q.z), 1 - 2 * (q.x * q.x + q.z * q.z),
    2 * (q.y * q.z - q.w * q.x),
   2 * (q.x * q.z - q.w * q.y), 2 * (q.y * q.z + q.w * q.x),
    1 - 2 * (q.x * q.x + q.y * q.y)⟩

/-- `Quaternion.setFromRotationMatrix`: the trace-branching reconstruction. -/
def quatFromMat (m : RotM) : Quat :=
  let trace := m.m11 + m.m22 + m.m33
  if trace > 0 then
    let s := 0.5 / Real.sqrt (trace + 1)
    ⟨(m.m32 - m.m23) * s, (m.m13 - m.m31) * s, (m.m21 - m.m12) * s, 0.25 / s⟩
  else if m.m11 > m.m22 ∧ m.m11 > m.m33 then
    let s := 2 * Real.sqrt (1 + m.m11 - m.m22 - m.m33)
    ⟨0.25 * s, (m.m12 + m.m21) / s, (m.m13 + m.m31) / s, (m.m32 - m.m23) / s⟩
  else if m.m22 > m.m33 then
    let s := 2 * Real.sqrt (1 + m.m22 - m.m11 - m.m33)
    ⟨(m.m12 + m.m21) / s, 0.25 * s, (m.m23 + m.m32) / s, (m.m13 - m.m31) / s⟩
  else
    let s := 2 * Real.sqrt (1 + m.m33 - m.m11 - m.m22)
    ⟨(m.m13 + m.m31) / s, (m.m23 + m.m32) / s, 0.25 * s, (m.m21 - m.m12) / s⟩

/-- `Euler.setFromRotationMatrix` for order `XYZ` (the default), including
the `0.9999999` gimbal guard. -/
def eulerFromMat (m : RotM) : EulerAngles :=
  let y := Real.arcsin (clamp m.m13 (-1) 1)
  if |m.m13| < 0.9999999 then
    ⟨atan2 (-m.m23) m.m33, y, atan2 (-m.m12) m.m11⟩
  else
    ⟨atan2 m.m32 m.m22, y, 0⟩

/-- `Quaternion.setFromEuler` for order `XYZ`. -/
def quatFromEuler (e : EulerAngles) : Quat :=
  let c1 := Real.cos (e.ex / 2)
  let c2 := Real.cos (e.ey / 2)
  let c3 := Real.cos (e.ez / 2)
  let s1 := Real.sin (e.ex / 2)
  let s2 := Real.sin (e.ey / 2)
  let s3 := Real.sin (e.ez / 2)
  ⟨s1 * c2 * c3 + c1 * s2 * s3,
   c1 * s2 * c3 - s1 * c2 * s3,
   c1 * c2 * s3 + s1 * s2 * c3,
   c1 * c2 * c3 - s1 * s2 * s3⟩

/-- `Matrix4.makeRotationFromEuler` for order `XYZ` (rotation part): the
matrix three.js builds from the Euler angles that `Quaternion.setFromEuler`
also consumes. -/
def makeRotationFromEuler (eu : EulerAngles) : RotM :=
  ⟨Real.cos eu.ey * Real.cos eu.ez,
   -(Real.cos eu.ey * Real.sin eu.ez),
   Real.sin eu.ey,
   Real.cos eu.ex * Real.sin eu.ez + Real.sin eu.ex * Real.cos eu.ez * Real.sin eu.ey,
   Real.cos eu.ex * Real.cos eu.ez - Real.sin eu.ex * Real.sin eu.ez * Real.sin eu.ey,
   -(Real.sin eu.ex * Real.cos eu.ey),
   Real.sin eu.ex * Real.sin eu.ez - Real.cos eu.ex * Real.cos eu.ez * Real.sin eu.ey,
   Real.sin eu.ex * Real.cos eu.ez + Real.cos eu.ex * Real.sin eu.ez * Real.sin eu.ey,
   Real.cos eu.ex * Real.cos eu.ey⟩

/-- `Euler.setFromQuaternion` (via `makeRotationFromQuaternion`). -/
def eulerFromQuat (q : Quat) : EulerAngles := eulerFromMat (matFromQuat q)

/-- The shared quaternion canonicalization of `IsotropicState.normalize` and
`GroundedState.normalize`: `quaternion.normalize()`, extract XYZ Euler
angles, wrap each into `[0, 2π)` with `euclideanModulo`, rebuild. -/
def normalizeQuatEuler (q : Quat) : Quat :=
  let q1 := Quat.normalize q
  let e := eulerFromQuat q1
  quatFromEuler ⟨euclideanModulo e.ex (2 * Real.pi),
                 euclideanModulo e.ey (2 * Real.pi),
                 euclideanModulo e.ez (2 * Real.pi)⟩

/-- `Matrix4.lookAt(eye, target, up)` (rotation part), with the three.js
degeneracy fallbacks. -/
def lookAtMat (eye target up : Vec3) : RotM :=
  let z0 := eye - target
  let z1 := if Vec3.lengthSq z0 = 0 then { z0 with z := 1 } else z0
  let z2 := Vec3.normalize z1
  let x0 := Vec3.cross up z2
  if Vec3.lengthSq x0 = 0 then
    let z3 := if |up.z| = 1 then { z2 with x := z2.x + 0.0001 }
              else { z2 with z := z2.z + 0.0001 }
    let z4 := Vec3.normalize z3
    let x1 := Vec3.normalize (Vec3.cross up z4)
    makeBasis x1 (Vec3.cross z4 x1) z4
  else
    let x1 := Vec3.normalize x0
    makeBasis x1 (Vec3.cross z2 x1) z2

/-! ### `SaveState` (`utils/SaveState.ts`) -/

/-- The neutral `SaveState` bridge record. -/
structure SaveState where
  orbitCenter : Vec3
  offset : Vec3
  forward : Vec3
  up : Vec3

/-! ### `OrbitState` and `OrbitInterpolator` (`OrbitInterpolator.ts`) -/

/-- The stored fields of `OrbitState`: orbit center, spherical coordinates,
up vector and the two conversion quaternions between up space and
y-is-up space. -/
structure OrbitState where
  orbitCenter : Vec3
  spherical : Spherical
  upv : Vec3
  fromYToUp : Quat
  fromUpToY : Quat

namespace OrbitState

/-- A freshly constructed `OrbitState` (the constructor sets `_up` to
`AXIS.Y`, and both conversion quaternions to the identity). -/
def init : OrbitState :=
  ⟨0, Spherical.default, yAxis, Quat.id, Quat.id⟩

/-- Getter `distance` (= `spherical.radius`). -/
def distance (s : OrbitState) : ℝ := s.spherical.radius

/-- Getter `theta`. -/
def theta (s : OrbitState) : ℝ := s.spherical.theta

/-- Getter `phi`. -/
def phi (s : OrbitState) : ℝ := s.spherical.phi

/-- Getter `up`. -/
def up (s : OrbitState) : Vec3 := s.upv

/-- Getter `offset`: spherical coordinates applied back through
`fromYToUp`. -/
def offset (s : OrbitState) : Vec3 := applyQuat s.fromYToUp s.spherical.toVec3

/-- Getter `position` (base class): `orbitCenter + offset`. -/
def position (s : OrbitState) : Vec3 := s.orbitCenter + s.offset

/-- Getter `forward`: `offset.normalize().negate()`. -/
def forward (s : OrbitState) : Vec3 := -(Vec3.normalize s.offset)

/-- Getter `right`: `forward × up`. -/
def right (s : OrbitState) : Vec3 := Vec3.cross s.forward s.up

/-- Getter `tangent`: `right × forward`. -/
def tangent (s : OrbitState) : Vec3 := Vec3.cross s.right s.forward

/-- Getter `orientation`: quaternion of the `lookAt` matrix towards the
orbit center. -/
def orientation (s : OrbitState) : Quat :=
  quatFromMat (lookAtMat s.position s.orbitCenter s.up)

/-- Setter `distance`: floors at `EPSILON`. -/
def setDistance (s : OrbitState) (v : ℝ) : OrbitState :=
  { s with spherical := { s.spherical with radius := max EPSILON v } }

/-- Setter `theta`. -/
def setTheta (s : OrbitState) (v : ℝ) : OrbitState :=
  { s with spherical := { s.spherical with theta := v } }

/-- Setter `phi`: assigns and calls `makeSafe`. -/
def setPhi (s : OrbitState) (v : ℝ) : OrbitState :=
  { s with spherical := Spherical.makeSafe ({ s.spherical with phi := v }) }

/-- Setter `offset`.  Mirrors the source: early return when the new offset
is approximately the current one; `distance = EPSILON` when the new offset
is approximately zero; otherwise rebuild the spherical from the y-space
vector, restore the accumulated full turns, and take the shorter way
around. -/
def setOffset (s : OrbitState) (tgt : Vec3) : OrbitState :=
  if approxEqualVec3 s.offset tgt then s
  else if approxZeroVec3 tgt then setDistance s EPSILON
  else
    let oldTheta := s.theta
    let turns : ℤ := jsTrunc (oldTheta / (2 * Real.pi))
    let to2 := applyQuat s.fromUpToY tgt
    let sph := (Spherical.fromVec3 to2).makeSafe
    let th1 := sph.theta + (turns : ℝ) * (2 * Real.pi)
    let th2 :=
      if oldTheta - th1 > Real.pi then th1 + 2 * Real.pi
      else if th1 - oldTheta > Real.pi then th1 - 2 * Real.pi
      else th1
    { s with spherical := { sph with theta := th2 } }

/-- Setter `up`.  The source saves `this.offset` (the shared `_offset`
buffer), updates the conversion quaternions, and assigns the buffer back
through the `offset` setter — whose guard recomputes the current offset
into that same buffer, so it always compares the buffer with itself and
returns immediately: the spherical is left unchanged. -/
def setUp (s : OrbitState) (v : Vec3) : OrbitState :=
  if approxEqualVec3 s.up v then s
  else
    { s with upv := v,
             fromUpToY := Quat.setFromUnitVectors v yAxis,
             fromYToUp := Quat.invert (Quat.setFromUnitVectors v yAxis) }

/-- `setPosition`: `offset = to - orbitCenter`. -/
def setPosition (s : OrbitState) (tgt : Vec3) : OrbitState :=
  s.setOffset (tgt - s.orbitCenter)

/-- `setOrbitCenter`: keeps the camera position by re-deriving the offset. -/
def setOrbitCenter (s : OrbitState) (tgt : Vec3) : OrbitState :=
  if approxEqualVec3 s.orbitCenter tgt then s
  else
    let s1 := s.setOffset (s.position - tgt)
    { s1 with orbitCenter := tgt }

/-- `lookAt`: implemented through `setOrbitCenter`. -/
def lookAt (s : OrbitState) (target : Vec3) : OrbitState :=
  let p := s.position
  let off := Vec3.setLength (p - target) s.distance
  s.setOrbitCenter (p - off)

/-- `normalize`: wraps theta into `[0, 2π)` and calls `makeSafe`. -/
def normalizeState (s : OrbitState) : OrbitState :=
  { s with spherical :=
      (Spherical.makeSafe
        ({ s.spherical with theta := euclideanModulo s.spherical.theta (2 * Real.pi) })) }

/-- `saveState` (base class `ControlState`). -/
def saveState (s : OrbitState) : SaveState :=
  ⟨s.orbitCenter, s.offset, Vec3.normalize s.forward, Vec3.normalize s.up⟩

/-- `loadState`. -/
def loadState (s : OrbitState) (st : SaveState) : OrbitState :=
  let s1 := { s with orbitCenter := st.orbitCenter }
  let s2 := s1.setUp st.up
  let tgt := if approxZeroVec3 st.offset then Vec3.setLength (-st.forward) EPSILON
             else st.offset
  (s2.setOffset tgt).normalizeState

end OrbitState

/-- The part of a three.js `Object3D` (camera) the controllers read:
position, quaternion and up vector. -/
structure ObjState where
  position : Vec3
  quaternion : Quat
  up : Vec3

/-- `OrbitInterpolator`: `now`/`end` states plus one velocity accumulator per
damped component. -/
structure OrbitInterp where
  now : OrbitState
  endS : OrbitState
  velOC : Vec3
  velPhi : ℝ
  velTheta : ℝ
  velDist : ℝ
  velUp : Vec3

namespace OrbitInterp

/-- `jumpToEnd`: normalize `end`, copy orbit center, phi, theta, distance
into `now` (each through its setter). -/
def jumpToEnd (i : OrbitInterp) : OrbitInterp :=
  let e := i.endS.normalizeState
  let n0 := { i.now with orbitCenter := e.orbitCenter }
  let n := ((n0.setPhi e.phi).setTheta e.theta).setDistance e.distance
  { i with now := n, endS := e }

/-- `discardEnd`: normalize `now`, copy its components into `end`. -/
def discardEnd (i : OrbitInterp) : OrbitInterp :=
  let n := i.now.normalizeState
  let e0 := { i.endS with orbitCenter := n.orbitCenter }
  let e := ((e0.setPhi n.phi).setTheta n.theta).setDistance n.distance
  { i with now := n, endS := e }

/-- The interpolator built by `new OrbitInterpolator()` with no arguments. -/
def init : OrbitInterp :=
  jumpToEnd ⟨OrbitState.init, OrbitState.init, 0, 0, 0, 0, 0⟩

/-- `setFromObject`. -/
def setFromObject (i : OrbitInterp) (o : ObjState) : OrbitInterp :=
  let e1 := i.endS.setUp o.up
  let off := e1.distance • applyQuat o.quaternion zAxis
  let e2 := { e1 with orbitCenter := o.position - off }
  { i with endS := e2.setOffset off }

/-- `setPosition` (base class): forwarded to `end`. -/
def setPosition (i : OrbitInterp) (tgt : Vec3) : OrbitInterp :=
  { i with endS := i.endS.setPosition tgt }

/-- `setOrbitCenter` (base class): forwarded to `end`. -/
def setOrbitCenter (i : OrbitInterp) (tgt : Vec3) : OrbitInterp :=
  { i with endS := i.endS.setOrbitCenter tgt }

/-- `lookAt` (base class): forwarded to `end`. -/
def lookAt (i : OrbitInterp) (target : Vec3) : OrbitInterp :=
  { i with endS := i.endS.lookAt target }

/-- `saveState` (base class): reads from `now`. -/
def saveState (i : OrbitInterp) : SaveState := i.now.saveState

/-- `loadState` (base class): writes into `end`. -/
def loadState (i : OrbitInterp) (st : SaveState) : OrbitInterp :=
  { i with endS := i.endS.loadState st }

/-- `clampDistance`. -/
def clampDistance (i : OrbitInterp) (mn mx : ℝ) : OrbitInterp :=
  { i with endS := i.endS.setDistance (clamp i.endS.distance mn mx) }

/-- `dolly` (with its final `clampDistance`). -/
def dolly (i : OrbitInterp) (scale minStep minDist maxDist : ℝ) : OrbitInterp :=
  let delta := i.endS.distance * (scale - 1)
  let e1 := i.endS.setDistance (i.endS.distance + jsSign delta * max minStep |delta|)
  { i with endS := e1.setDistance (clamp e1.distance minDist maxDist) }

/-- `rotateLeft`: `end.theta += theta`. -/
def rotateLeft (i : OrbitInterp) (θ : ℝ) : OrbitInterp :=
  { i with endS := i.endS.setTheta (i.endS.theta + θ) }

/-- `rotateUp`: `end.phi -= phi`. -/
def rotateUp (i : OrbitInterp) (φ : ℝ) : OrbitInterp :=
  { i with endS := i.endS.setPhi (i.endS.phi - φ) }

/-- `panLeft`: shift `end.orbitCenter` along `now.right`. -/
def panLeft (i : OrbitInterp) (δ fov : ℝ) : OrbitInterp :=
  let step := 2 * Real.tan (fov * DEG2RAD * 0.5) * i.now.distance
  { i with endS := { i.endS with
      orbitCenter := i.endS.orbitCenter.addScaledVector i.now.right (-δ * step) } }

/-- `panUp`: shift `end.orbitCenter` along `now.tangent`. -/
def panUp (i : OrbitInterp) (δ fov : ℝ) : OrbitInterp :=
  let step := 2 * Real.tan (fov * DEG2RAD * 0.5) * i.now.distance
  { i with endS := { i.endS with
      orbitCenter := i.endS.orbitCenter.addScaledVector i.now.tangent (-δ * step) } }

/-- `update`: per component, snap when approximately equal (zeroing the
velocity), otherwise advance with the matching damp function ( the orbit
center damp call aliases its `out` with `current`).  Returns the new
interpolator and `needsUpdate`; when nothing moved, `discardEnd` runs. -/
def update (i : OrbitInterp) (smoothTime deltaTime : ℝ) : OrbitInterp × Bool :=
  let ocEq := approxEqualVec3 i.now.orbitCenter i.endS.orbitCenter
  let ocr := smoothDampVec3Aliased i.now.orbitCenter i.endS.orbitCenter i.velOC
    smoothTime none deltaTime
  let oc' := if ocEq then i.endS.orbitCenter else ocr.output
  let velOC' := if ocEq then 0 else ocr.velocity
  let phiEq := approxEqual i.now.phi i.endS.phi
  let phir := smoothDamp i.now.phi i.endS.phi i.velPhi smoothTime none deltaTime
  let phi' := if phiEq then i.endS.phi else phir.output
  let velPhi' := if phiEq then 0 else phir.velocity
  let thEq := approxEqual i.now.theta i.endS.theta
  let thr := smoothDamp i.now.theta i.endS.theta i.velTheta smoothTime none deltaTime
  let th' := if thEq then i.endS.theta else thr.output
  let velTh' := if thEq then 0 else thr.velocity
  let dEq := approxEqual i.now.distance i.endS.distance
  let dr := smoothDamp i.now.distance i.endS.distance i.velDist smoothTime none deltaTime
  let d' := if dEq then i.endS.distance else dr.output
  let velD' := if dEq then 0 else dr.velocity
  let upEq := approxEqualVec3 i.now.up i.endS.up
  let upr := smoothDampVec3 i.now.up i.endS.up i.velUp smoothTime none deltaTime
  let up' := if upEq then i.endS.up else upr.output
  let velUp' := if upEq then 0 else upr.velocity
  let n0 := { i.now with orbitCenter := oc' }
  let n := (((n0.setPhi phi').setTheta th').setDistance d').setUp up'
  let i' : OrbitInterp := ⟨n, i.endS, velOC', velPhi', velTh', velD', velUp'⟩
  let needs := ¬ ocEq ∨ ¬ phiEq ∨ ¬ thEq ∨ ¬ dEq ∨ ¬ upEq
  if needs then (i', true) else (i'.discardEnd, false)

end OrbitInterp

/-! ### `IsotropicState` and `IsotropicInterpolator` -/

/-- The stored fields of `IsotropicState`: orbit center, free quaternion,
distance. -/
structure IsoState where
  orbitCenter : Vec3
  quaternion : Quat
  dist : ℝ

namespace IsoState

/-- A freshly constructed `IsotropicState` (identity quaternion,
distance 1). -/
def init : IsoState := ⟨0, Quat.id, 1⟩

/-- Getter `distance`. -/
def distance (s : IsoState) : ℝ := s.dist

/-- Getter `forward`: `AXIS.Z.negate().applyQuaternion(q)`. -/
def forward (s : IsoState) : Vec3 := applyQuat s.quaternion (-zAxis)

/-- Getter `up`. -/
def up (s : IsoState) : Vec3 := applyQuat s.quaternion yAxis

/-- Getter `right`. -/
def right (s : IsoState) : Vec3 := applyQuat s.quaternion xAxis

/-- Getter `offset`: `forward * (-distance)`. -/
def offset (s : IsoState) : Vec3 := (-s.dist) • s.forward

/-- Getter `position`. -/
def position (s : IsoState) : Vec3 := s.orbitCenter + s.offset

/-- Getter `orientation`: the quaternion, re-normalized. -/
def orientation (s : IsoState) : Quat := Quat.normalize s.quaternion

/-- Setter `distance`: floors at `EPSILON`. -/
def setDistance (s : IsoState) (v : ℝ) : IsoState :=
  { s with dist := max EPSILON v }

/-- `setPosition`. -/
def setPosition (s : IsoState) (tgt : Vec3) : IsoState :=
  if approxEqualVec3 tgt s.position then s
  else
    let s1 := s.setDistance (Vec3.distanceTo s.orbitCenter tgt)
    if approxZero s1.distance then s1
    else
      let newForward := Vec3.normalize (tgt - s.orbitCenter)
      let oldForward := s1.forward
      let rot := Quat.setFromUnitVectors oldForward newForward
      { s1 with quaternion := Quat.mul rot s1.quaternion }

/-- `setOrbitCenter`. -/
def setOrbitCenter (s : IsoState) (tgt : Vec3) : IsoState :=
  if approxEqualVec3 tgt s.orbitCenter then s
  else
    let oldForward := s.forward
    let pos := s.position
    let s1 := ({ s with orbitCenter := tgt }).setDistance (Vec3.distanceTo pos tgt)
    if approxZero s1.distance then s1
    else
      let newForward := Vec3.normalize (tgt - pos)
      if approxParallel oldForward newForward then s1
      else
        let rot := if approxAntiparallel oldForward newForward
                   then Quat.fromAxisAngle s1.up Real.pi
                   else Quat.setFromUnitVectors oldForward newForward
        { s1 with quaternion := Quat.mul rot s1.quaternion }

/-- `lookAt`: implemented through `setOrbitCenter`. -/
def lookAt (s : IsoState) (target : Vec3) : IsoState :=
  let pos := s.position
  let off := Vec3.setLength (pos - target) s.distance
  s.setOrbitCenter (pos - off)

/-- `normalize`: quaternion normalization plus Euler-angle wrap. -/
def normalizeState (s : IsoState) : IsoState :=
  { s with quaternion := normalizeQuatEuler s.quaternion }

/-- `setFromObject`. -/
def setFromObject (s : IsoState) (o : ObjState) : IsoState :=
  let s1 := { s with quaternion := o.quaternion }
  { s1 with orbitCenter := o.position - s1.offset }

/-- `saveState` (base class `ControlState`). -/
def saveState (s : IsoState) : SaveState :=
  ⟨s.orbitCenter, s.offset, Vec3.normalize s.forward, Vec3.normalize s.up⟩

/-- `loadState`. -/
def loadState (s : IsoState) (st : SaveState) : IsoState :=
  let s1 := { s with orbitCenter := st.orbitCenter }
  let s2 := s1.setDistance (Vec3.length st.offset)
  let fwd := if approxZeroVec3 st.offset then st.forward
             else Vec3.normalize (-st.offset)
  let r := Vec3.cross fwd st.up
  let u := Vec3.cross r fwd
  { s2 with quaternion := quatFromMat (makeBasis r u (-fwd)) }

end IsoState

/-- `IsotropicInterpolator`. -/
structure IsoInterp where
  now : IsoState
  endS : IsoState
  velOC : Vec3
  velQuat : Quat
  velDist : ℝ

namespace IsoInterp

/-- `jumpToEnd`. -/
def jumpToEnd (i : IsoInterp) : IsoInterp :=
  let e := i.endS.normalizeState
  let n0 := { i.now with orbitCenter := e.orbitCenter }
  let n := { n0.setDistance e.distance with quaternion := e.quaternion }
  { i with now := n, endS := e }

/-- `discardEnd`. -/
def discardEnd (i : IsoInterp) : IsoInterp :=
  let n := i.now.normalizeState
  let e0 := { i.endS with orbitCenter := n.orbitCenter }
  let e := { e0.setDistance n.distance with quaternion := n.quaternion }
  { i with now := n, endS := e }

/-- The interpolator built by `new IsotropicInterpolator()` without
arguments. -/
def init : IsoInterp :=
  jumpToEnd ⟨IsoState.init, IsoState.init, 0, ⟨0, 0, 0, 0⟩, 0⟩

/-- `setFromObject`. -/
def setFromObject (i : IsoInterp) (o : ObjState) : IsoInterp :=
  { i with endS := i.endS.setFromObject o }

/-- `setPosition` (base class). -/
def setPosition (i : IsoInterp) (tgt : Vec3) : IsoInterp :=
  { i with endS := i.endS.setPosition tgt }

/-- `setOrbitCenter` (base class). -/
def setOrbitCenter (i : IsoInterp) (tgt : Vec3) : IsoInterp :=
  { i with endS := i.endS.setOrbitCenter tgt }

/-- `lookAt` (base class). -/
def lookAt (i : IsoInterp) (target : Vec3) : IsoInterp :=
  { i with endS := i.endS.lookAt target }

/-- `saveState` (base class): reads from `now`. -/
def saveState (i : IsoInterp) : SaveState := i.now.saveState

/-- `loadState` (base class): writes into `end`. -/
def loadState (i : IsoInterp) (st : SaveState) : IsoInterp :=
  { i with endS := i.endS.loadState st }

/-- `clampDistance`. -/
def clampDistance (i : IsoInterp) (mn mx : ℝ) : IsoInterp :=
  { i with endS := i.endS.setDistance (clamp i.endS.distance mn mx) }

/-- `dolly` (with its final `clampDistance`). -/
def dolly (i : IsoInterp) (scale minStep minDist maxDist : ℝ) : IsoInterp :=
  let delta := i.endS.distance * (scale - 1)
  let e1 := i.endS.setDistance (i.endS.distance + jsSign delta * max minStep |delta|)
  { i with endS := e1.setDistance (clamp e1.distance minDist maxDist) }

/-- `rotateLeft`: `end.quaternion.multiply(rotY(theta))`. -/
def rotateLeft (i : IsoInterp) (θ : ℝ) : IsoInterp :=
  { i with endS := { i.endS with
      quaternion := Quat.mul i.endS.quaternion (Quat.fromAxisAngle yAxis θ) } }

/-- `rotateUp`: `end.quaternion.multiply(rotX(-phi))`. -/
def rotateUp (i : IsoInterp) (φ : ℝ) : IsoInterp :=
  { i with endS := { i.endS with
      quaternion := Quat.mul i.endS.quaternion (Quat.fromAxisAngle xAxis (-φ)) } }

/-- `panLeft`: shift `end.orbitCenter` along `now.right`. -/
def panLeft (i : IsoInterp) (δ fov : ℝ) : IsoInterp :=
  let step := 2 * Real.tan (fov * DEG2RAD * 0.5) * i.now.distance
  { i with endS := { i.endS with
      orbitCenter := i.endS.orbitCenter.addScaledVector i.now.right (-δ * step) } }

/-- `panUp`: shift `end.orbitCenter` along `now.up`. -/
def panUp (i : IsoInterp) (δ fov : ℝ) : IsoInterp :=
  let step := 2 * Real.tan (fov * DEG2RAD * 0.5) * i.now.distance
  { i with endS := { i.endS with
      orbitCenter := i.endS.orbitCenter.addScaledVector i.now.up (-δ * step) } }

/-- `update`. -/
def update (i : IsoInterp) (smoothTime deltaTime : ℝ) : IsoInterp × Bool :=
  let ocEq := approxEqualVec3 i.now.orbitCenter i.endS.orbitCenter
  let ocr := smoothDampVec3Aliased i.now.orbitCenter i.endS.orbitCenter i.velOC
    smoothTime none deltaTime
  let oc' := if ocEq then i.endS.orbitCenter else ocr.output
  let velOC' := if ocEq then 0 else ocr.velocity
  let qEq := approxEqualQuat i.now.quaternion i.endS.quaternion
  let qr := smoothDampQuat i.now.quaternion i.endS.quaternion i.velQuat
    smoothTime deltaTime
  let q' := if qEq then i.endS.quaternion else qr.output
  let velQ' := if qEq then ⟨0, 0, 0, 0⟩ else qr.velocity
  let dEq := approxEqual i.now.distance i.endS.distance
  let dr := smoothDamp i.now.distance i.endS.distance i.velDist smoothTime none deltaTime
  let d' := if dEq then i.endS.distance else dr.output
  let velD' := if dEq then 0 else dr.velocity
  let n0 := { i.now with orbitCenter := oc', quaternion := q' }
  let n := n0.setDistance d'
  let i' : IsoInterp := ⟨n, i.endS, velOC', velQ', velD'⟩
  let needs := ¬ ocEq ∨ ¬ qEq ∨ ¬ dEq
  if needs then (i', true) else (i'.discardEnd, false)

end IsoInterp

/-! ### `GroundedState` and `GroundedInterpolator` -/

/-- The stored fields of `GroundedState`: orbit center, offset quaternion,
look-up angle, distance and the pending translation. -/
structure GroundState where
  orbitCenter : Vec3
  offsetQuat : Quat
  lookUpAngle : ℝ
  dist : ℝ
  translation : Vec3

namespace GroundState

/-- A freshly constructed `GroundedState` (identity quaternion, look-up
angle `EPSILON`, distance 1, zero translation). -/
def init : GroundState := ⟨0, Quat.id, EPSILON, 1, 0⟩

/-- Getter `distance`. -/
def distance (s : GroundState) : ℝ := s.dist

/-- Getter `offset`: `(0,0,distance)` rotated by `offsetQuat`. -/
def offset (s : GroundState) : Vec3 := applyQuat s.offsetQuat ⟨0, 0, s.dist⟩

/-- Getter `position`. -/
def position (s : GroundState) : Vec3 := s.orbitCenter + s.offset

/-- Getter `orientation`: `rotX(lookUpAngle).premultiply(offsetQuat)`. -/
def orientation (s : GroundState) : Quat :=
  Quat.mul s.offsetQuat (Quat.fromAxisAngle xAxis s.lookUpAngle)

/-- Getter `right`. -/
def right (s : GroundState) : Vec3 := applyQuat s.offsetQuat xAxis

/-- Getter `up`: the rotated z-axis. -/
def up (s : GroundState) : Vec3 := applyQuat s.offsetQuat zAxis

/-- Getter `forward`: `AXIS.Z.negate().applyQuaternion(orientation)`. -/
def forward (s : GroundState) : Vec3 := applyQuat s.orientation (-zAxis)

/-- Setter `distance`: floors at `EPSILON`. -/
def setDistance (s : GroundState) (v : ℝ) : GroundState :=
  { s with dist := max EPSILON v }

/-- Setter `lookUpAngle`: clamps into `[EPSILON, π - EPSILON]`. -/
def setLookUpAngle (s : GroundState) (v : ℝ) : GroundState :=
  { s with lookUpAngle := clamp v EPSILON (Real.pi - EPSILON) }

/-- `applyTranslation`: folds `delta` into distance, look-up angle and
offset quaternion, and removes it from the pending translation. -/
def applyTranslation (s : GroundState) (delta : Vec3) : GroundState :=
  let newOffset := s.offset + delta
  let s1 := s.setDistance (Vec3.length newOffset)
  let oldUp := s.up
  let newUp := Vec3.normalize newOffset
  let angle := jsSign (Vec3.dot s.forward delta) * Vec3.angleTo oldUp newUp
  let s2 := s1.setLookUpAngle (s1.lookUpAngle + angle)
  let rot := Quat.setFromUnitVectors s.up newUp
  let s3 := { s2 with offsetQuat := Quat.mul rot s2.offsetQuat }
  { s3 with translation := s3.translation - delta }

/-- `normalize`: apply the whole pending translation, zero it, and
canonicalize the quaternion through the Euler wrap. -/
def normalizeState (s : GroundState) : GroundState :=
  let s1 := s.applyTranslation s.translation
  let s2 := { s1 with translation := 0 }
  { s2 with offsetQuat := normalizeQuatEuler s2.offsetQuat }

/-- `lookAt`: rotates the view horizontally (yaw of `offsetQuat`) and sets
the look-up angle; position and orbit center are untouched. -/
def lookAt (s : GroundState) (target : Vec3) : GroundState :=
  if approxEqualVec3 s.position target then s
  else
    let newForward := Vec3.normalize (target - s.position)
    if approxParallel s.forward newForward then s
    else
      let upv := s.up
      let s1 :=
        if ¬ approxCollinear newForward upv then
          let oldRight := s.right
          let newRight := Vec3.cross newForward upv
          if approxAntiparallel oldRight newRight then
            { s with offsetQuat :=
                Quat.mul s.offsetQuat (Quat.fromAxisAngle zAxis Real.pi) }
          else if ¬ approxParallel oldRight newRight then
            { s with offsetQuat :=
                Quat.mul (Quat.setFromUnitVectors oldRight newRight) s.offsetQuat }
          else s
        else s
      s1.setLookUpAngle (Real.pi - Vec3.angleTo upv newForward)

/-- `setPosition`. -/
def setPosition (s : GroundState) (tgt : Vec3) : GroundState :=
  if approxEqualVec3 s.position tgt then s
  else
    let s1 := s.setDistance (Vec3.distanceTo s.orbitCenter tgt)
    if approxEqualVec3 s1.orbitCenter tgt then s1
    else
      let fwd := s1.forward
      let newUp := Vec3.normalize (tgt - s1.orbitCenter)
      let oldUp := s1.up
      let rot := Quat.setFromUnitVectors oldUp newUp
      let s2 := { s1 with offsetQuat := Quat.mul rot s1.offsetQuat }
      s2.lookAt (s2.position + fwd)

/-- `setOrbitCenter`. -/
def setOrbitCenter (s : GroundState) (tgt : Vec3) : GroundState :=
  if approxEqualVec3 s.orbitCenter tgt then s
  else
    let pos := s.position
    let s1 := { s.setDistance (Vec3.distanceTo pos tgt) with orbitCenter := tgt }
    if ¬ approxEqualVec3 pos tgt then s1
    else
      let fwd := s1.forward
      let oldUp := s1.up
      let newUp := Vec3.normalize (pos - tgt)
      if approxParallel oldUp newUp then s1
      else
        let rot := Quat.setFromUnitVectors oldUp newUp
        let s2 := { s1 with offsetQuat := Quat.mul rot s1.offsetQuat }
        s2.lookAt (s2.position + fwd)

/-- `setFromObject`. -/
def setFromObject (s : GroundState) (o : ObjState) : GroundState :=
  let q := Quat.mul o.quaternion (Quat.invert (Quat.fromAxisAngle xAxis s.lookUpAngle))
  let s1 := { s with offsetQuat := q }
  { s1 with orbitCenter := o.position - s1.offset }

/-- `saveState` (base class `ControlState`). -/
def saveState (s : GroundState) : SaveState :=
  ⟨s.orbitCenter, s.offset, Vec3.normalize s.forward, Vec3.normalize s.up⟩

/-- `loadState`, with the candidate chain
`[up, state.up, AXIS.Y, AXIS.Z]` for the right-axis derivation. -/
def loadState (s : GroundState) (st : SaveState) : GroundState :=
  let fwd := Vec3.normalize st.forward
  let upv := if approxZeroVec3 st.offset then -fwd else Vec3.normalize st.offset
  let cand := if ¬ approxCollinear fwd upv then upv
              else if ¬ approxCollinear fwd st.up then st.up
              else if ¬ approxCollinear fwd yAxis then yAxis
              else zAxis
  let r := Vec3.normalize (-(Vec3.cross cand fwd))
  let tangent := Vec3.cross upv r
  let q := Quat.normalize (quatFromMat (makeBasis r tangent upv))
  let s1 := { s with offsetQuat := q, orbitCenter := st.orbitCenter }
  let s2 := s1.setDistance (Vec3.length st.offset)
  let s3 := s2.setLookUpAngle (Real.pi - Vec3.angleTo upv fwd)
  { s3 with translation := 0 }

end GroundState

/-- `GroundedInterpolator`. -/
structure GroundInterp where
  now : GroundState
  endS : GroundState
  velOC : Vec3
  velQuat : Quat
  velLook : ℝ
  velDist : ℝ
  velTrans : Vec3

namespace GroundInterp

/-- `jumpToEnd`. -/
def jumpToEnd (i : GroundInterp) : GroundInterp :=
  let e := i.endS.normalizeState
  let n0 := { i.now with orbitCenter := e.orbitCenter, offsetQuat := e.offsetQuat }
  let n := { (n0.setLookUpAngle e.lookUpAngle).setDistance e.distance with
      translation := e.translation }
  { i with now := n, endS := e }

/-- `discardEnd`. -/
def discardEnd (i : GroundInterp) : GroundInterp :=
  let n := i.now.normalizeState
  let e0 := { i.endS with orbitCenter := n.orbitCenter, offsetQuat := n.offsetQuat }
  let e := { (e0.setLookUpAngle n.lookUpAngle).setDistance n.distance with
      translation := n.translation }
  { i with now := n, endS := e }

/-- The interpolator built by `new GroundedInterpolator()` without
arguments. -/
def init : GroundInterp :=
  jumpToEnd ⟨GroundState.init, GroundState.init, 0, ⟨0, 0, 0, 0⟩, 0, 0, 0⟩

/-- `setFromObject`. -/
def setFromObject (i : GroundInterp) (o : ObjState) : GroundInterp :=
  { i with endS := i.endS.setFromObject o }

/-- `setPosition` (base class). -/
def setPosition (i : GroundInterp) (tgt : Vec3) : GroundInterp :=
  { i with endS := i.endS.setPosition tgt }

/-- `setOrbitCenter` (base class). -/
def setOrbitCenter (i : GroundInterp) (tgt : Vec3) : GroundInterp :=
  { i with endS := i.endS.setOrbitCenter tgt }

/-- `lookAt` (base class). -/
def lookAt (i : GroundInterp) (target : Vec3) : GroundInterp :=
  { i with endS := i.endS.lookAt target }

/-- `saveState` (base class): reads from `now`. -/
def saveState (i : GroundInterp) : SaveState := i.now.saveState

/-- `loadState` (base class): writes into `end`. -/
def loadState (i : GroundInterp) (st : SaveState) : GroundInterp :=
  { i with endS := i.endS.loadState st }

/-- `clampDistance` (does not take the pending translation into account). -/
def clampDistance (i : GroundInterp) (mn mx : ℝ) : GroundInterp :=
  { i with endS := i.endS.setDistance (clamp i.endS.distance mn mx) }

/-- `dolly`: accumulates a step along the viewing direction into the
pending translation of `end`, respecting the distance limits. -/
def dolly (i : GroundInterp) (scale minStep minDist maxDist : ℝ) : GroundInterp :=
  if scale = 0 then i
  else
    let direction := jsSign (1 - scale) • i.now.forward
    let step := minStep + |1 - scale| * Real.sqrt i.now.distance
    let newDist := Vec3.length
      ((i.endS.offset + i.endS.translation).addScaledVector direction step)
    let step' := if newDist < minDist then step + (newDist - minDist)
                 else if newDist > maxDist then step + (maxDist - newDist)
                 else step
    { i with endS := { i.endS with
        translation := i.endS.translation.addScaledVector direction step' } }

/-- `rotateLeft`: `end.offsetQuat.multiply(rotZ(-theta))`. -/
def rotateLeft (i : GroundInterp) (θ : ℝ) : GroundInterp :=
  { i with endS := { i.endS with
      offsetQuat := Quat.mul i.endS.offsetQuat (Quat.fromAxisAngle zAxis (-θ)) } }

/-- `rotateUp`: `end.lookUpAngle += phi`. -/
def rotateUp (i : GroundInterp) (φ : ℝ) : GroundInterp :=
  { i with endS := i.endS.setLookUpAngle (i.endS.lookUpAngle + φ) }

/-- `panLeft`: `end.offsetQuat.multiply(rotY(-delta))`. -/
def panLeft (i : GroundInterp) (δ : ℝ) : GroundInterp :=
  { i with endS := { i.endS with
      offsetQuat := Quat.mul i.endS.offsetQuat (Quat.fromAxisAngle yAxis (-δ)) } }

/-- `panUp`: `end.offsetQuat.multiply(rotX(delta))`. -/
def panUp (i : GroundInterp) (δ : ℝ) : GroundInterp :=
  { i with endS := { i.endS with
      offsetQuat := Quat.mul i.endS.offsetQuat (Quat.fromAxisAngle xAxis δ) } }

/-- `update`.  The translation damp call aliases `out` with
`now.translation` and applies the damped delta to both states within the
same call. -/
def update (i : GroundInterp) (smoothTime deltaTime : ℝ) : GroundInterp × Bool :=
  let ocEq := approxEqualVec3 i.now.orbitCenter i.endS.orbitCenter
  let ocr := smoothDampVec3Aliased i.now.orbitCenter i.endS.orbitCenter i.velOC
    smoothTime none deltaTime
  let oc' := if ocEq then i.endS.orbitCenter else ocr.output
  let velOC' := if ocEq then 0 else ocr.velocity
  let qEq := approxEqualQuat i.now.offsetQuat i.endS.offsetQuat
  let qr := smoothDampQuat i.now.offsetQuat i.endS.offsetQuat i.velQuat
    smoothTime deltaTime
  let q' := if qEq then i.endS.offsetQuat else qr.output
  let velQ' := if qEq then ⟨0, 0, 0, 0⟩ else qr.velocity
  let lEq := approxEqual i.now.lookUpAngle i.endS.lookUpAngle
  let lr := smoothDamp i.now.lookUpAngle i.endS.lookUpAngle i.velLook
    smoothTime none deltaTime
  let l' := if lEq then i.endS.lookUpAngle else lr.output
  let velL' := if lEq then 0 else lr.velocity
  let dEq := approxEqual i.now.distance i.endS.distance
  let dr := smoothDamp i.now.distance i.endS.distance i.velDist smoothTime none deltaTime
  let d' := if dEq then i.endS.distance else dr.output
  let velD' := if dEq then 0 else dr.velocity
  let n0 := { i.now with orbitCenter := oc', offsetQuat := q' }
  let n1 := (n0.setLookUpAngle l').setDistance d'
  let tEq := approxZeroVec3 i.endS.translation (EPSILON / 100)
  let tr := smoothDampVec3Aliased n1.translation i.endS.translation i.velTrans
    smoothTime none deltaTime
  let n2 := if tEq then { n1 with translation := i.endS.translation }
            else ({ n1 with translation := tr.output }).applyTranslation tr.output
  let e' := if tEq then i.endS else i.endS.applyTranslation tr.output
  let velT' := if tEq then 0 else tr.velocity
  let i' : GroundInterp := ⟨n2, e', velOC', velQ', velL', velD', velT'⟩
  let needs := ¬ ocEq ∨ ¬ qEq ∨ ¬ lEq ∨ ¬ dEq ∨ ¬ tEq
  if needs then (i', true) else (i'.discardEnd, false)

end GroundInterp

/-! ### Operation lists (public interface of the interpolators) -/

/-- One public operation on an `OrbitInterpolator`. -/
inductive OrbitOp where
  | setFromObject (o : ObjState)
  | setPosition (v : Vec3)
  | setOrbitCenter (v : Vec3)
  | lookAt (v : Vec3)
  | dolly (scale minStep minDist maxDist : ℝ)
  | clampDistance (mn mx : ℝ)
  | rotateLeft (θ : ℝ)
  | rotateUp (φ : ℝ)
  | panLeft (δ fov : ℝ)
  | panUp (δ fov : ℝ)
  | normalizeStates
  | jumpToEnd
  | discardEnd
  | update (st dt : ℝ)
  | loadState (st : SaveState)

/-- Apply one operation to an `OrbitInterpolator`. -/
def OrbitInterp.applyOp (i : OrbitInterp) : OrbitOp → OrbitInterp
  | .setFromObject o => i.setFromObject o
  | .setPosition v => i.setPosition v
  | .setOrbitCenter v => i.setOrbitCenter v
  | .lookAt v => i.lookAt v
  | .dolly a b c d => i.dolly a b c d
  | .clampDistance mn mx => i.clampDistance mn mx
  | .rotateLeft θ => i.rotateLeft θ
  | .rotateUp φ => i.rotateUp φ
  | .panLeft δ fov => i.panLeft δ fov
  | .panUp δ fov => i.panUp δ fov
  | .normalizeStates =>
      { i with now := i.now.normalizeState, endS := i.endS.normalizeState }
  | .jumpToEnd => i.jumpToEnd
  | .discardEnd => i.discardEnd
  | .update st dt => (i.update st dt).1
  | .loadState st => i.loadState st

/-- Run a list of operations from the freshly constructed interpolator. -/
def OrbitInterp.runOps (ops : List OrbitOp) : OrbitInterp :=
  ops.foldl OrbitInterp.applyOp OrbitInterp.init

/-- One public operation on an `IsotropicInterpolator`. -/
inductive IsoOp where
  | setFromObject (o : ObjState)
  | setPosition (v : Vec3)
  | setOrbitCenter (v : Vec3)
  | lookAt (v : Vec3)
  | dolly (scale minStep minDist maxDist : ℝ)
  | clampDistance (mn mx : ℝ)
  | rotateLeft (θ : ℝ)
  | rotateUp (φ : ℝ)
  | panLeft (δ fov : ℝ)
  | panUp (δ fov : ℝ)
  | normalizeStates
  | jumpToEnd
  | discardEnd
  | update (st dt : ℝ)
  | loadState (st : SaveState)

/-- Apply one operation to an `IsotropicInterpolator`. -/
def IsoInterp.applyOp (i : IsoInterp) : IsoOp → IsoInterp
  | .setFromObject o => i.setFromObject o
  | .setPosition v => i.setPosition v
  | .setOrbitCenter v => i.setOrbitCenter v
  | .lookAt v => i.lookAt v
  | .dolly a b c d => i.dolly a b c d
  | .clampDistance mn mx => i.clampDistance mn mx
  | .rotateLeft θ => i.rotateLeft θ
  | .rotateUp φ => i.rotateUp φ
  | .panLeft δ fov => i.panLeft δ fov
  | .panUp δ fov => i.panUp δ fov
  | .normalizeStates =>
      { i with now := i.now.normalizeState, endS := i.endS.normalizeState }
  | .jumpToEnd => i.jumpToEnd
  | .discardEnd => i.discardEnd
  | .update st dt => (i.update st dt).1
  | .loadState st => i.loadState st

/-- Run a list of operations from the freshly constructed interpolator. -/
def IsoInterp.runOps (ops : List IsoOp) : IsoInterp :=
  ops.foldl IsoInterp.applyOp IsoInterp.init

/-- One public operation on a `GroundedInterpolator`. -/
inductive GroundOp where
  | setFromObject (o : ObjState)
  | setPosition (v : Vec3)
  | setOrbitCenter (v : Vec3)
  | lookAt (v : Vec3)
  | dolly (scale minStep minDist maxDist : ℝ)
  | clampDistance (mn mx : ℝ)
  | rotateLeft (θ : ℝ)
  | rotateUp (φ : ℝ)
  | panLeft (δ : ℝ)
  | panUp (δ : ℝ)
  | normalizeStates
  | jumpToEnd
  | discardEnd
  | update (st dt : ℝ)
  | loadState (st : SaveState)

/-- Apply one operation to a `GroundedInterpolator`. -/
def GroundInterp.applyOp (i : GroundInterp) : GroundOp → GroundInterp
  | .setFromObject o => i.setFromObject o
  | .setPosition v => i.setPosition v
  | .setOrbitCenter v => i.setOrbitCenter v
  | .lookAt v => i.lookAt v
  | .dolly a b c d => i.dolly a b c d
  | .clampDistance mn mx => i.clampDistance mn mx
  | .rotateLeft θ => i.rotateLeft θ
  | .rotateUp φ => i.rotateUp φ
  | .panLeft δ => i.panLeft δ
  | .panUp δ => i.panUp δ
  | .normalizeStates =>
      { i with now := i.now.normalizeState, endS := i.endS.normalizeState }
  | .jumpToEnd => i.jumpToEnd
  | .discardEnd => i.discardEnd
  | .update st dt => (i.update st dt).1
  | .loadState st => i.loadState st

/-- Run a list of operations from the freshly constructed interpolator. -/
def GroundInterp.runOps (ops : List GroundOp) : GroundInterp :=
  ops.foldl GroundInterp.applyOp GroundInterp.init

/-- Well-formedness of an `OrbitState` for the distance invariant: the
distance is at least `EPSILON` and the conversion quaternion is a unit
quaternion (it is only ever written by `setFromUnitVectors`). -/
def OrbitStateWF (s : OrbitState) : Prop :=
  EPSILON ≤ s.distance ∧ Quat.normSq s.fromUpToY = 1

/-- Well-formedness of an `OrbitInterpolator`: both states. -/
def OrbitWF (i : OrbitInterp) : Prop := OrbitStateWF i.now ∧ OrbitStateWF i.endS

/-- Distance invariant for an `IsotropicInterpolator`. -/
def IsoWF (i : IsoInterp) : Prop :=
  EPSILON ≤ i.now.distance ∧ EPSILON ≤ i.endS.distance

/-- Distance invariant for a `GroundedInterpolator`. -/
def GroundWF (i : GroundInterp) : Prop :=
  EPSILON ≤ i.now.distance ∧ EPSILON ≤ i.endS.distance

/-! ## Theorems -/

theorem dampOmega_pos (st : ℝ) : 0 < dampOmega st := by
  have : (0:ℝ) < max 0.0001 st := lt_max_of_lt_left (by norm_num)
  unfold dampOmega
  positivity

theorem dampX_pos (st : ℝ) {dt : ℝ} (hdt : 0 < dt) : 0 < dampX st dt :=
  mul_pos (dampOmega_pos st) hdt

theorem dampD_pos (st : ℝ) {dt : ℝ} (hdt : 0 < dt) : 0 < dampD st dt := by
  have hx := dampX_pos st hdt
  unfold dampD
  nlinarith [sq_nonneg (dampX st dt), pow_pos hx 3]

theorem dampE_pos (st : ℝ) {dt : ℝ} (hdt : 0 < dt) : 0 < dampE st dt := by
  have := dampD_pos st hdt
  unfold dampE
  positivity

theorem dampE_mul_D (st : ℝ) {dt : ℝ} (hdt : 0 < dt) :
    dampE st dt * dampD st dt = 1 := by
  have h := (dampD_pos st hdt).ne.symm
  unfold dampE
  field_simp

theorem dampE_one_add_x_le (st : ℝ) {dt : ℝ} (hdt : 0 < dt) :
    dampE st dt * (1 + dampX st dt) ≤ 1 := by
  have hD := dampD_pos st hdt
  have hx := dampX_pos st hdt
  unfold dampE
  rw [div_mul_eq_mul_div, div_le_one hD]
  unfold dampD
  nlinarith [sq_nonneg (dampX st dt), pow_pos hx 3]

theorem smoothDampRaw_none_fst (cur tgt v st dt : ℝ) :
    (smoothDampRaw cur tgt v st none dt).1 =
      tgt + dampE st dt * ((cur - tgt) * (1 + dampX st dt) + v * dt) := by
  simp only [smoothDampRaw, dampE, dampD, dampX, dampOmega]
  ring

theorem smoothDampRaw_none_snd (cur tgt v st dt : ℝ) :
    (smoothDampRaw cur tgt v st none dt).2 =
      dampE st dt * (v * (1 - dampX st dt) - dampOmega st * dampX st dt * (cur - tgt)) := by
  simp only [smoothDampRaw, dampE, dampD, dampX, dampOmega]
  ring

set_option maxHeartbeats 1000000 in
/-- One `smoothDamp` step preserves the trajectory invariant, does not
increase the distance to the target, and never crosses the target. -/
theorem dampStep_preserves (tgt st dt : ℝ) (hdt : 0 < dt) (p : ℝ × ℝ)
    (hinv : dampInv tgt st p) :
    dampInv tgt st (dampStep tgt st dt p) ∧
    |(dampStep tgt st dt p).1 - tgt| ≤ |p.1 - tgt| ∧
    0 ≤ ((dampStep tgt st dt p).1 - tgt) * (p.1 - tgt) := by
  obtain ⟨p1, p2⟩ := p
  obtain ⟨hs, hb⟩ := hinv
  simp only at hs hb ⊢
  have hω : 0 < dampOmega st := dampOmega_pos st
  have hx : 0 < dampX st dt := dampX_pos st hdt
  have he : 0 < dampE st dt := dampE_pos st hdt
  have hex : dampE st dt * (1 + dampX st dt) ≤ 1 := dampE_one_add_x_le st hdt
  have hxeq : dampX st dt = dampOmega st * dt := rfl
  have hstep : dampStep tgt st dt (p1, p2) =
      if (tgt - p1 > 0) = (tgt + dampE st dt * ((p1 - tgt) * (1 + dampX st dt) + p2 * dt) > tgt)
      then (tgt, (tgt - tgt) / dt)
      else (tgt + dampE st dt * ((p1 - tgt) * (1 + dampX st dt) + p2 * dt),
            dampE st dt * (p2 * (1 - dampX st dt) - dampOmega st * dampX st dt * (p1 - tgt))) := by
    simp only [dampStep, smoothDamp, smoothDampRaw_none_fst, smoothDampRaw_none_snd]
    split_ifs <;> rfl
  unfold dampInv
  rw [hstep]
  set ω := dampOmega st with hωdef
  set x := dampX st dt with hxdef
  set e := dampE st dt with hedef
  set c := p1 - tgt with hc
  rcases lt_trichotomy c 0 with hcneg | hczero | hcpos
  · -- c < 0 : the invariant gives 0 ≤ p2 ≤ -ω·c
    have hv0 : 0 ≤ p2 := by nlinarith
    have hvb : p2 ≤ -(ω * c) := by
      have h2 := (abs_le.mp hb).2
      rw [abs_of_neg hcneg] at h2
      linarith [h2]
    by_cases hcond :
        (tgt - p1 > 0) = (tgt + e * (c * (1 + x) + p2 * dt) > tgt)
    · rw [if_pos hcond]
      norm_num
    · rw [if_neg hcond]
      simp only [add_sub_cancel_left]
      -- non-snap with c < 0 means the raw output did not cross above the target
      have hlt : tgt - p1 > 0 := by rw [hc] at hcneg; linarith
      have hnc : ¬ (tgt + e * (c * (1 + x) + p2 * dt) > tgt) := by
        intro hgt
        exact hcond (by simp only [eq_iff_iff]; exact ⟨fun _ => hgt, fun _ => hlt⟩)
      have hcnew : e * (c * (1 + x) + p2 * dt) ≤ 0 := by
        by_contra hpos
        push_neg at hpos
        exact hnc (by linarith)
      have hsum : p2 + ω * c ≤ 0 := by linarith
      have hron : p2 * (1 - x) - ω * x * c = p2 - x * (p2 + ω * c) := by rw [hxeq]; ring
      have hterm : 0 ≤ x * (-(p2 + ω * c)) := mul_nonneg hx.le (by linarith)
      have hvnew : 0 ≤ e * (p2 * (1 - x) - ω * x * c) := by
        rw [hron]
        exact mul_nonneg he.le (by nlinarith [hterm])
      have hvpc : e * (p2 * (1 - x) - ω * x * c) + ω * (e * (c * (1 + x) + p2 * dt)) =
          e * (p2 + ω * c) := by rw [hxeq]; ring
      have hec : e * (p2 + ω * c) ≤ 0 := mul_nonpos_of_nonneg_of_nonpos he.le hsum
      refine ⟨⟨by nlinarith, ?_⟩, ?_, by nlinarith⟩
      · rw [abs_of_nonneg hvnew, abs_of_nonpos hcnew]
        nlinarith [hvpc, hec]
      · rw [abs_of_nonpos hcnew, abs_of_neg hcneg]
        have hvdt : 0 ≤ e * (p2 * dt) := mul_nonneg he.le (mul_nonneg hv0 hdt.le)
        have h1 : e * (c * (1 + x)) ≤ e * (c * (1 + x) + p2 * dt) := by nlinarith [hvdt]
        have h2 : c ≤ e * (c * (1 + x)) := by
          nlinarith [mul_le_mul_of_nonneg_left hex (neg_nonneg.2 hcneg.le)]
        linarith
  · -- c = 0 : the invariant forces p2 = 0, the raw output equals the target
    have hv0 : p2 = 0 := by
      have hzero := hb
      rw [show |c| = 0 by rw [hczero, abs_zero]] at hzero
      rw [mul_zero] at hzero
      exact abs_eq_zero.mp (le_antisymm hzero (abs_nonneg p2))
    have hcond : (tgt - p1 > 0) = (tgt + e * (c * (1 + x) + p2 * dt) > tgt) := by
      rw [hczero, hv0]
      simp only [eq_iff_iff]
      constructor
      · intro h; rw [hc] at hczero; linarith
      · intro h; linarith
    rw [if_pos hcond]
    norm_num
  · -- c > 0 : the invariant gives -ω·c ≤ p2 ≤ 0
    have hv0 : p2 ≤ 0 := by nlinarith
    have hvb : -(ω * c) ≤ p2 := by
      have h2 := (abs_le.mp hb).1
      rw [abs_of_pos hcpos] at h2
      linarith [h2]
    by_cases hcond :
        (tgt - p1 > 0) = (tgt + e * (c * (1 + x) + p2 * dt) > tgt)
    · rw [if_pos hcond]
      norm_num
    · rw [if_neg hcond]
      simp only [add_sub_cancel_left]
      have hnlt : ¬ (tgt - p1 > 0) := by rw [hc] at hcpos; push_neg; linarith
      have hgt : tgt + e * (c * (1 + x) + p2 * dt) > tgt := by
        by_contra hng
        exact hcond (by simp only [eq_iff_iff]; exact ⟨fun h => absurd h hnlt, fun h => absurd h hng⟩)
      have hcnew : 0 < e * (c * (1 + x) + p2 * dt) := by linarith
      have hsum : 0 ≤ p2 + ω * c := by linarith
      have hron : p2 * (1 - x) - ω * x * c = p2 - x * (p2 + ω * c) := by rw [hxeq]; ring
      have hterm : 0 ≤ x * (p2 + ω * c) := mul_nonneg hx.le hsum
      have hvnew : e * (p2 * (1 - x) - ω * x * c) ≤ 0 := by
        rw [hron]
        exact mul_nonpos_of_nonneg_of_nonpos he.le (by nlinarith [hterm])
      have hvpc : e * (p2 * (1 - x) - ω * x * c) + ω * (e * (c * (1 + x) + p2 * dt)) =
          e * (p2 + ω * c) := by rw [hxeq]; ring
      have hec : 0 ≤ e * (p2 + ω * c) := mul_nonneg he.le hsum
      refine ⟨⟨by nlinarith, ?_⟩, ?_, by nlinarith⟩
      · rw [abs_of_nonpos hvnew, abs_of_pos hcnew]
        nlinarith [hvpc, hec]
      · rw [abs_of_pos hcnew, abs_of_pos hcpos]
        have hvdt : e * (p2 * dt) ≤ 0 :=
          mul_nonpos_of_nonneg_of_nonpos he.le (mul_nonpos_of_nonpos_of_nonneg hv0 hdt.le)
        have h1 : e * (c * (1 + x) + p2 * dt) ≤ e * (c * (1 + x)) := by nlinarith [hvdt]
        have h2 : e * (c * (1 + x)) ≤ c := by
          nlinarith [mul_le_mul_of_nonneg_left hex hcpos.le]
        linarith

/-- The trajectory invariant holds along the whole iterated damp sequence. -/
theorem dampIter_inv (c0 tgt st dt : ℝ) (hdt : 0 < dt) (n : ℕ) :
    dampInv tgt st (dampIter c0 tgt st dt n) := by
  induction n with
  | zero =>
      constructor
      · simp [dampIter]
      · simp only [dampIter, abs_zero]
        exact mul_nonneg (dampOmega_pos st).le (abs_nonneg _)
  | succ n ih => exact (dampStep_preserves tgt st dt hdt _ ih).1

/-- Claim C3: an overshooting `smoothDamp` call returns exactly the target
and writes back a velocity recomputed from the snap (0 for a positive step);
and under repeated fixed-step calls from rest the distance to the target is
non-increasing and the value never crosses to the other side of the target. -/
theorem smoothDamp_overshoot_snaps_and_monotone :
    (∀ current target velocity smoothTime deltaTime : ℝ, 0 < deltaTime →
      ((target - current > 0) ↔
        ((smoothDampRaw current target velocity smoothTime none deltaTime).1 > target)) →
      (smoothDamp current target velocity smoothTime none deltaTime).output = target ∧
      (smoothDamp current target velocity smoothTime none deltaTime).velocity = 0) ∧
    (∀ c0 target smoothTime deltaTime : ℝ, 0 < deltaTime → ∀ n : ℕ,
      |(dampIter c0 target smoothTime deltaTime (n + 1)).1 - target| ≤
        |(dampIter c0 target smoothTime deltaTime n).1 - target| ∧
      0 ≤ ((dampIter c0 target smoothTime deltaTime (n + 1)).1 - target) *
        ((dampIter c0 target smoothTime deltaTime n).1 - target)) := by
  constructor
  · intro current target velocity smoothTime deltaTime _ hiff
    have hcond : (target - current > 0) =
        ((smoothDampRaw current target velocity smoothTime none deltaTime).1 > target) :=
      eq_iff_iff.mpr hiff
    unfold smoothDamp
    rw [if_pos hcond]
    simp
  · intro c0 target smoothTime deltaTime hdt n
    have h := dampStep_preserves target smoothTime deltaTime hdt _
      (dampIter_inv c0 target smoothTime deltaTime hdt n)
    exact ⟨h.2.1, h.2.2⟩

/-! ### Componentwise lemmas for the vector instances -/

@[simp] theorem Vec3.add_x (a b : Vec3) : (a + b).x = a.x + b.x := rfl
@[simp] theorem Vec3.add_y (a b : Vec3) : (a + b).y = a.y + b.y := rfl
@[simp] theorem Vec3.add_z (a b : Vec3) : (a + b).z = a.z + b.z := rfl
@[simp] theorem Vec3.sub_x (a b : Vec3) : (a - b).x = a.x - b.x := rfl
@[simp] theorem Vec3.sub_y (a b : Vec3) : (a - b).y = a.y - b.y := rfl
@[simp] theorem Vec3.sub_z (a b : Vec3) : (a - b).z = a.z - b.z := rfl
@[simp] theorem Vec3.neg_x (a : Vec3) : (-a).x = -a.x := rfl
@[simp] theorem Vec3.neg_y (a : Vec3) : (-a).y = -a.y := rfl
@[simp] theorem Vec3.neg_z (a : Vec3) : (-a).z = -a.z := rfl
@[simp] theorem Vec3.smul_x (r : ℝ) (a : Vec3) : (r • a).x = r * a.x := rfl
@[simp] theorem Vec3.smul_y (r : ℝ) (a : Vec3) : (r • a).y = r * a.y := rfl
@[simp] theorem Vec3.smul_z (r : ℝ) (a : Vec3) : (r • a).z = r * a.z := rfl
@[simp] theorem Vec3.zero_x : (0 : Vec3).x = 0 := rfl
@[simp] theorem Vec3.zero_y : (0 : Vec3).y = 0 := rfl
@[simp] theorem Vec3.zero_z : (0 : Vec3).z = 0 := rfl

theorem Vec3.ext_iff_v {a b : Vec3} : a = b ↔ a.x = b.x ∧ a.y = b.y ∧ a.z = b.z := by
  constructor
  · rintro rfl; exact ⟨rfl, rfl, rfl⟩
  · rintro ⟨h1, h2, h3⟩; cases a; cases b; simp_all

theorem Quat.ext_iff_q {a b : Quat} :
    a = b ↔ a.x = b.x ∧ a.y = b.y ∧ a.z = b.z ∧ a.w = b.w := by
  constructor
  · rintro rfl; exact ⟨rfl, rfl, rfl, rfl⟩
  · rintro ⟨h1, h2, h3, h4⟩; cases a; cases b; simp_all

/-! ### `atan2`, spherical and trunc facts -/

theorem atan2_le_pi (y x : ℝ) : atan2 y x ≤ Real.pi := Complex.arg_le_pi _

theorem neg_pi_lt_atan2 (y x : ℝ) : -Real.pi < atan2 y x := Complex.neg_pi_lt_arg _

theorem Spherical.makeSafe_theta (s : Spherical) : s.makeSafe.theta = s.theta := rfl

theorem Spherical.makeSafe_radius (s : Spherical) : s.makeSafe.radius = s.radius := rfl

theorem Spherical.fromVec3_theta_bounds (v : Vec3) :
    -Real.pi < (Spherical.fromVec3 v).theta ∧ (Spherical.fromVec3 v).theta ≤ Real.pi := by
  by_cases hr : Vec3.length v = 0
  · simp only [Spherical.fromVec3, hr, if_pos, if_true, ite_true]
    norm_num
    exact ⟨Real.pi_pos, Real.pi_pos.le⟩
  · simp only [Spherical.fromVec3, hr, if_neg, if_false, ite_false]
    exact ⟨neg_pi_lt_atan2 _ _, atan2_le_pi _ _⟩

/-- `Math.trunc` leaves a remainder strictly inside `(-m, m)` for `m > 0`. -/
theorem sub_mul_jsTrunc_div_bounds (a m : ℝ) (hm : 0 < m) :
    -m < a - m * (jsTrunc (a / m) : ℝ) ∧ a - m * (jsTrunc (a / m) : ℝ) < m := by
  unfold jsTrunc
  split_ifs with h
  · have h1 : (⌊a / m⌋ : ℝ) ≤ a / m := Int.floor_le _
    have h2 : a / m < (⌊a / m⌋ : ℝ) + 1 := Int.lt_floor_add_one _
    have h3 : m * (⌊a / m⌋ : ℝ) ≤ a := by
      have := mul_le_mul_of_nonneg_left h1 hm.le
      rwa [mul_div_cancel₀ a hm.ne.symm] at this
    have h4 : a < m * ((⌊a / m⌋ : ℝ) + 1) := by
      have := mul_lt_mul_of_pos_left h2 hm
      rwa [mul_div_cancel₀ a hm.ne.symm] at this
    constructor <;> nlinarith
  · have h1 : a / m ≤ (⌈a / m⌉ : ℝ) := Int.le_ceil _
    have h2 : (⌈a / m⌉ : ℝ) < a / m + 1 := Int.ceil_lt_add_one _
    have h3 : a ≤ m * (⌈a / m⌉ : ℝ) := by
      have := mul_le_mul_of_nonneg_left h1 hm.le
      rwa [mul_div_cancel₀ a hm.ne.symm] at this
    have h4 : m * (⌈a / m⌉ : ℝ) < a + m := by
      have h5 := mul_lt_mul_of_pos_left h2 hm
      rw [mul_add, mul_div_cancel₀ a hm.ne.symm, mul_one] at h5
      exact h5
    constructor <;> nlinarith

/-- The shorter-way correction keeps the new theta within π of the old,
given the pre-correction difference is within `(-3π, 3π)`. -/
theorem shorterWay_bound (oldTheta th1 : ℝ)
    (h1 : -(3 * Real.pi) < oldTheta - th1) (h2 : oldTheta - th1 < 3 * Real.pi) :
    |(if oldTheta - th1 > Real.pi then th1 + 2 * Real.pi
      else if th1 - oldTheta > Real.pi then th1 - 2 * Real.pi
      else th1) - oldTheta| ≤ Real.pi := by
  have hπ := Real.pi_pos
  split_ifs with ha hb
  · rw [abs_le]; constructor <;> linarith
  · rw [abs_le]; constructor <;> linarith
  · rw [abs_le]; push_neg at ha hb; constructor <;> linarith

/-- The theta movement of the `offset` setter is at most π in every branch. -/
theorem OrbitState.setOffset_theta_dist (s : OrbitState) (tgt : Vec3) :
    |(s.setOffset tgt).theta - s.theta| ≤ Real.pi := by
  unfold OrbitState.setOffset
  split_ifs with h1 h2
  · simpa using Real.pi_pos.le
  · simp only [OrbitState.setDistance, OrbitState.theta]
    simpa using Real.pi_pos.le
  · simp only [OrbitState.theta]
    have hframe := sub_mul_jsTrunc_div_bounds s.spherical.theta (2 * Real.pi)
      (by positivity)
    have htb := Spherical.fromVec3_theta_bounds (applyQuat s.fromUpToY tgt)
    have hpi := Real.pi_pos
    apply shorterWay_bound
    · simp only [Spherical.makeSafe_theta]
      nlinarith [hframe.1, htb.2]
    · simp only [Spherical.makeSafe_theta]
      nlinarith [hframe.2, htb.1]

/-- Claim C10: after any assignment through the Orbit `offset` setter —
directly or via `setPosition`, `setOrbitCenter` or `lookAt` — the stored
theta moves by at most π from its previous value. -/
theorem orbit_offset_setter_takes_shorter_way :
    (∀ (s : OrbitState) (tgt : Vec3),
      |(s.setOffset tgt).theta - s.theta| ≤ Real.pi) ∧
    (∀ (s : OrbitState) (tgt : Vec3),
      |(s.setPosition tgt).theta - s.theta| ≤ Real.pi) ∧
    (∀ (s : OrbitState) (tgt : Vec3),
      |(s.setOrbitCenter tgt).theta - s.theta| ≤ Real.pi) ∧
    (∀ (s : OrbitState) (tgt : Vec3),
      |(s.lookAt tgt).theta - s.theta| ≤ Real.pi) := by
  have hbase := OrbitState.setOffset_theta_dist
  have hoc : ∀ (s : OrbitState) (tgt : Vec3),
      |(s.setOrbitCenter tgt).theta - s.theta| ≤ Real.pi := by
    intro s tgt
    unfold OrbitState.setOrbitCenter
    split_ifs
    · simpa using Real.pi_pos.le
    · exact hbase s _
  refine ⟨hbase, fun s tgt => hbase s _, hoc, fun s tgt => hoc s _⟩

/-! ### Quaternion algebra helpers -/

theorem Quat.mul_assoc (a b c : Quat) :
    Quat.mul (Quat.mul a b) c = Quat.mul a (Quat.mul b c) := by
  apply Quat.ext_iff_q.mpr
  refine ⟨?_, ?_, ?_, ?_⟩ <;> simp only [Quat.mul] <;> ring

theorem Quat.mul_id (q : Quat) : Quat.mul q Quat.id = q := by
  apply Quat.ext_iff_q.mpr
  refine ⟨?_, ?_, ?_, ?_⟩ <;> simp only [Quat.mul, Quat.id] <;> ring

theorem Quat.id_mul (q : Quat) : Quat.mul Quat.id q = q := by
  apply Quat.ext_iff_q.mpr
  refine ⟨?_, ?_, ?_, ?_⟩ <;> simp only [Quat.mul, Quat.id] <;> ring

/-- A rotation about a unit axis and its reverse cancel exactly. -/
theorem Quat.fromAxisAngle_mul_neg (axis : Vec3) (h : Vec3.lengthSq axis = 1)
    (θ : ℝ) :
    Quat.mul (Quat.fromAxisAngle axis θ) (Quat.fromAxisAngle axis (-θ)) = Quat.id := by
  have hsc := Real.sin_sq_add_cos_sq (θ / 2)
  unfold Vec3.lengthSq Vec3.dot at h
  apply Quat.ext_iff_q.mpr
  simp only [Quat.mul, Quat.fromAxisAngle, Quat.id,
    show (-θ) / 2 = -(θ / 2) by ring, Real.sin_neg, Real.cos_neg]
  refine ⟨by ring, by ring, by ring, ?_⟩
  linear_combination (Real.sin (θ / 2)) ^ 2 * h + hsc

theorem lengthSq_xAxis : Vec3.lengthSq xAxis = 1 := by
  norm_num [Vec3.lengthSq, Vec3.dot, xAxis]

theorem lengthSq_yAxis : Vec3.lengthSq yAxis = 1 := by
  norm_num [Vec3.lengthSq, Vec3.dot, yAxis]

theorem lengthSq_zAxis : Vec3.lengthSq zAxis = 1 := by
  norm_num [Vec3.lengthSq, Vec3.dot, zAxis]

/-! ### Claim C5: `rotateLeft θ` then `rotateLeft (-θ)` restores `end` -/

/-- Claim C5: for each variant, `rotateLeft(θ)` followed by
`rotateLeft(-θ)` restores the end state exactly (hence within EPSILON). -/
theorem rotateLeft_then_inverse_restores_end :
    (∀ (i : OrbitInterp) (θ : ℝ),
      ((i.rotateLeft θ).rotateLeft (-θ)).endS = i.endS) ∧
    (∀ (i : IsoInterp) (θ : ℝ),
      ((i.rotateLeft θ).rotateLeft (-θ)).endS = i.endS) ∧
    (∀ (i : GroundInterp) (θ : ℝ),
      ((i.rotateLeft θ).rotateLeft (-θ)).endS = i.endS) := by
  refine ⟨?_, ?_, ?_⟩
  · intro i θ
    unfold OrbitInterp.rotateLeft OrbitState.setTheta OrbitState.theta
    dsimp only
    have h : i.endS.spherical.theta + θ + -θ = i.endS.spherical.theta := by ring
    rw [h]
  · intro i θ
    unfold IsoInterp.rotateLeft
    dsimp only
    rw [Quat.mul_assoc, Quat.fromAxisAngle_mul_neg yAxis lengthSq_yAxis θ,
      Quat.mul_id]
  · intro i θ
    unfold GroundInterp.rotateLeft
    dsimp only
    rw [Quat.mul_assoc, Quat.fromAxisAngle_mul_neg zAxis lengthSq_zAxis (-θ),
      Quat.mul_id]

/-! ### Claim C6: transform calls never touch `now` -/

/-- Claim C6: every transform call (`dolly`, `clampDistance`,
`rotateLeft/Up`, `panLeft/Up`, `setPosition`, `setOrbitCenter`, `lookAt`)
is forwarded to the end state only; the now state is unchanged, for all
three variants. -/
theorem transforms_leave_now_untouched :
    (∀ (i : OrbitInterp) (a b c d : ℝ), (i.dolly a b c d).now = i.now) ∧
    (∀ (i : OrbitInterp) (a b : ℝ), (i.clampDistance a b).now = i.now) ∧
    (∀ (i : OrbitInterp) (θ : ℝ), (i.rotateLeft θ).now = i.now) ∧
    (∀ (i : OrbitInterp) (φ : ℝ), (i.rotateUp φ).now = i.now) ∧
    (∀ (i : OrbitInterp) (δ fov : ℝ), (i.panLeft δ fov).now = i.now) ∧
    (∀ (i : OrbitInterp) (δ fov : ℝ), (i.panUp δ fov).now = i.now) ∧
    (∀ (i : OrbitInterp) (v : Vec3), (i.setPosition v).now = i.now) ∧
    (∀ (i : OrbitInterp) (v : Vec3), (i.setOrbitCenter v).now = i.now) ∧
    (∀ (i : OrbitInterp) (v : Vec3), (i.lookAt v).now = i.now) ∧
    (∀ (i : IsoInterp) (a b c d : ℝ), (i.dolly a b c d).now = i.now) ∧
    (∀ (i : IsoInterp) (a b : ℝ), (i.clampDistance a b).now = i.now) ∧
    (∀ (i : IsoInterp) (θ : ℝ), (i.rotateLeft θ).now = i.now) ∧
    (∀ (i : IsoInterp) (φ : ℝ), (i.rotateUp φ).now = i.now) ∧
    (∀ (i : IsoInterp) (δ fov : ℝ), (i.panLeft δ fov).now = i.now) ∧
    (∀ (i : IsoInterp) (δ fov : ℝ), (i.panUp δ fov).now = i.now) ∧
    (∀ (i : IsoInterp) (v : Vec3), (i.setPosition v).now = i.now) ∧
    (∀ (i : IsoInterp) (v : Vec3), (i.setOrbitCenter v).now = i.now) ∧
    (∀ (i : IsoInterp) (v : Vec3), (i.lookAt v).now = i.now) ∧
    (∀ (i : GroundInterp) (a b c d : ℝ), (i.dolly a b c d).now = i.now) ∧
    (∀ (i : GroundInterp) (a b : ℝ), (i.clampDistance a b).now = i.now) ∧
    (∀ (i : GroundInterp) (θ : ℝ), (i.rotateLeft θ).now = i.now) ∧
    (∀ (i : GroundInterp) (φ : ℝ), (i.rotateUp φ).now = i.now) ∧
    (∀ (i : GroundInterp) (δ : ℝ), (i.panLeft δ).now = i.now) ∧
    (∀ (i : GroundInterp) (δ : ℝ), (i.panUp δ).now = i.now) ∧
    (∀ (i : GroundInterp) (v : Vec3), (i.setPosition v).now = i.now) ∧
    (∀ (i : GroundInterp) (v : Vec3), (i.setOrbitCenter v).now = i.now) ∧
    (∀ (i : GroundInterp) (v : Vec3), (i.lookAt v).now = i.now) := by
  refine ⟨?_, ?_, ?_, ?_, ?_, ?_, ?_, ?_, ?_, ?_, ?_, ?_, ?_, ?_, ?_, ?_, ?_,
    ?_, ?_, ?_, ?_, ?_, ?_, ?_, ?_, ?_, ?_⟩ <;> intros <;> first
    | rfl
    | (unfold GroundInterp.dolly; split_ifs <;> rfl)

/-! ### Approximate-equality reflexivity and clamp facts -/

theorem approxEqual_refl (a : ℝ) : approxEqual a a := by
  unfold approxEqual approxZero
  norm_num [EPSILON]

theorem approxEqualVec3_refl (v : Vec3) : approxEqualVec3 v v :=
  ⟨approxEqual_refl _, approxEqual_refl _, approxEqual_refl _⟩

theorem approxEqualQuat_refl (q : Quat) : approxEqualQuat q q :=
  ⟨approxEqual_refl _, approxEqual_refl _, approxEqual_refl _, approxEqual_refl _⟩

theorem clamp_minmax_idem (l u x : ℝ) (h : l ≤ u) :
    max l (min u (max l (min u x))) = max l (min u x) := by
  have h1 : max l (min u x) ≤ u := max_le h (min_le_left _ _)
  rw [min_eq_right h1, max_eq_right (le_max_left _ _)]

theorem sph_eps_le : SPH_EPS ≤ Real.pi - SPH_EPS := by
  have := Real.pi_gt_three
  unfold SPH_EPS
  nlinarith

theorem eps_le_pi_sub_eps : EPSILON ≤ Real.pi - EPSILON := by
  have := Real.pi_gt_three
  unfold EPSILON
  nlinarith

/-! ### Field-preservation lemmas for the Orbit setters -/

theorem OrbitState.setOffset_upv (s : OrbitState) (tgt : Vec3) :
    (s.setOffset tgt).upv = s.upv := by
  unfold OrbitState.setOffset
  split_ifs <;> rfl

theorem OrbitState.setUp_upv (s : OrbitState) (v : Vec3) :
    (s.setUp v).upv = if approxEqualVec3 s.up v then s.upv else v := by
  unfold OrbitState.setUp
  split_ifs <;> rfl

/-! ### Convergence structure of `update` -/

/-- `OrbitInterpolator.update` reports convergence iff every tracked
component of `now` approximately equals its `end` counterpart. -/
theorem OrbitInterp.update_snd_eq_false_orbit (i : OrbitInterp) (st dt : ℝ) :
    ((i.update st dt).2 = false) ↔
      (approxEqualVec3 i.now.orbitCenter i.endS.orbitCenter ∧
       approxEqual i.now.phi i.endS.phi ∧
       approxEqual i.now.theta i.endS.theta ∧
       approxEqual i.now.distance i.endS.distance ∧
       approxEqualVec3 i.now.up i.endS.up) := by
  unfold OrbitInterp.update
  dsimp only
  by_cases h : (¬ approxEqualVec3 i.now.orbitCenter i.endS.orbitCenter ∨ ¬ approxEqual i.now.phi i.endS.phi ∨ ¬ approxEqual i.now.theta i.endS.theta ∨ ¬ approxEqual i.now.distance i.endS.distance ∨ ¬ approxEqualVec3 i.now.up i.endS.up)
  · rw [if_pos h]
    simp only [Bool.true_eq_false, false_iff]
    tauto
  · rw [if_neg h]
    simp only [eq_self_iff_true, true_iff]
    push_neg at h
    tauto

/-- `IsotropicInterpolator.update` reports convergence iff every tracked
component of `now` approximately equals its `end` counterpart. -/
theorem IsoInterp.update_snd_eq_false_iso (i : IsoInterp) (st dt : ℝ) :
    ((i.update st dt).2 = false) ↔
      (approxEqualVec3 i.now.orbitCenter i.endS.orbitCenter ∧
       approxEqualQuat i.now.quaternion i.endS.quaternion ∧
       approxEqual i.now.distance i.endS.distance) := by
  unfold IsoInterp.update
  dsimp only
  by_cases h : (¬ approxEqualVec3 i.now.orbitCenter i.endS.orbitCenter ∨ ¬ approxEqualQuat i.now.quaternion i.endS.quaternion ∨ ¬ approxEqual i.now.distance i.endS.distance)
  · rw [if_pos h]
    simp only [Bool.true_eq_false, false_iff]
    tauto
  · rw [if_neg h]
    simp only [eq_self_iff_true, true_iff]
    push_neg at h
    tauto

/-- `GroundedInterpolator.update` reports convergence iff every tracked
component converged (the translation against `EPSILON/100`). -/
theorem GroundInterp.update_snd_eq_false_ground (i : GroundInterp) (st dt : ℝ) :
    ((i.update st dt).2 = false) ↔
      (approxEqualVec3 i.now.orbitCenter i.endS.orbitCenter ∧
       approxEqualQuat i.now.offsetQuat i.endS.offsetQuat ∧
       approxEqual i.now.lookUpAngle i.endS.lookUpAngle ∧
       approxEqual i.now.distance i.endS.distance ∧
       approxZeroVec3 i.endS.translation (EPSILON / 100)) := by
  unfold GroundInterp.update
  dsimp only
  by_cases h : (¬ approxEqualVec3 i.now.orbitCenter i.endS.orbitCenter ∨ ¬ approxEqualQuat i.now.offsetQuat i.endS.offsetQuat ∨ ¬ approxEqual i.now.lookUpAngle i.endS.lookUpAngle ∨ ¬ approxEqual i.now.distance i.endS.distance ∨ ¬ approxZeroVec3 i.endS.translation (EPSILON / 100))
  · rw [if_pos h]
    simp only [Bool.true_eq_false, false_iff]
    tauto
  · rw [if_neg h]
    simp only [eq_self_iff_true, true_iff]
    push_neg at h
    tauto

/-! ### What `jumpToEnd` equalizes -/

theorem OrbitInterp.jumpToEnd_fields_orbit (i : OrbitInterp) :
    (i.jumpToEnd).now.orbitCenter = (i.jumpToEnd).endS.orbitCenter ∧
    (i.jumpToEnd).now.phi = (i.jumpToEnd).endS.phi ∧
    (i.jumpToEnd).now.theta = (i.jumpToEnd).endS.theta ∧
    (i.jumpToEnd).now.distance = max EPSILON ((i.jumpToEnd).endS.distance) ∧
    (i.jumpToEnd).now.upv = i.now.upv ∧
    (i.jumpToEnd).endS.upv = i.endS.upv := by
  unfold OrbitInterp.jumpToEnd OrbitState.normalizeState OrbitState.setPhi
    OrbitState.setTheta OrbitState.setDistance OrbitState.phi OrbitState.theta
    OrbitState.distance Spherical.makeSafe
  refine ⟨rfl, ?_, rfl, rfl, rfl, rfl⟩
  dsimp only
  have := clamp_minmax_idem SPH_EPS (Real.pi - SPH_EPS) i.endS.spherical.phi sph_eps_le
  exact this

theorem IsoInterp.jumpToEnd_fields_iso (i : IsoInterp) :
    (i.jumpToEnd).now.orbitCenter = (i.jumpToEnd).endS.orbitCenter ∧
    (i.jumpToEnd).now.quaternion = (i.jumpToEnd).endS.quaternion ∧
    (i.jumpToEnd).now.distance = max EPSILON ((i.jumpToEnd).endS.distance) := by
  unfold IsoInterp.jumpToEnd IsoState.normalizeState IsoState.setDistance
    IsoState.distance
  exact ⟨rfl, rfl, rfl⟩

theorem GroundInterp.jumpToEnd_fields_ground (i : GroundInterp) :
    (i.jumpToEnd).now.orbitCenter = (i.jumpToEnd).endS.orbitCenter ∧
    (i.jumpToEnd).now.offsetQuat = (i.jumpToEnd).endS.offsetQuat ∧
    (i.jumpToEnd).now.lookUpAngle = (i.jumpToEnd).endS.lookUpAngle ∧
    (i.jumpToEnd).now.distance = (i.jumpToEnd).endS.distance ∧
    (i.jumpToEnd).endS.translation = 0 := by
  unfold GroundInterp.jumpToEnd GroundState.normalizeState GroundState.applyTranslation
    GroundState.setLookUpAngle GroundState.setDistance GroundState.distance clamp
  dsimp only
  refine ⟨rfl, rfl, ?_, ?_, rfl⟩
  · exact clamp_minmax_idem EPSILON (Real.pi - EPSILON) _ eps_le_pi_sub_eps
  · exact max_eq_right (le_max_left _ _)

/-- Value of `|max EPSILON d - d|` when `EPSILON ≤ d`. -/
theorem approxEqual_max_eps {d : ℝ} (h : EPSILON ≤ d) : max EPSILON d = d :=
  max_eq_right h

/-- Amended claim C7: after `jumpToEnd()`, an immediate `update` returns
`false` for the Isotropic and Grounded variants (the Isotropic case under
the distance invariant `EPSILON ≤ end.distance`); for the Orbit variant the
call returns `false` iff the up vectors of `now` and `end` already
approximately coincide, because `jumpToEnd` does not copy the up vector. -/
theorem jumpToEnd_then_update_convergence :
    (∀ (i : GroundInterp) (st dt : ℝ), ((i.jumpToEnd).update st dt).2 = false) ∧
    (∀ (i : IsoInterp) (st dt : ℝ), EPSILON ≤ i.endS.distance →
      ((i.jumpToEnd).update st dt).2 = false) ∧
    (∀ (i : OrbitInterp) (st dt : ℝ), EPSILON ≤ i.endS.distance →
      (((i.jumpToEnd).update st dt).2 = false ↔
        approxEqualVec3 i.now.up i.endS.up)) := by
  refine ⟨?_, ?_, ?_⟩
  · intro i st dt
    obtain ⟨h1, h2, h3, h4, h5⟩ := GroundInterp.jumpToEnd_fields_ground i
    rw [GroundInterp.update_snd_eq_false_ground]
    refine ⟨by rw [h1]; exact approxEqualVec3_refl _,
            by rw [h2]; exact approxEqualQuat_refl _,
            by rw [h3]; exact approxEqual_refl _,
            by rw [h4]; exact approxEqual_refl _, ?_⟩
    rw [h5]
    refine ⟨?_, ?_, ?_⟩ <;>
      · show |(0 : ℝ)| ≤ EPSILON / 100
        norm_num [EPSILON]
  · intro i st dt hd
    obtain ⟨h1, h2, h3⟩ := IsoInterp.jumpToEnd_fields_iso i
    have hd2 : EPSILON ≤ (i.jumpToEnd).endS.distance := by
      show EPSILON ≤ (i.endS.normalizeState).distance
      exact hd
    rw [IsoInterp.update_snd_eq_false_iso]
    exact ⟨by rw [h1]; exact approxEqualVec3_refl _,
           by rw [h2]; exact approxEqualQuat_refl _,
           by rw [h3, approxEqual_max_eps hd2]; exact approxEqual_refl _⟩
  · intro i st dt hd
    obtain ⟨h1, h2, h3, h4, h5, h6⟩ := OrbitInterp.jumpToEnd_fields_orbit i
    have hd2 : EPSILON ≤ (i.jumpToEnd).endS.distance := by
      show EPSILON ≤ (i.endS.normalizeState).distance
      exact hd
    rw [OrbitInterp.update_snd_eq_false_orbit]
    have hup : approxEqualVec3 ((i.jumpToEnd).now.up) ((i.jumpToEnd).endS.up) ↔
        approxEqualVec3 i.now.up i.endS.up := by
      show approxEqualVec3 ((i.jumpToEnd).now.upv) ((i.jumpToEnd).endS.upv) ↔
        approxEqualVec3 i.now.upv i.endS.upv
      rw [h5, h6]
    constructor
    · intro h
      exact hup.mp h.2.2.2.2
    · intro h
      exact ⟨by rw [h1]; exact approxEqualVec3_refl _,
             by rw [h2]; exact approxEqual_refl _,
             by rw [h3]; exact approxEqual_refl _,
             by rw [h4, approxEqual_max_eps hd2]; exact approxEqual_refl _,
             hup.mpr h⟩

/-- Claim C7 counterexample: `setFromObject` with an up vector different
from the default, then `jumpToEnd`, then `update`: the update reports that
more updates are needed (returns `true`), because `jumpToEnd` did not copy
the up vector into `now`. -/
theorem jumpToEnd_update_returns_true_example :
    ((((OrbitInterp.init).setFromObject ⟨0, Quat.id, zAxis⟩).jumpToEnd).update 1 1).2
      = true := by
  set j := ((OrbitInterp.init).setFromObject ⟨0, Quat.id, zAxis⟩).jumpToEnd with hj
  have hnow : j.now.upv = yAxis := by
    rw [hj]
    obtain ⟨_, _, _, _, h5, _⟩ :=
      OrbitInterp.jumpToEnd_fields_orbit ((OrbitInterp.init).setFromObject ⟨0, Quat.id, zAxis⟩)
    rw [h5]
    rfl
  have hendguard : ¬ approxEqualVec3 ((OrbitInterp.init).endS.up) zAxis := by
    show ¬ approxEqualVec3 yAxis zAxis
    unfold approxEqualVec3 approxEqual approxZero yAxis zAxis
    norm_num [EPSILON]
  have hends : j.endS.upv = zAxis := by
    rw [hj]
    obtain ⟨_, _, _, _, _, h6⟩ :=
      OrbitInterp.jumpToEnd_fields_orbit ((OrbitInterp.init).setFromObject ⟨0, Quat.id, zAxis⟩)
    rw [h6]
    unfold OrbitInterp.setFromObject
    dsimp only
    rw [OrbitState.setOffset_upv]
    show ((OrbitInterp.init).endS.setUp zAxis).upv = zAxis
    rw [OrbitState.setUp_upv, if_neg hendguard]
  have hne : ¬ approxEqualVec3 (j.now.up) (j.endS.up) := by
    show ¬ approxEqualVec3 (j.now.upv) (j.endS.upv)
    rw [hnow, hends]
    unfold approxEqualVec3 approxEqual approxZero yAxis zAxis
    norm_num [EPSILON]
  rcases Bool.eq_false_or_eq_true ((j.update 1 1).2) with h | h
  · exact h
  · exact absurd ((OrbitInterp.update_snd_eq_false_orbit j 1 1).mp h).2.2.2.2 hne


/-! ### Norm facts used by the distance invariant -/

theorem Quat.normSq_nonneg (q : Quat) : 0 ≤ Quat.normSq q := by
  unfold Quat.normSq Quat.qdot
  nlinarith [sq_nonneg q.x, sq_nonneg q.y, sq_nonneg q.z, sq_nonneg q.w]

theorem Quat.normalize_normSq (q : Quat) : Quat.normSq (Quat.normalize q) = 1 := by
  unfold Quat.normalize
  split_ifs with h
  · norm_num [Quat.normSq, Quat.qdot]
  · have hS : 0 ≤ Quat.normSq q := Quat.normSq_nonneg q
    have hl : Quat.qlength q ^ 2 = Quat.normSq q := Real.sq_sqrt hS
    have hl0 : Quat.qlength q ≠ 0 := h
    unfold Quat.normSq Quat.qdot at *
    field_simp
    nlinarith [hl]

theorem Quat.setFromUnitVectors_normSq (a b : Vec3) :
    Quat.normSq (Quat.setFromUnitVectors a b) = 1 := by
  unfold Quat.setFromUnitVectors
  dsimp only
  split_ifs <;> exact Quat.normalize_normSq _

/-- Rotation by a unit quaternion preserves the squared length. -/
theorem applyQuat_lengthSq {q : Quat} (h : Quat.normSq q = 1) (v : Vec3) :
    Vec3.lengthSq (applyQuat q v) = Vec3.lengthSq v := by
  unfold Quat.normSq Quat.qdot at h
  simp only [applyQuat, Vec3.lengthSq, Vec3.dot, Vec3.cross, Vec3.add_x,
    Vec3.add_y, Vec3.add_z, Vec3.smul_x, Vec3.smul_y, Vec3.smul_z]
  linear_combination (4 * ((q.x ^ 2 + q.y ^ 2 + q.z ^ 2) *
    (v.x * v.x + v.y * v.y + v.z * v.z) -
    (q.x * v.x + q.y * v.y + q.z * v.z) ^ 2)) * h

/-- Rotation by a unit quaternion preserves the length. -/
theorem applyQuat_length {q : Quat} (h : Quat.normSq q = 1) (v : Vec3) :
    Vec3.length (applyQuat q v) = Vec3.length v := by
  unfold Vec3.length
  rw [applyQuat_lengthSq h]

theorem Vec3.abs_comp_le_length (v : Vec3) :
    |v.x| ≤ Vec3.length v ∧ |v.y| ≤ Vec3.length v ∧ |v.z| ≤ Vec3.length v := by
  unfold Vec3.length Vec3.lengthSq Vec3.dot
  refine ⟨Real.abs_le_sqrt ?_, Real.abs_le_sqrt ?_, Real.abs_le_sqrt ?_⟩ <;>
    nlinarith [sq_nonneg v.x, sq_nonneg v.y, sq_nonneg v.z]

/-- A vector that is not componentwise within `ε` of zero is strictly longer
than `ε`. -/
theorem Vec3.length_gt_of_not_approxZero {v : Vec3} {ε : ℝ}
    (h : ¬ approxZeroVec3 v ε) : ε < Vec3.length v := by
  obtain ⟨hx, hy, hz⟩ := Vec3.abs_comp_le_length v
  unfold approxZeroVec3 approxZero at h
  rw [not_and_or, not_and_or] at h
  rcases h with h | h | h <;> push_neg at h <;> linarith

theorem Vec3.length_nonneg (v : Vec3) : 0 ≤ Vec3.length v := Real.sqrt_nonneg _

/-! ### Orbit-state well-formedness preservation -/

theorem OrbitState.setDistance_wf {s : OrbitState} (h : OrbitStateWF s) (v : ℝ) :
    OrbitStateWF (s.setDistance v) :=
  ⟨le_max_left _ _, h.2⟩

theorem OrbitState.setTheta_wf {s : OrbitState} (h : OrbitStateWF s) (v : ℝ) :
    OrbitStateWF (s.setTheta v) := h

theorem OrbitState.setPhi_wf {s : OrbitState} (h : OrbitStateWF s) (v : ℝ) :
    OrbitStateWF (s.setPhi v) := h

theorem OrbitState.setOffset_wf {s : OrbitState} (h : OrbitStateWF s) (tgt : Vec3) :
    OrbitStateWF (s.setOffset tgt) := by
  unfold OrbitState.setOffset
  split_ifs with h1 h2
  · exact h
  · exact ⟨le_max_left _ _, h.2⟩
  · refine ⟨?_, h.2⟩
    show EPSILON ≤ (Spherical.fromVec3 (applyQuat s.fromUpToY tgt)).makeSafe.radius
    rw [Spherical.makeSafe_radius]
    have hlen : Vec3.length (applyQuat s.fromUpToY tgt) = Vec3.length tgt :=
      applyQuat_length h.2 tgt
    have hgt : EPSILON < Vec3.length tgt := Vec3.length_gt_of_not_approxZero h2
    unfold Spherical.fromVec3
    dsimp only
    split_ifs with hr
    · rw [hlen] at hr
      rw [hr] at hgt
      exact absurd hgt (by norm_num [EPSILON])
    · dsimp only
      rw [hlen]
      exact hgt.le

theorem OrbitState.setUp_wf {s : OrbitState} (h : OrbitStateWF s) (v : Vec3) :
    OrbitStateWF (s.setUp v) := by
  unfold OrbitState.setUp
  split_ifs
  · exact h
  · exact ⟨h.1, Quat.setFromUnitVectors_normSq _ _⟩

theorem OrbitState.setPosition_wf {s : OrbitState} (h : OrbitStateWF s) (tgt : Vec3) :
    OrbitStateWF (s.setPosition tgt) := OrbitState.setOffset_wf h _

theorem OrbitState.setOrbitCenter_wf {s : OrbitState} (h : OrbitStateWF s) (tgt : Vec3) :
    OrbitStateWF (s.setOrbitCenter tgt) := by
  unfold OrbitState.setOrbitCenter
  split_ifs
  · exact h
  · exact OrbitState.setOffset_wf h _

theorem OrbitState.lookAt_wf {s : OrbitState} (h : OrbitStateWF s) (tgt : Vec3) :
    OrbitStateWF (s.lookAt tgt) := OrbitState.setOrbitCenter_wf h _

theorem OrbitState.normalizeState_wf {s : OrbitState} (h : OrbitStateWF s) :
    OrbitStateWF s.normalizeState := h

theorem OrbitState.withOC_wf {s : OrbitState} (h : OrbitStateWF s) (oc : Vec3) :
    OrbitStateWF { s with orbitCenter := oc } := h

theorem OrbitState.loadState_wf {s : OrbitState} (h : OrbitStateWF s) (st : SaveState) :
    OrbitStateWF (s.loadState st) :=
  OrbitState.normalizeState_wf
    (OrbitState.setOffset_wf (OrbitState.setUp_wf (OrbitState.withOC_wf h _) _) _)

/-! ### Orbit-interpolator well-formedness preservation -/

theorem OrbitInterp.jumpToEnd_wf_orbit {i : OrbitInterp} (h : OrbitWF i) :
    OrbitWF i.jumpToEnd := by
  have he : OrbitStateWF (i.endS.normalizeState) := OrbitState.normalizeState_wf h.2
  exact ⟨OrbitState.setDistance_wf
    (OrbitState.setTheta_wf (OrbitState.setPhi_wf (OrbitState.withOC_wf h.1 _) _) _) _, he⟩

theorem OrbitInterp.discardEnd_wf_orbit {i : OrbitInterp} (h : OrbitWF i) :
    OrbitWF i.discardEnd := by
  have hn : OrbitStateWF (i.now.normalizeState) := OrbitState.normalizeState_wf h.1
  exact ⟨hn, OrbitState.setDistance_wf
    (OrbitState.setTheta_wf (OrbitState.setPhi_wf (OrbitState.withOC_wf h.2 _) _) _) _⟩

theorem OrbitInterp.update_wf_orbit {i : OrbitInterp} (h : OrbitWF i) (st dt : ℝ) :
    OrbitWF (i.update st dt).1 := by
  have hn : ∀ oc phi th d u, OrbitStateWF
      ((((({ i.now with orbitCenter := oc } : OrbitState).setPhi phi).setTheta
        th).setDistance d).setUp u) := by
    intro oc phi th d u
    exact OrbitState.setUp_wf (OrbitState.setDistance_wf
      (OrbitState.setTheta_wf (OrbitState.setPhi_wf (OrbitState.withOC_wf h.1 _) _) _) _) _
  unfold OrbitInterp.update
  dsimp only
  by_cases hc : (¬ approxEqualVec3 i.now.orbitCenter i.endS.orbitCenter ∨
    ¬ approxEqual i.now.phi i.endS.phi ∨ ¬ approxEqual i.now.theta i.endS.theta ∨
    ¬ approxEqual i.now.distance i.endS.distance ∨ ¬ approxEqualVec3 i.now.up i.endS.up)
  · rw [if_pos hc]
    exact ⟨hn _ _ _ _ _, h.2⟩
  · rw [if_neg hc]
    exact OrbitInterp.discardEnd_wf_orbit ⟨hn _ _ _ _ _, h.2⟩

theorem OrbitInterp.applyOp_wf_orbit {i : OrbitInterp} (h : OrbitWF i) (op : OrbitOp) :
    OrbitWF (i.applyOp op) := by
  cases op with
  | setFromObject o =>
      exact ⟨h.1, OrbitState.setOffset_wf
        (OrbitState.withOC_wf (OrbitState.setUp_wf h.2 _) _) _⟩
  | setPosition v => exact ⟨h.1, OrbitState.setPosition_wf h.2 v⟩
  | setOrbitCenter v => exact ⟨h.1, OrbitState.setOrbitCenter_wf h.2 v⟩
  | lookAt v => exact ⟨h.1, OrbitState.lookAt_wf h.2 v⟩
  | dolly a b c d =>
      exact ⟨h.1, OrbitState.setDistance_wf (OrbitState.setDistance_wf h.2 _) _⟩
  | clampDistance mn mx => exact ⟨h.1, OrbitState.setDistance_wf h.2 _⟩
  | rotateLeft θ => exact ⟨h.1, OrbitState.setTheta_wf h.2 _⟩
  | rotateUp φ => exact ⟨h.1, OrbitState.setPhi_wf h.2 _⟩
  | panLeft δ fov => exact ⟨h.1, ⟨h.2.1, h.2.2⟩⟩
  | panUp δ fov => exact ⟨h.1, ⟨h.2.1, h.2.2⟩⟩
  | normalizeStates =>
      exact ⟨OrbitState.normalizeState_wf h.1, OrbitState.normalizeState_wf h.2⟩
  | jumpToEnd => exact OrbitInterp.jumpToEnd_wf_orbit h
  | discardEnd => exact OrbitInterp.discardEnd_wf_orbit h
  | update st dt => exact OrbitInterp.update_wf_orbit h st dt
  | loadState st => exact ⟨h.1, OrbitState.loadState_wf h.2 st⟩

theorem OrbitInterp.init_wf_orbit : OrbitWF OrbitInterp.init := by
  apply OrbitInterp.jumpToEnd_wf_orbit
  constructor <;>
    exact ⟨by norm_num [OrbitState.init, OrbitState.distance, Spherical.default, EPSILON],
           by norm_num [OrbitState.init, Quat.id, Quat.normSq, Quat.qdot]⟩

theorem OrbitInterp.runOps_wf_orbit (ops : List OrbitOp) : OrbitWF (OrbitInterp.runOps ops) := by
  unfold OrbitInterp.runOps
  have key : ∀ (l : List OrbitOp) (acc : OrbitInterp), OrbitWF acc →
      OrbitWF (l.foldl OrbitInterp.applyOp acc) := by
    intro l
    induction l with
    | nil => intro acc h; exact h
    | cons a l ih => intro acc h; exact ih _ (OrbitInterp.applyOp_wf_orbit h a)
  exact key ops _ OrbitInterp.init_wf_orbit

/-! ### Isotropic distance invariant -/

theorem IsoState.setDistance_dist_iso (s : IsoState) (v : ℝ) :
    EPSILON ≤ (s.setDistance v).distance := le_max_left _ _

theorem IsoState.setPosition_dist_iso {s : IsoState} (h : EPSILON ≤ s.distance)
    (tgt : Vec3) : EPSILON ≤ (s.setPosition tgt).distance := by
  unfold IsoState.setPosition
  dsimp only
  split_ifs
  · exact h
  · exact le_max_left _ _
  · exact le_max_left _ _

theorem IsoState.setOrbitCenter_dist_iso {s : IsoState} (h : EPSILON ≤ s.distance)
    (tgt : Vec3) : EPSILON ≤ (s.setOrbitCenter tgt).distance := by
  unfold IsoState.setOrbitCenter
  dsimp only
  split_ifs <;> first | exact h | exact le_max_left _ _

theorem IsoState.lookAt_dist_iso {s : IsoState} (h : EPSILON ≤ s.distance)
    (tgt : Vec3) : EPSILON ≤ (s.lookAt tgt).distance :=
  IsoState.setOrbitCenter_dist_iso h _

theorem IsoState.loadState_dist_iso (s : IsoState) (st : SaveState) :
    EPSILON ≤ (s.loadState st).distance := le_max_left _ _

theorem IsoInterp.jumpToEnd_wf_iso {i : IsoInterp} (h : IsoWF i) :
    IsoWF i.jumpToEnd := ⟨le_max_left _ _, h.2⟩

theorem IsoInterp.discardEnd_wf_iso {i : IsoInterp} (h : IsoWF i) :
    IsoWF i.discardEnd := ⟨h.1, le_max_left _ _⟩

theorem IsoInterp.update_wf_iso {i : IsoInterp} (h : IsoWF i) (st dt : ℝ) :
    IsoWF (i.update st dt).1 := by
  unfold IsoInterp.update
  dsimp only
  by_cases hc : (¬ approxEqualVec3 i.now.orbitCenter i.endS.orbitCenter ∨
    ¬ approxEqualQuat i.now.quaternion i.endS.quaternion ∨
    ¬ approxEqual i.now.distance i.endS.distance)
  · rw [if_pos hc]
    exact ⟨le_max_left _ _, h.2⟩
  · rw [if_neg hc]
    exact IsoInterp.discardEnd_wf_iso ⟨le_max_left _ _, h.2⟩

theorem IsoInterp.applyOp_wf_iso {i : IsoInterp} (h : IsoWF i) (op : IsoOp) :
    IsoWF (i.applyOp op) := by
  cases op with
  | setFromObject o => exact ⟨h.1, h.2⟩
  | setPosition v => exact ⟨h.1, IsoState.setPosition_dist_iso h.2 v⟩
  | setOrbitCenter v => exact ⟨h.1, IsoState.setOrbitCenter_dist_iso h.2 v⟩
  | lookAt v => exact ⟨h.1, IsoState.lookAt_dist_iso h.2 v⟩
  | dolly a b c d => exact ⟨h.1, le_max_left _ _⟩
  | clampDistance mn mx => exact ⟨h.1, le_max_left _ _⟩
  | rotateLeft θ => exact ⟨h.1, h.2⟩
  | rotateUp φ => exact ⟨h.1, h.2⟩
  | panLeft δ fov => exact ⟨h.1, h.2⟩
  | panUp δ fov => exact ⟨h.1, h.2⟩
  | normalizeStates => exact ⟨h.1, h.2⟩
  | jumpToEnd => exact IsoInterp.jumpToEnd_wf_iso h
  | discardEnd => exact IsoInterp.discardEnd_wf_iso h
  | update st dt => exact IsoInterp.update_wf_iso h st dt
  | loadState st => exact ⟨h.1, IsoState.loadState_dist_iso _ st⟩

theorem IsoInterp.init_wf_iso : IsoWF IsoInterp.init := by
  apply IsoInterp.jumpToEnd_wf_iso
  constructor <;> norm_num [IsoState.init, IsoState.distance, EPSILON]

theorem IsoInterp.runOps_wf_iso (ops : List IsoOp) : IsoWF (IsoInterp.runOps ops) := by
  unfold IsoInterp.runOps
  have key : ∀ (l : List IsoOp) (acc : IsoInterp), IsoWF acc →
      IsoWF (l.foldl IsoInterp.applyOp acc) := by
    intro l
    induction l with
    | nil => intro acc h; exact h
    | cons a l ih => intro acc h; exact ih _ (IsoInterp.applyOp_wf_iso h a)
  exact key ops _ IsoInterp.init_wf_iso

/-! ### Grounded distance invariant -/

theorem GroundState.setDistance_dist_ground (s : GroundState) (v : ℝ) :
    EPSILON ≤ (s.setDistance v).distance := le_max_left _ _

theorem GroundState.applyTranslation_dist (s : GroundState) (delta : Vec3) :
    EPSILON ≤ (s.applyTranslation delta).distance := le_max_left _ _

theorem GroundState.normalizeState_dist (s : GroundState) :
    EPSILON ≤ s.normalizeState.distance := le_max_left _ _

theorem GroundState.lookAt_dist_eq (s : GroundState) (tgt : Vec3) :
    (s.lookAt tgt).distance = s.distance := by
  unfold GroundState.lookAt
  dsimp only
  split_ifs <;> rfl

theorem GroundState.setPosition_dist_ground {s : GroundState} (h : EPSILON ≤ s.distance)
    (tgt : Vec3) : EPSILON ≤ (s.setPosition tgt).distance := by
  unfold GroundState.setPosition
  dsimp only
  split_ifs <;> first
    | exact h
    | exact GroundState.setDistance_dist_ground s _
    | (rw [GroundState.lookAt_dist_eq]; exact GroundState.setDistance_dist_ground s _)

theorem GroundState.setOrbitCenter_dist_ground {s : GroundState} (h : EPSILON ≤ s.distance)
    (tgt : Vec3) : EPSILON ≤ (s.setOrbitCenter tgt).distance := by
  unfold GroundState.setOrbitCenter
  dsimp only
  split_ifs <;> first
    | exact h
    | exact GroundState.setDistance_dist_ground s _
    | (rw [GroundState.lookAt_dist_eq]; exact GroundState.setDistance_dist_ground s _)

theorem GroundState.lookAt_dist_ground {s : GroundState} (h : EPSILON ≤ s.distance)
    (tgt : Vec3) : EPSILON ≤ (s.lookAt tgt).distance := by
  rw [GroundState.lookAt_dist_eq]
  exact h

theorem GroundState.loadState_dist_ground (s : GroundState) (st : SaveState) :
    EPSILON ≤ (s.loadState st).distance := le_max_left _ _

theorem GroundInterp.jumpToEnd_wf_ground {i : GroundInterp} (_ : GroundWF i) :
    GroundWF i.jumpToEnd := ⟨le_max_left _ _, le_max_left _ _⟩

theorem GroundInterp.discardEnd_wf_ground {i : GroundInterp} (_ : GroundWF i) :
    GroundWF i.discardEnd := ⟨le_max_left _ _, le_max_left _ _⟩

theorem GroundInterp.update_wf_ground {i : GroundInterp} (h : GroundWF i) (st dt : ℝ) :
    GroundWF (i.update st dt).1 := by
  unfold GroundInterp.update
  dsimp only
  by_cases hc : (¬ approxEqualVec3 i.now.orbitCenter i.endS.orbitCenter ∨
    ¬ approxEqualQuat i.now.offsetQuat i.endS.offsetQuat ∨
    ¬ approxEqual i.now.lookUpAngle i.endS.lookUpAngle ∨
    ¬ approxEqual i.now.distance i.endS.distance ∨
    ¬ approxZeroVec3 i.endS.translation (EPSILON / 100))
  · rw [if_pos hc]
    refine ⟨?_, ?_⟩ <;> split_ifs <;>
      first | exact le_max_left _ _ | exact h.2
  · rw [if_neg hc]
    apply GroundInterp.discardEnd_wf_ground
    refine ⟨?_, ?_⟩ <;> split_ifs <;>
      first | exact le_max_left _ _ | exact h.2

theorem GroundInterp.applyOp_wf_ground {i : GroundInterp} (h : GroundWF i) (op : GroundOp) :
    GroundWF (i.applyOp op) := by
  cases op with
  | setFromObject o => exact ⟨h.1, h.2⟩
  | setPosition v => exact ⟨h.1, GroundState.setPosition_dist_ground h.2 v⟩
  | setOrbitCenter v => exact ⟨h.1, GroundState.setOrbitCenter_dist_ground h.2 v⟩
  | lookAt v => exact ⟨h.1, GroundState.lookAt_dist_ground h.2 v⟩
  | dolly a b c d =>
      show GroundWF (i.dolly a b c d)
      unfold GroundInterp.dolly
      dsimp only
      split_ifs <;> exact ⟨h.1, h.2⟩
  | clampDistance mn mx => exact ⟨h.1, le_max_left _ _⟩
  | rotateLeft θ => exact ⟨h.1, h.2⟩
  | rotateUp φ => exact ⟨h.1, h.2⟩
  | panLeft δ => exact ⟨h.1, h.2⟩
  | panUp δ => exact ⟨h.1, h.2⟩
  | normalizeStates =>
      exact ⟨GroundState.normalizeState_dist _, GroundState.normalizeState_dist _⟩
  | jumpToEnd => exact GroundInterp.jumpToEnd_wf_ground h
  | discardEnd => exact GroundInterp.discardEnd_wf_ground h
  | update st dt => exact GroundInterp.update_wf_ground h st dt
  | loadState st => exact ⟨h.1, GroundState.loadState_dist_ground _ st⟩

theorem GroundInterp.init_wf_ground : GroundWF GroundInterp.init :=
  GroundInterp.jumpToEnd_wf_ground
    ⟨by norm_num [GroundState.init, GroundState.distance, EPSILON],
     by norm_num [GroundState.init, GroundState.distance, EPSILON]⟩

theorem GroundInterp.runOps_wf_ground (ops : List GroundOp) :
    GroundWF (GroundInterp.runOps ops) := by
  unfold GroundInterp.runOps
  have key : ∀ (l : List GroundOp) (acc : GroundInterp), GroundWF acc →
      GroundWF (l.foldl GroundInterp.applyOp acc) := by
    intro l
    induction l with
    | nil => intro acc h; exact h
    | cons a l ih => intro acc h; exact ih _ (GroundInterp.applyOp_wf_ground h a)
  exact key ops _ GroundInterp.init_wf_ground

/-- Claim C1: for every variant and every sequence of public operations
(from construction on), both the displayed state and the target state keep
`distance ≥ EPSILON`. -/
theorem distance_at_least_epsilon_after_any_ops :
    (∀ ops : List OrbitOp, EPSILON ≤ (OrbitInterp.runOps ops).now.distance ∧
      EPSILON ≤ (OrbitInterp.runOps ops).endS.distance) ∧
    (∀ ops : List IsoOp, EPSILON ≤ (IsoInterp.runOps ops).now.distance ∧
      EPSILON ≤ (IsoInterp.runOps ops).endS.distance) ∧
    (∀ ops : List GroundOp, EPSILON ≤ (GroundInterp.runOps ops).now.distance ∧
      EPSILON ≤ (GroundInterp.runOps ops).endS.distance) :=
  ⟨fun ops => ⟨(OrbitInterp.runOps_wf_orbit ops).1.1, (OrbitInterp.runOps_wf_orbit ops).2.1⟩,
   fun ops => IsoInterp.runOps_wf_iso ops,
   fun ops => GroundInterp.runOps_wf_ground ops⟩

/-! ### Claim C2: Grounded `setOrbitCenter` -/

theorem GroundState.init_position : GroundState.init.position = ⟨0, 0, 1⟩ := by
  unfold GroundState.init GroundState.position GroundState.offset applyQuat Quat.id
  apply Vec3.ext_iff_v.mpr
  norm_num [Vec3.cross, Vec3.add_x, Vec3.add_y, Vec3.add_z, Vec3.smul_x,
    Vec3.smul_y, Vec3.smul_z, Vec3.zero_x, Vec3.zero_y, Vec3.zero_z]

/-- Claim C2 counterexample: moving the orbit center of the default Grounded
state sideways moves the camera position (by 1 in x), although a state with
the same camera position and the new center is representable. -/
theorem grounded_setOrbitCenter_moves_position :
    ¬ approxEqualVec3 ((GroundState.init.setOrbitCenter ⟨1, 0, 0⟩).position)
      (GroundState.init.position) := by
  have hg1 : ¬ approxEqualVec3 (GroundState.init.orbitCenter) ⟨1, 0, 0⟩ := by
    unfold GroundState.init approxEqualVec3 approxEqual approxZero
    norm_num [EPSILON]
  have hg2 : ¬ approxEqualVec3 (GroundState.init.position) ⟨1, 0, 0⟩ := by
    rw [GroundState.init_position]
    unfold approxEqualVec3 approxEqual approxZero
    norm_num [EPSILON]
  have hres : GroundState.init.setOrbitCenter ⟨1, 0, 0⟩ =
      { GroundState.init.setDistance
          (Vec3.distanceTo (GroundState.init.position) ⟨1, 0, 0⟩) with
        orbitCenter := ⟨1, 0, 0⟩ } := by
    unfold GroundState.setOrbitCenter
    rw [if_neg hg1]
    dsimp only
    rw [if_pos hg2]
  rw [hres, GroundState.init_position]
  unfold GroundState.position GroundState.offset GroundState.setDistance
    GroundState.init applyQuat Quat.id approxEqualVec3 approxEqual approxZero
  norm_num [Vec3.cross, Vec3.add_x, Vec3.add_y, Vec3.add_z, Vec3.smul_x,
    Vec3.smul_y, Vec3.smul_z, EPSILON]

/-- Amended claim C2: when the new orbit center neither approximately equals
the old center nor the camera position, Grounded `setOrbitCenter` keeps the
stored orientation parameters (`offsetQuat`, `lookUpAngle`) and hence the
forward direction, moves the pivot, and re-derives the distance from the
camera position — the camera position itself is not preserved in general
(see the counterexample); the orientation is re-derived only in the branch
where the new center approximately coincides with the camera position. -/
theorem grounded_setOrbitCenter_keeps_forward (s : GroundState) (tgt : Vec3)
    (h1 : ¬ approxEqualVec3 s.orbitCenter tgt)
    (h2 : ¬ approxEqualVec3 s.position tgt) :
    (s.setOrbitCenter tgt).offsetQuat = s.offsetQuat ∧
    (s.setOrbitCenter tgt).lookUpAngle = s.lookUpAngle ∧
    (s.setOrbitCenter tgt).forward = s.forward ∧
    (s.setOrbitCenter tgt).orbitCenter = tgt ∧
    (s.setOrbitCenter tgt).distance =
      max EPSILON (Vec3.distanceTo s.position tgt) := by
  have hres : s.setOrbitCenter tgt =
      { s.setDistance (Vec3.distanceTo s.position tgt) with orbitCenter := tgt } := by
    unfold GroundState.setOrbitCenter
    rw [if_neg h1]
    dsimp only
    rw [if_pos h2]
  rw [hres]
  exact ⟨rfl, rfl, rfl, rfl, rfl⟩

/-- Witness for the amended claim C2 at a concrete state and center. -/
theorem grounded_setOrbitCenter_keeps_forward_witness :
    (GroundState.init.setOrbitCenter ⟨1, 0, 0⟩).forward = GroundState.init.forward := by
  have hg1 : ¬ approxEqualVec3 (GroundState.init.orbitCenter) ⟨1, 0, 0⟩ := by
    unfold GroundState.init approxEqualVec3 approxEqual approxZero
    norm_num [EPSILON]
  have hg2 : ¬ approxEqualVec3 (GroundState.init.position) ⟨1, 0, 0⟩ := by
    rw [GroundState.init_position]
    unfold approxEqualVec3 approxEqual approxZero
    norm_num [EPSILON]
  exact (grounded_setOrbitCenter_keeps_forward GroundState.init ⟨1, 0, 0⟩ hg1 hg2).2.2.1

/-! ### Cross-product algebra and the rotation action of quaternions -/

theorem Vec3.dot_comm (a b : Vec3) : Vec3.dot a b = Vec3.dot b a := by
  unfold Vec3.dot; ring

theorem Vec3.cross_cross (a b c : Vec3) :
    Vec3.cross (Vec3.cross a b) c = Vec3.dot a c • b - Vec3.dot b c • a := by
  apply Vec3.ext_iff_v.mpr
  refine ⟨?_, ?_, ?_⟩ <;>
    simp only [Vec3.cross, Vec3.dot, Vec3.sub_x, Vec3.sub_y, Vec3.sub_z,
      Vec3.smul_x, Vec3.smul_y, Vec3.smul_z] <;> ring

theorem Vec3.cross_sub_right (a b c : Vec3) :
    Vec3.cross a (b - c) = Vec3.cross a b - Vec3.cross a c := by
  apply Vec3.ext_iff_v.mpr
  refine ⟨?_, ?_, ?_⟩ <;>
    simp only [Vec3.cross, Vec3.sub_x, Vec3.sub_y, Vec3.sub_z] <;> ring

theorem Vec3.cross_smul_right (r : ℝ) (a b : Vec3) :
    Vec3.cross a (r • b) = r • Vec3.cross a b := by
  apply Vec3.ext_iff_v.mpr
  refine ⟨?_, ?_, ?_⟩ <;>
    simp only [Vec3.cross, Vec3.smul_x, Vec3.smul_y, Vec3.smul_z] <;> ring

/-- Lagrange: `|a × b|² = |a|²|b|² - (a·b)²`. -/
theorem Vec3.cross_lengthSq (a b : Vec3) :
    Vec3.lengthSq (Vec3.cross a b) =
      Vec3.lengthSq a * Vec3.lengthSq b - Vec3.dot a b ^ 2 := by
  unfold Vec3.lengthSq Vec3.dot Vec3.cross
  ring

theorem Vec3.lengthSq_nonneg (v : Vec3) : 0 ≤ Vec3.lengthSq v := by
  unfold Vec3.lengthSq Vec3.dot
  nlinarith [sq_nonneg v.x, sq_nonneg v.y, sq_nonneg v.z]

theorem Vec3.length_sq_eq (v : Vec3) : Vec3.length v ^ 2 = Vec3.lengthSq v :=
  Real.sq_sqrt (Vec3.lengthSq_nonneg v)

theorem Vec3.normalize_lengthSq {v : Vec3} (h : Vec3.length v ≠ 0) :
    Vec3.lengthSq (Vec3.normalize v) = 1 := by
  unfold Vec3.normalize
  rw [if_neg h]
  have hsq := Vec3.length_sq_eq v
  have h2 : Vec3.lengthSq ((1 / Vec3.length v) • v) =
      (1 / Vec3.length v) ^ 2 * Vec3.lengthSq v := by
    unfold Vec3.lengthSq Vec3.dot
    simp only [Vec3.smul_x, Vec3.smul_y, Vec3.smul_z]
    ring
  rw [h2]
  field_simp
  linarith [hsq]

theorem Vec3.smul_normalize {v : Vec3} (h : Vec3.length v ≠ 0) :
    Vec3.length v • Vec3.normalize v = v := by
  unfold Vec3.normalize
  rw [if_neg h]
  apply Vec3.ext_iff_v.mpr
  refine ⟨?_, ?_, ?_⟩ <;>
    simp only [Vec3.smul_x, Vec3.smul_y, Vec3.smul_z] <;> field_simp

theorem applyQuat_id (v : Vec3) : applyQuat Quat.id v = v := by
  unfold applyQuat Quat.id
  apply Vec3.ext_iff_v.mpr
  refine ⟨?_, ?_, ?_⟩ <;>
    simp only [Vec3.cross, Vec3.add_x, Vec3.add_y, Vec3.add_z,
      Vec3.smul_x, Vec3.smul_y, Vec3.smul_z] <;> ring

theorem applyQuat_smul (q : Quat) (r : ℝ) (v : Vec3) :
    applyQuat q (r • v) = r • applyQuat q v := by
  unfold applyQuat
  apply Vec3.ext_iff_v.mpr
  refine ⟨?_, ?_, ?_⟩ <;>
    simp only [Vec3.cross, Vec3.add_x, Vec3.add_y, Vec3.add_z,
      Vec3.smul_x, Vec3.smul_y, Vec3.smul_z] <;> ring

/-- For unit quaternions the three.js rotation formula is multiplicative:
rotating by `a * b` is rotating by `b`, then by `a`. -/
theorem applyQuat_mul {a b : Quat} (ha : Quat.normSq a = 1)
    (hb : Quat.normSq b = 1) (v : Vec3) :
    applyQuat (Quat.mul a b) v = applyQuat a (applyQuat b v) := by
  unfold Quat.normSq Quat.qdot at ha hb
  apply Vec3.ext_iff_v.mpr
  refine ⟨?_, ?_, ?_⟩ <;>
    simp only [applyQuat, Quat.mul, Vec3.cross, Vec3.add_x, Vec3.add_y,
      Vec3.add_z, Vec3.smul_x, Vec3.smul_y, Vec3.smul_z]
  · linear_combination (2 * b.x * b.y * v.y + 2 * b.x * b.z * v.z -
      2 * b.y * b.y * v.x + 2 * b.y * b.w * v.z - 2 * b.z * b.z * v.x -
      2 * b.z * b.w * v.y) * ha + (2 * a.x * a.y * v.y + 2 * a.x * a.z * v.z -
      2 * a.y * a.y * v.x + 2 * a.y * a.w * v.z - 2 * a.z * a.z * v.x -
      2 * a.z * a.w * v.y) * hb
  · linear_combination (-2 * b.x * b.x * v.y + 2 * b.x * b.y * v.x -
      2 * b.x * b.w * v.z + 2 * b.y * b.z * v.z - 2 * b.z * b.z * v.y +
      2 * b.z * b.w * v.x) * ha + (-2 * a.x * a.x * v.y + 2 * a.x * a.y * v.x -
      2 * a.x * a.w * v.z + 2 * a.y * a.z * v.z - 2 * a.z * a.z * v.y +
      2 * a.z * a.w * v.x) * hb
  · linear_combination (-2 * b.x * b.x * v.z + 2 * b.x * b.z * v.x +
      2 * b.x * b.w * v.y - 2 * b.y * b.y * v.z + 2 * b.y * b.z * v.y -
      2 * b.y * b.w * v.x) * ha + (-2 * a.x * a.x * v.z + 2 * a.x * a.z * v.x +
      2 * a.x * a.w * v.y - 2 * a.y * a.y * v.z + 2 * a.y * a.z * v.y -
      2 * a.y * a.w * v.x) * hb

theorem number_epsilon_pos : 0 < NUMBER_EPSILON := by
  unfold NUMBER_EPSILON
  positivity

theorem number_epsilon_lt_one : NUMBER_EPSILON < 1 := by
  have h : NUMBER_EPSILON = ((2 : ℝ) ^ (52 : ℕ))⁻¹ := by
    unfold NUMBER_EPSILON
    rw [show ((-52 : ℤ)) = -(52 : ℕ) from rfl, zpow_neg, zpow_natCast]
  rw [h]
  norm_num

/-- The scaled rotation formula: dividing all four quaternion components by
`L ≠ 0` divides both cross terms by `L²`. -/
theorem applyQuat_div (q : Quat) (L : ℝ) (hL : L ≠ 0) (v : Vec3) :
    applyQuat ⟨q.x / L, q.y / L, q.z / L, q.w / L⟩ v =
      v + ((2 * q.w) / L ^ 2) • Vec3.cross ⟨q.x, q.y, q.z⟩ v +
        (2 / L ^ 2) • Vec3.cross ⟨q.x, q.y, q.z⟩ (Vec3.cross ⟨q.x, q.y, q.z⟩ v) := by
  unfold applyQuat
  apply Vec3.ext_iff_v.mpr
  refine ⟨?_, ?_, ?_⟩ <;>
    simp only [Vec3.cross, Vec3.add_x, Vec3.add_y, Vec3.add_z,
      Vec3.smul_x, Vec3.smul_y, Vec3.smul_z] <;>
    field_simp <;> ring

/-- `setFromUnitVectors(u, n)` really maps `u` to `n` when both are unit
vectors and the antiparallel fallback branch is not taken. -/
theorem Quat.setFromUnitVectors_apply {u n : Vec3}
    (hu : Vec3.lengthSq u = 1) (hn : Vec3.lengthSq n = 1)
    (hr : ¬ (Vec3.dot u n + 1 < NUMBER_EPSILON)) :
    applyQuat (Quat.setFromUnitVectors u n) u = n := by
  have hrpos : 0 < Vec3.dot u n + 1 :=
    lt_of_lt_of_le number_epsilon_pos (not_lt.mp hr)
  set d := Vec3.dot u n with hd
  set c := Vec3.cross u n with hc
  have hq0 : Quat.normSq ⟨c.x, c.y, c.z, d + 1⟩ = 2 * (d + 1) := by
    have hlag := Vec3.cross_lengthSq u n
    rw [hu, hn, ← hd, ← hc] at hlag
    unfold Quat.normSq Quat.qdot
    dsimp only
    unfold Vec3.lengthSq Vec3.dot at hlag
    linear_combination hlag
  have hL2 : Quat.qlength ⟨c.x, c.y, c.z, d + 1⟩ ^ 2 = 2 * (d + 1) := by
    unfold Quat.qlength
    rw [Real.sq_sqrt (by rw [hq0]; linarith)]
    exact hq0
  have hL0 : Quat.qlength ⟨c.x, c.y, c.z, d + 1⟩ ≠ 0 := by
    intro h0
    rw [h0] at hL2
    norm_num at hL2
    linarith
  have hset : Quat.setFromUnitVectors u n = Quat.normalize ⟨c.x, c.y, c.z, d + 1⟩ := by
    unfold Quat.setFromUnitVectors
    dsimp only
    rw [if_neg (by rw [← hd]; exact hr), ← hc, ← hd]
  rw [hset]
  unfold Quat.normalize
  rw [if_neg hL0]
  set L := Quat.qlength ⟨c.x, c.y, c.z, d + 1⟩ with hLdef
  have happly := applyQuat_div ⟨c.x, c.y, c.z, d + 1⟩ L hL0 u
  simp only at happly
  have hcv : (⟨c.x, c.y, c.z⟩ : Vec3) = c := rfl
  rw [hcv] at happly
  rw [happly, hL2]
  have hu' : u.x * u.x + u.y * u.y + u.z * u.z = 1 := hu
  have hn' : n.x * n.x + n.y * n.y + n.z * n.z = 1 := hn
  have hne : d + 1 ≠ 0 := ne_of_gt hrpos
  have hcu : Vec3.cross c u = n - d • u := by
    apply Vec3.ext_iff_v.mpr
    rw [hc, hd]
    refine ⟨?_, ?_, ?_⟩ <;>
      simp only [Vec3.cross, Vec3.dot, Vec3.sub_x, Vec3.sub_y, Vec3.sub_z,
        Vec3.smul_x, Vec3.smul_y, Vec3.smul_z]
    · linear_combination n.x * hu'
    · linear_combination n.y * hu'
    · linear_combination n.z * hu'
  have hcn : Vec3.cross c n = d • n - u := by
    apply Vec3.ext_iff_v.mpr
    rw [hc, hd]
    refine ⟨?_, ?_, ?_⟩ <;>
      simp only [Vec3.cross, Vec3.dot, Vec3.sub_x, Vec3.sub_y, Vec3.sub_z,
        Vec3.smul_x, Vec3.smul_y, Vec3.smul_z]
    · linear_combination (-u.x) * hn'
    · linear_combination (-u.y) * hn'
    · linear_combination (-u.z) * hn'
  rw [hcu, Vec3.cross_sub_right, Vec3.cross_smul_right, hcu, hcn]
  have hr1 : (2 * (d + 1)) / (2 * (d + 1)) = 1 :=
    div_self (mul_ne_zero two_ne_zero hne)
  have hr2 : (2 : ℝ) / (2 * (d + 1)) = 1 / (d + 1) := by
    rw [div_eq_div_iff (mul_ne_zero two_ne_zero hne) hne]
    ring
  rw [hr1, hr2]
  apply Vec3.ext_iff_v.mpr
  refine ⟨?_, ?_, ?_⟩ <;>
    simp only [Vec3.add_x, Vec3.add_y, Vec3.add_z, Vec3.sub_x, Vec3.sub_y,
      Vec3.sub_z, Vec3.smul_x, Vec3.smul_y, Vec3.smul_z] <;>
    field_simp <;> ring

/-! ### `euclideanModulo` and `makeSafe` canonicalization facts -/

theorem euclideanModulo_nonneg {n m : ℝ} (hm : 0 < m) :
    0 ≤ euclideanModulo n m := by
  unfold euclideanModulo
  have h1 : (⌊n / m⌋ : ℝ) ≤ n / m := Int.floor_le _
  have h2 : m * (⌊n / m⌋ : ℝ) ≤ n := by
    have := mul_le_mul_of_nonneg_left h1 hm.le
    rwa [mul_div_cancel₀ n hm.ne.symm] at this
  linarith

theorem euclideanModulo_lt {n m : ℝ} (hm : 0 < m) :
    euclideanModulo n m < m := by
  unfold euclideanModulo
  have h1 : n / m < (⌊n / m⌋ : ℝ) + 1 := Int.lt_floor_add_one _
  have h2 : n < m * ((⌊n / m⌋ : ℝ) + 1) := by
    have := mul_lt_mul_of_pos_left h1 hm
    rwa [mul_div_cancel₀ n hm.ne.symm] at this
  nlinarith

theorem euclideanModulo_of_mem {n m : ℝ} (hm : 0 < m) (h0 : 0 ≤ n) (h1 : n < m) :
    euclideanModulo n m = n := by
  unfold euclideanModulo
  have : ⌊n / m⌋ = 0 := by
    rw [Int.floor_eq_zero_iff]
    constructor
    · exact div_nonneg h0 hm.le
    · rw [div_lt_one hm]; exact h1
  rw [this]
  norm_num

theorem euclideanModulo_idem {n m : ℝ} (hm : 0 < m) :
    euclideanModulo (euclideanModulo n m) m = euclideanModulo n m :=
  euclideanModulo_of_mem hm (euclideanModulo_nonneg hm) (euclideanModulo_lt hm)

theorem euclideanModulo_zero {m : ℝ} : euclideanModulo 0 m = 0 := by
  unfold euclideanModulo
  rw [zero_div]
  norm_num

theorem sin_euclideanModulo_two_pi (x : ℝ) :
    Real.sin (euclideanModulo x (2 * Real.pi)) = Real.sin x := by
  unfold euclideanModulo
  rw [mul_comm (2 * Real.pi) ((⌊x / (2 * Real.pi)⌋ : ℝ))]
  exact Real.sin_sub_int_mul_two_pi x _

theorem cos_euclideanModulo_two_pi (x : ℝ) :
    Real.cos (euclideanModulo x (2 * Real.pi)) = Real.cos x := by
  unfold euclideanModulo
  rw [mul_comm (2 * Real.pi) ((⌊x / (2 * Real.pi)⌋ : ℝ))]
  exact Real.cos_sub_int_mul_two_pi x _

/-- Wrapping `theta` modulo `2π` does not change the cartesian vector of a
spherical coordinate. -/
theorem Spherical.toVec3_mod_theta (s : Spherical) :
    Spherical.toVec3 { s with theta := euclideanModulo s.theta (2 * Real.pi) } =
      Spherical.toVec3 s := by
  unfold Spherical.toVec3
  rw [sin_euclideanModulo_two_pi, cos_euclideanModulo_two_pi]

/-- `makeSafe` leaves a spherical with `phi` in the safe band unchanged. -/
theorem Spherical.makeSafe_of_mem {s : Spherical} (h1 : SPH_EPS ≤ s.phi)
    (h2 : s.phi ≤ Real.pi - SPH_EPS) : s.makeSafe = s := by
  unfold Spherical.makeSafe
  rw [min_eq_right h2, max_eq_right h1]

theorem Spherical.makeSafe_idem (s : Spherical) :
    s.makeSafe.makeSafe = s.makeSafe := by
  unfold Spherical.makeSafe
  simp only
  rw [clamp_minmax_idem _ _ _ sph_eps_le]

/-! ### What Orbit `normalize` does and does not change -/

theorem OrbitState.normalizeState_idem (s : OrbitState) :
    s.normalizeState.normalizeState = s.normalizeState := by
  unfold OrbitState.normalizeState
  have htwo : (0 : ℝ) < 2 * Real.pi := by positivity
  simp only [Spherical.makeSafe, Spherical.makeSafe_theta]
  simp only [euclideanModulo_idem htwo, clamp_minmax_idem _ _ _ sph_eps_le]

theorem OrbitState.normalizeState_theta_mem (s : OrbitState) :
    0 ≤ s.normalizeState.theta ∧ s.normalizeState.theta < 2 * Real.pi := by
  have htwo : (0 : ℝ) < 2 * Real.pi := by positivity
  exact ⟨euclideanModulo_nonneg htwo, euclideanModulo_lt htwo⟩

theorem OrbitState.normalizeState_offset {s : OrbitState}
    (h1 : SPH_EPS ≤ s.phi) (h2 : s.phi ≤ Real.pi - SPH_EPS) :
    s.normalizeState.offset = s.offset := by
  unfold OrbitState.normalizeState OrbitState.offset
  have hms : Spherical.makeSafe
      { s.spherical with theta := euclideanModulo s.spherical.theta (2 * Real.pi) } =
      { s.spherical with theta := euclideanModulo s.spherical.theta (2 * Real.pi) } :=
    Spherical.makeSafe_of_mem h1 h2
  rw [hms, Spherical.toVec3_mod_theta]

theorem OrbitState.normalizeState_fields (s : OrbitState) :
    s.normalizeState.orbitCenter = s.orbitCenter ∧
    s.normalizeState.up = s.up ∧
    s.normalizeState.distance = s.distance ∧
    s.normalizeState.phi = clamp s.phi SPH_EPS (Real.pi - SPH_EPS) :=
  ⟨rfl, rfl, rfl, rfl⟩

/-! ### Grounded `applyTranslation` shifts the derived position -/

/-- Folding a translation `delta` into the Grounded state moves the derived
camera position by exactly `delta` (unit offset quaternion, non-degenerate
new offset, main `setFromUnitVectors` branch). -/
theorem GroundState.applyTranslation_shifts {s : GroundState} {delta : Vec3}
    (hq : Quat.normSq s.offsetQuat = 1)
    (hlen : EPSILON ≤ Vec3.length (s.offset + delta))
    (hbranch : ¬ (Vec3.dot s.up (Vec3.normalize (s.offset + delta)) + 1 <
      NUMBER_EPSILON)) :
    (s.applyTranslation delta).position = s.position + delta ∧
    (s.applyTranslation delta).translation = s.translation - delta ∧
    (s.applyTranslation delta).orbitCenter = s.orbitCenter := by
  have heps : (0 : ℝ) < EPSILON := by norm_num [EPSILON]
  have hlen' : EPSILON ≤ Vec3.length (applyQuat s.offsetQuat ⟨0, 0, s.dist⟩ + delta) :=
    hlen
  have hbranch' : ¬ (Vec3.dot s.up
      (Vec3.normalize (applyQuat s.offsetQuat ⟨0, 0, s.dist⟩ + delta)) + 1 <
      NUMBER_EPSILON) := hbranch
  have hlpos : 0 < Vec3.length (applyQuat s.offsetQuat ⟨0, 0, s.dist⟩ + delta) :=
    lt_of_lt_of_le heps hlen'
  have hlne : Vec3.length (applyQuat s.offsetQuat ⟨0, 0, s.dist⟩ + delta) ≠ 0 :=
    ne_of_gt hlpos
  refine ⟨?_, rfl, rfl⟩
  unfold GroundState.applyTranslation
  dsimp only
  unfold GroundState.position GroundState.offset GroundState.setLookUpAngle
    GroundState.setDistance
  dsimp only
  rw [approxEqual_max_eps hlen']
  have hzvec : (⟨0, 0, Vec3.length (applyQuat s.offsetQuat ⟨0, 0, s.dist⟩ + delta)⟩ :
      Vec3) = Vec3.length (applyQuat s.offsetQuat ⟨0, 0, s.dist⟩ + delta) • zAxis := by
    apply Vec3.ext_iff_v.mpr
    refine ⟨?_, ?_, ?_⟩ <;>
      simp only [zAxis, Vec3.smul_x, Vec3.smul_y, Vec3.smul_z] <;> ring
  rw [hzvec]
  have hrot : Quat.normSq (Quat.setFromUnitVectors s.up
      (Vec3.normalize (applyQuat s.offsetQuat ⟨0, 0, s.dist⟩ + delta))) = 1 :=
    Quat.setFromUnitVectors_normSq _ _
  rw [applyQuat_smul, applyQuat_mul hrot hq]
  have hupz : applyQuat s.offsetQuat zAxis = s.up := rfl
  rw [hupz]
  have huplen : Vec3.lengthSq s.up = 1 := by
    unfold GroundState.up
    rw [applyQuat_lengthSq hq]
    unfold Vec3.lengthSq Vec3.dot zAxis
    norm_num
  have hnlen : Vec3.lengthSq (Vec3.normalize (applyQuat s.offsetQuat
      ⟨0, 0, s.dist⟩ + delta)) = 1 :=
    Vec3.normalize_lengthSq hlne
  rw [Quat.setFromUnitVectors_apply huplen hnlen hbranch]
  rw [Vec3.smul_normalize hlne]
  apply Vec3.ext_iff_v.mpr
  refine ⟨?_, ?_, ?_⟩ <;>
    simp only [Vec3.add_x, Vec3.add_y, Vec3.add_z] <;> ring

/-! ### Rotation-matrix, quaternion and Euler-angle machinery -/

theorem sqrt_four : Real.sqrt 4 = 2 := by
  rw [show (4 : ℝ) = 2 ^ 2 by norm_num, Real.sqrt_sq (by norm_num)]

theorem abs_mk_sqrt (a b : ℝ) :
    Complex.abs ⟨a, b⟩ = Real.sqrt (a ^ 2 + b ^ 2) := by
  rw [Complex.abs_apply, Complex.normSq_mk]
  ring_nf

theorem sin_atan2 (y x : ℝ) :
    Real.sin (atan2 y x) = y / Real.sqrt (x ^ 2 + y ^ 2) := by
  unfold atan2
  rw [Complex.sin_arg, abs_mk_sqrt]

theorem cos_atan2 {y x : ℝ} (h : ¬ (x = 0 ∧ y = 0)) :
    Real.cos (atan2 y x) = x / Real.sqrt (x ^ 2 + y ^ 2) := by
  unfold atan2
  have hz : (⟨x, y⟩ : ℂ) ≠ 0 := by
    intro h0
    apply h
    rw [Complex.ext_iff] at h0
    exact ⟨h0.1, h0.2⟩
  rw [Complex.cos_arg hz, abs_mk_sqrt]


theorem RotM.ext_iff_m {a b : RotM} :
    a = b ↔ a.m11 = b.m11 ∧ a.m12 = b.m12 ∧ a.m13 = b.m13 ∧
      a.m21 = b.m21 ∧ a.m22 = b.m22 ∧ a.m23 = b.m23 ∧
      a.m31 = b.m31 ∧ a.m32 = b.m32 ∧ a.m33 = b.m33 := by
  constructor
  · rintro rfl; exact ⟨rfl, rfl, rfl, rfl, rfl, rfl, rfl, rfl, rfl⟩
  · rintro ⟨h1, h2, h3, h4, h5, h6, h7, h8, h9⟩; cases a; cases b; simp_all

theorem EulerAngles.ext_iff_e {a b : EulerAngles} :
    a = b ↔ a.ex = b.ex ∧ a.ey = b.ey ∧ a.ez = b.ez := by
  constructor
  · rintro rfl; exact ⟨rfl, rfl, rfl⟩
  · rintro ⟨h1, h2, h3⟩; cases a; cases b; simp_all

theorem GroundState.ext_iff_g {a b : GroundState} :
    a = b ↔ a.orbitCenter = b.orbitCenter ∧ a.offsetQuat = b.offsetQuat ∧
      a.lookUpAngle = b.lookUpAngle ∧ a.dist = b.dist ∧ a.translation = b.translation := by
  constructor
  · rintro rfl; exact ⟨rfl, rfl, rfl, rfl, rfl⟩
  · rintro ⟨h1, h2, h3, h4, h5⟩; cases a; cases b; simp_all

/-- The three.js rotation formula agrees with multiplication by
`makeRotationFromQuaternion` — identically, even for non-unit quaternions. -/
theorem applyQuat_mat (q : Quat) (v : Vec3) :
    applyQuat q v =
      ⟨(matFromQuat q).m11 * v.x + (matFromQuat q).m12 * v.y + (matFromQuat q).m13 * v.z,
       (matFromQuat q).m21 * v.x + (matFromQuat q).m22 * v.y + (matFromQuat q).m23 * v.z,
       (matFromQuat q).m31 * v.x + (matFromQuat q).m32 * v.y + (matFromQuat q).m33 * v.z⟩ := by
  unfold applyQuat matFromQuat
  dsimp only
  apply Vec3.ext_iff_v.mpr
  refine ⟨?_, ?_, ?_⟩ <;>
    simp only [Vec3.cross, Vec3.add_x, Vec3.add_y, Vec3.add_z,
      Vec3.smul_x, Vec3.smul_y, Vec3.smul_z] <;> ring

/-- Quaternions with the same rotation matrix rotate every vector alike. -/
theorem applyQuat_congr_mat {p q : Quat} (h : matFromQuat p = matFromQuat q) (v : Vec3) :
    applyQuat p v = applyQuat q v := by
  rw [applyQuat_mat p v, applyQuat_mat q v, h]

/-- The images of the coordinate axes are the columns of the rotation matrix. -/
theorem makeBasis_applyQuat (q : Quat) :
    makeBasis (applyQuat q xAxis) (applyQuat q yAxis) (applyQuat q zAxis) =
      matFromQuat q := by
  rw [applyQuat_mat q xAxis, applyQuat_mat q yAxis, applyQuat_mat q zAxis]
  unfold makeBasis xAxis yAxis zAxis
  dsimp only
  apply RotM.ext_iff_m.mpr
  refine ⟨?_, ?_, ?_, ?_, ?_, ?_, ?_, ?_, ?_⟩ <;> ring

theorem applyQuat_neg (q : Quat) (v : Vec3) :
    applyQuat q (-v) = -applyQuat q v := by
  unfold applyQuat
  apply Vec3.ext_iff_v.mpr
  refine ⟨?_, ?_, ?_⟩ <;>
    simp only [Vec3.cross, Vec3.add_x, Vec3.add_y, Vec3.add_z, Vec3.neg_x,
      Vec3.neg_y, Vec3.neg_z, Vec3.smul_x, Vec3.smul_y, Vec3.smul_z] <;> ring

theorem applyQuat_add (q : Quat) (a b : Vec3) :
    applyQuat q (a + b) = applyQuat q a + applyQuat q b := by
  unfold applyQuat
  apply Vec3.ext_iff_v.mpr
  refine ⟨?_, ?_, ?_⟩ <;>
    simp only [Vec3.cross, Vec3.add_x, Vec3.add_y, Vec3.add_z,
      Vec3.smul_x, Vec3.smul_y, Vec3.smul_z] <;> ring

/-- Rotation by a unit quaternion preserves dot products. -/
theorem applyQuat_dot {q : Quat} (h : Quat.normSq q = 1) (a b : Vec3) :
    Vec3.dot (applyQuat q a) (applyQuat q b) = Vec3.dot a b := by
  have h1 := applyQuat_lengthSq h (a + b)
  have h2 := applyQuat_lengthSq h a
  have h3 := applyQuat_lengthSq h b
  rw [applyQuat_add] at h1
  have e1 : Vec3.lengthSq (applyQuat q a + applyQuat q b) =
      Vec3.lengthSq (applyQuat q a) + 2 * Vec3.dot (applyQuat q a) (applyQuat q b) +
      Vec3.lengthSq (applyQuat q b) := by
    unfold Vec3.lengthSq Vec3.dot
    simp only [Vec3.add_x, Vec3.add_y, Vec3.add_z]
    ring
  have e2 : Vec3.lengthSq (a + b) =
      Vec3.lengthSq a + 2 * Vec3.dot a b + Vec3.lengthSq b := by
    unfold Vec3.lengthSq Vec3.dot
    simp only [Vec3.add_x, Vec3.add_y, Vec3.add_z]
    ring
  rw [e1, e2] at h1
  linarith

/-- Rotation by a unit quaternion commutes with the cross product. -/
theorem applyQuat_cross {q : Quat} (h : Quat.normSq q = 1) (a b : Vec3) :
    Vec3.cross (applyQuat q a) (applyQuat q b) = applyQuat q (Vec3.cross a b) := by
  have hS : q.x ^ 2 + q.y ^ 2 + q.z ^ 2 + q.w ^ 2 = 1 := by
    unfold Quat.normSq Quat.qdot at h
    linear_combination h
  unfold applyQuat
  apply Vec3.ext_iff_v.mpr
  refine ⟨?_, ?_, ?_⟩ <;>
    simp only [Vec3.cross, Vec3.add_x, Vec3.add_y, Vec3.add_z,
      Vec3.smul_x, Vec3.smul_y, Vec3.smul_z]
  · linear_combination (4 * q.x * q.x * a.y * b.z - 4 * q.x * q.x * a.z * b.y -
      4 * q.x * q.y * a.x * b.z + 4 * q.x * q.y * a.z * b.x +
      4 * q.x * q.z * a.x * b.y - 4 * q.x * q.z * a.y * b.x) * hS
  · linear_combination (4 * q.x * q.y * a.y * b.z - 4 * q.x * q.y * a.z * b.y -
      4 * q.y * q.y * a.x * b.z + 4 * q.y * q.y * a.z * b.x +
      4 * q.y * q.z * a.x * b.y - 4 * q.y * q.z * a.y * b.x) * hS
  · linear_combination (4 * q.x * q.z * a.y * b.z - 4 * q.x * q.z * a.z * b.y -
      4 * q.y * q.z * a.x * b.z + 4 * q.y * q.z * a.z * b.x +
      4 * q.z * q.z * a.x * b.y - 4 * q.z * q.z * a.y * b.x) * hS

theorem Quat.invert_normSq (q : Quat) :
    Quat.normSq (Quat.invert q) = Quat.normSq q := by
  unfold Quat.normSq Quat.qdot Quat.invert
  dsimp only
  ring

theorem Quat.mul_invert_self {q : Quat} (h : Quat.normSq q = 1) :
    Quat.mul (Quat.invert q) q = Quat.id := by
  unfold Quat.normSq Quat.qdot at h
  unfold Quat.mul Quat.invert Quat.id
  apply Quat.ext_iff_q.mpr
  refine ⟨by ring, by ring, by ring, ?_⟩
  dsimp only
  linear_combination h

/-- `invert` undoes a unit-quaternion rotation. -/
theorem applyQuat_invert {q : Quat} (h : Quat.normSq q = 1) (v : Vec3) :
    applyQuat (Quat.invert q) (applyQuat q v) = v := by
  have hi : Quat.normSq (Quat.invert q) = 1 := by
    rw [Quat.invert_normSq]; exact h
  rw [← applyQuat_mul hi h, Quat.mul_invert_self h, applyQuat_id]

theorem Quat.negQ_normSq (q : Quat) : Quat.normSq (Quat.negQ q) = Quat.normSq q := by
  unfold Quat.normSq Quat.qdot Quat.negQ
  dsimp only
  ring

/-- Negating all four components does not change the rotation. -/
theorem applyQuat_negQ (q : Quat) (v : Vec3) :
    applyQuat (Quat.negQ q) v = applyQuat q v := by
  unfold applyQuat Quat.negQ
  apply Vec3.ext_iff_v.mpr
  refine ⟨?_, ?_, ?_⟩ <;>
    simp only [Vec3.cross, Vec3.add_x, Vec3.add_y, Vec3.add_z,
      Vec3.smul_x, Vec3.smul_y, Vec3.smul_z] <;> ring

theorem Quat.negQ_mul (a b : Quat) :
    Quat.mul (Quat.negQ a) b = Quat.negQ (Quat.mul a b) := by
  unfold Quat.mul Quat.negQ
  apply Quat.ext_iff_q.mpr
  refine ⟨by ring, by ring, by ring, by ring⟩

theorem Quat.normalize_of_unit_q {q : Quat} (h : Quat.normSq q = 1) :
    Quat.normalize q = q := by
  unfold Quat.normalize Quat.qlength
  rw [h, Real.sqrt_one]
  rw [if_neg one_ne_zero]
  apply Quat.ext_iff_q.mpr
  norm_num

theorem Quat.invert_id : Quat.invert Quat.id = Quat.id := by
  unfold Quat.invert Quat.id
  apply Quat.ext_iff_q.mpr
  norm_num

theorem Vec3.normalize_of_unit_v {v : Vec3} (h : Vec3.lengthSq v = 1) :
    Vec3.normalize v = v := by
  unfold Vec3.normalize Vec3.length
  rw [h, Real.sqrt_one, if_neg one_ne_zero]
  apply Vec3.ext_iff_v.mpr
  refine ⟨?_, ?_, ?_⟩ <;>
    simp only [Vec3.smul_x, Vec3.smul_y, Vec3.smul_z] <;> norm_num

theorem Vec3.length_smul (c : ℝ) (v : Vec3) :
    Vec3.length (c • v) = |c| * Vec3.length v := by
  unfold Vec3.length Vec3.lengthSq Vec3.dot
  simp only [Vec3.smul_x, Vec3.smul_y, Vec3.smul_z]
  rw [show c * v.x * (c * v.x) + c * v.y * (c * v.y) + c * v.z * (c * v.z) =
      c ^ 2 * (v.x * v.x + v.y * v.y + v.z * v.z) by ring,
    Real.sqrt_mul (sq_nonneg c), Real.sqrt_sq_eq_abs]

theorem Vec3.length_of_unit {v : Vec3} (h : Vec3.lengthSq v = 1) :
    Vec3.length v = 1 := by
  unfold Vec3.length
  rw [h, Real.sqrt_one]

theorem Vec3.normalize_smul_pos {c : ℝ} {v : Vec3} (hc : 0 < c)
    (hv : Vec3.lengthSq v = 1) :
    Vec3.normalize (c • v) = v := by
  have hcne : c ≠ 0 := ne_of_gt hc
  have hl : Vec3.length (c • v) = c := by
    rw [Vec3.length_smul, abs_of_pos hc, Vec3.length_of_unit hv, mul_one]
  unfold Vec3.normalize
  rw [hl, if_neg hcne]
  apply Vec3.ext_iff_v.mpr
  refine ⟨?_, ?_, ?_⟩ <;>
    simp only [Vec3.smul_x, Vec3.smul_y, Vec3.smul_z] <;> field_simp

/-- `setFromUnitVectors` with equal (unit) arguments is the identity. -/
theorem Quat.setFromUnitVectors_self {u : Vec3} (h : Vec3.lengthSq u = 1) :
    Quat.setFromUnitVectors u u = Quat.id := by
  have hd : Vec3.dot u u + 1 = 2 := by
    unfold Vec3.lengthSq at h
    rw [h]; norm_num
  unfold Quat.setFromUnitVectors
  dsimp only
  rw [hd, if_neg (by linarith [number_epsilon_lt_one])]
  have hc : Vec3.cross u u = ⟨0, 0, 0⟩ := by
    unfold Vec3.cross
    apply Vec3.ext_iff_v.mpr
    refine ⟨by ring, by ring, by ring⟩
  rw [hc]
  unfold Quat.normalize Quat.qlength Quat.normSq Quat.qdot
  norm_num
  rw [Quat.ext_iff_q]
  unfold Quat.id
  norm_num [sqrt_four]

theorem Quat.fromAxisAngle_normSq {axis : Vec3} (h : Vec3.lengthSq axis = 1)
    (a : ℝ) : Quat.normSq (Quat.fromAxisAngle axis a) = 1 := by
  unfold Vec3.lengthSq Vec3.dot at h
  unfold Quat.normSq Quat.qdot Quat.fromAxisAngle
  dsimp only
  have hsc : Real.sin (a / 2) ^ 2 + Real.cos (a / 2) ^ 2 = 1 :=
    Real.sin_sq_add_cos_sq (a / 2)
  linear_combination (Real.sin (a / 2)) ^ 2 * h + hsc

/-- The x-axis rotation by `a` sends `-z` to `(0, sin a, -cos a)`. -/
theorem applyQuat_rotX_negz (a : ℝ) :
    applyQuat (Quat.fromAxisAngle xAxis a) (-zAxis) =
      ⟨0, Real.sin a, -Real.cos a⟩ := by
  have hs : Real.sin a = 2 * Real.sin (a / 2) * Real.cos (a / 2) := by
    have h := Real.sin_two_mul (a / 2)
    rw [show 2 * (a / 2) = a by ring] at h
    linarith
  have hc : Real.cos a = 2 * Real.cos (a / 2) ^ 2 - 1 := by
    have h := Real.cos_two_mul (a / 2)
    rw [show 2 * (a / 2) = a by ring] at h
    linarith
  have hsc : Real.sin (a / 2) ^ 2 + Real.cos (a / 2) ^ 2 = 1 :=
    Real.sin_sq_add_cos_sq (a / 2)
  unfold applyQuat Quat.fromAxisAngle xAxis zAxis
  dsimp only
  apply Vec3.ext_iff_v.mpr
  refine ⟨?_, ?_, ?_⟩ <;>
    simp only [Vec3.cross, Vec3.add_x, Vec3.add_y, Vec3.add_z, Vec3.neg_x,
      Vec3.neg_y, Vec3.neg_z, Vec3.smul_x, Vec3.smul_y, Vec3.smul_z]
  · ring
  · rw [hs]; ring
  · rw [hc]; linear_combination (2 : ℝ) * hsc

/-- Column 3 of a unit-quaternion rotation matrix is a unit vector. -/
theorem matFromQuat_col3_normSq {q : Quat} (h : Quat.normSq q = 1) :
    (matFromQuat q).m13 ^ 2 + (matFromQuat q).m23 ^ 2 + (matFromQuat q).m33 ^ 2 = 1 := by
  have hS : q.x ^ 2 + q.y ^ 2 + q.z ^ 2 + q.w ^ 2 = 1 := by
    unfold Quat.normSq Quat.qdot at h
    linear_combination h
  unfold matFromQuat
  dsimp only
  linear_combination (4 * q.x * q.x + 4 * q.y * q.y) * hS

/-- Row 1 of a unit-quaternion rotation matrix is a unit vector. -/
theorem matFromQuat_row1_normSq {q : Quat} (h : Quat.normSq q = 1) :
    (matFromQuat q).m11 ^ 2 + (matFromQuat q).m12 ^ 2 + (matFromQuat q).m13 ^ 2 = 1 := by
  have hS : q.x ^ 2 + q.y ^ 2 + q.z ^ 2 + q.w ^ 2 = 1 := by
    unfold Quat.normSq Quat.qdot at h
    linear_combination h
  unfold matFromQuat
  dsimp only
  linear_combination (4 * q.y * q.y + 4 * q.z * q.z) * hS

theorem matFromQuat_I21 {q : Quat} (h : Quat.normSq q = 1) :
    (matFromQuat q).m21 * (1 - (matFromQuat q).m13 ^ 2) =
      -((matFromQuat q).m12 * (matFromQuat q).m33) -
        (matFromQuat q).m11 * (matFromQuat q).m13 * (matFromQuat q).m23 := by
  have hS : q.x ^ 2 + q.y ^ 2 + q.z ^ 2 + q.w ^ 2 = 1 := by
    unfold Quat.normSq Quat.qdot at h
    linear_combination h
  unfold matFromQuat
  dsimp only
  linear_combination (-8 * q.x * q.y * q.z * q.z - 4 * q.x * q.y -
    8 * q.y * q.y * q.z * q.w) * hS

theorem matFromQuat_I22 {q : Quat} (h : Quat.normSq q = 1) :
    (matFromQuat q).m22 * (1 - (matFromQuat q).m13 ^ 2) =
      (matFromQuat q).m11 * (matFromQuat q).m33 -
        (matFromQuat q).m12 * (matFromQuat q).m13 * (matFromQuat q).m23 := by
  have hS : q.x ^ 2 + q.y ^ 2 + q.z ^ 2 + q.w ^ 2 = 1 := by
    unfold Quat.normSq Quat.qdot at h
    linear_combination h
  unfold matFromQuat
  dsimp only
  linear_combination (8 * q.x * q.x * q.z * q.z + 8 * q.x * q.y * q.z * q.w -
    4 * q.y * q.y) * hS

theorem matFromQuat_I31 {q : Quat} (h : Quat.normSq q = 1) :
    (matFromQuat q).m31 * (1 - (matFromQuat q).m13 ^ 2) =
      (matFromQuat q).m12 * (matFromQuat q).m23 -
        (matFromQuat q).m11 * (matFromQuat q).m13 * (matFromQuat q).m33 := by
  have hS : q.x ^ 2 + q.y ^ 2 + q.z ^ 2 + q.w ^ 2 = 1 := by
    unfold Quat.normSq Quat.qdot at h
    linear_combination h
  unfold matFromQuat
  dsimp only
  linear_combination (8 * q.x * q.y * q.y * q.z - 4 * q.x * q.z +
    8 * q.y * q.y * q.y * q.w) * hS

theorem matFromQuat_I32 {q : Quat} (h : Quat.normSq q = 1) :
    (matFromQuat q).m32 * (1 - (matFromQuat q).m13 ^ 2) =
      -((matFromQuat q).m11 * (matFromQuat q).m23) -
        (matFromQuat q).m12 * (matFromQuat q).m13 * (matFromQuat q).m33 := by
  have hS : q.x ^ 2 + q.y ^ 2 + q.z ^ 2 + q.w ^ 2 = 1 := by
    unfold Quat.normSq Quat.qdot at h
    linear_combination h
  unfold matFromQuat
  dsimp only
  linear_combination (-8 * q.x * q.x * q.y * q.z - 8 * q.x * q.y * q.y * q.w -
    4 * q.y * q.z) * hS

theorem matFromQuat_m13_abs_le {q : Quat} (h : Quat.normSq q = 1) :
    |(matFromQuat q).m13| ≤ 1 := by
  have hF := matFromQuat_col3_normSq h
  have hsq : (matFromQuat q).m13 ^ 2 ≤ 1 := by
    nlinarith [sq_nonneg (matFromQuat q).m23, sq_nonneg (matFromQuat q).m33]
  rw [abs_le]
  constructor <;> nlinarith [sq_nonneg ((matFromQuat q).m13 + 1),
    sq_nonneg ((matFromQuat q).m13 - 1)]

/-- The three.js quaternion built from XYZ Euler angles has exactly the
rotation matrix three.js builds from the same angles. -/
theorem matFromQuat_quatFromEuler (eu : EulerAngles) :
    matFromQuat (quatFromEuler eu) = makeRotationFromEuler eu := by
  have h1 : Real.sin (eu.ex / 2) ^ 2 + Real.cos (eu.ex / 2) ^ 2 = 1 :=
    Real.sin_sq_add_cos_sq (eu.ex / 2)
  have h2 : Real.sin (eu.ey / 2) ^ 2 + Real.cos (eu.ey / 2) ^ 2 = 1 :=
    Real.sin_sq_add_cos_sq (eu.ey / 2)
  have h3 : Real.sin (eu.ez / 2) ^ 2 + Real.cos (eu.ez / 2) ^ 2 = 1 :=
    Real.sin_sq_add_cos_sq (eu.ez / 2)
  have hsx : Real.sin eu.ex = 2 * Real.sin (eu.ex / 2) * Real.cos (eu.ex / 2) := by
    have h := Real.sin_two_mul (eu.ex / 2)
    rw [show 2 * (eu.ex / 2) = eu.ex by ring] at h
    linarith
  have hcx : Real.cos eu.ex = 2 * Real.cos (eu.ex / 2) ^ 2 - 1 := by
    have h := Real.cos_two_mul (eu.ex / 2)
    rw [show 2 * (eu.ex / 2) = eu.ex by ring] at h
    linarith
  have hsy : Real.sin eu.ey = 2 * Real.sin (eu.ey / 2) * Real.cos (eu.ey / 2) := by
    have h := Real.sin_two_mul (eu.ey / 2)
    rw [show 2 * (eu.ey / 2) = eu.ey by ring] at h
    linarith
  have hcy : Real.cos eu.ey = 2 * Real.cos (eu.ey / 2) ^ 2 - 1 := by
    have h := Real.cos_two_mul (eu.ey / 2)
    rw [show 2 * (eu.ey / 2) = eu.ey by ring] at h
    linarith
  have hsz : Real.sin eu.ez = 2 * Real.sin (eu.ez / 2) * Real.cos (eu.ez / 2) := by
    have h := Real.sin_two_mul (eu.ez / 2)
    rw [show 2 * (eu.ez / 2) = eu.ez by ring] at h
    linarith
  have hcz : Real.cos eu.ez = 2 * Real.cos (eu.ez / 2) ^ 2 - 1 := by
    have h := Real.cos_two_mul (eu.ez / 2)
    rw [show 2 * (eu.ez / 2) = eu.ez by ring] at h
    linarith
  unfold matFromQuat quatFromEuler makeRotationFromEuler
  dsimp only
  apply RotM.ext_iff_m.mpr
  refine ⟨?_, ?_, ?_, ?_, ?_, ?_, ?_, ?_, ?_⟩ <;>
    simp only [hsx, hcx, hsy, hcy, hsz, hcz]
  · linear_combination (-2 * Real.sin (eu.ey / 2) * Real.sin (eu.ey / 2) * Real.cos (eu.ez / 2) * Real.cos (eu.ez / 2) - 2 * Real.cos (eu.ey / 2) * Real.cos (eu.ey / 2) * Real.sin (eu.ez / 2) * Real.sin (eu.ez / 2)) * h1 +
      (-2 * Real.cos (eu.ez / 2) * Real.cos (eu.ez / 2)) * h2 +
      (-2 * Real.cos (eu.ey / 2) * Real.cos (eu.ey / 2)) * h3
  · linear_combination (2 * Real.sin (eu.ey / 2) * Real.sin (eu.ey / 2) * Real.sin (eu.ez / 2) * Real.cos (eu.ez / 2) - 2 * Real.cos (eu.ey / 2) * Real.cos (eu.ey / 2) * Real.sin (eu.ez / 2) * Real.cos (eu.ez / 2)) * h1 +
      (2 * Real.sin (eu.ez / 2) * Real.cos (eu.ez / 2)) * h2
  · linear_combination (2 * Real.sin (eu.ey / 2) * Real.cos (eu.ey / 2) * Real.sin (eu.ez / 2) * Real.sin (eu.ez / 2) + 2 * Real.sin (eu.ey / 2) * Real.cos (eu.ey / 2) * Real.cos (eu.ez / 2) * Real.cos (eu.ez / 2)) * h1 +
      (2 * Real.sin (eu.ey / 2) * Real.cos (eu.ey / 2)) * h3
  · linear_combination (-2 * Real.sin (eu.ey / 2) * Real.sin (eu.ey / 2) * Real.sin (eu.ez / 2) * Real.cos (eu.ez / 2) - 2 * Real.cos (eu.ey / 2) * Real.cos (eu.ey / 2) * Real.sin (eu.ez / 2) * Real.cos (eu.ez / 2)) * h1 +
      (4 * Real.cos (eu.ex / 2) * Real.cos (eu.ex / 2) * Real.sin (eu.ez / 2) * Real.cos (eu.ez / 2) - 2 * Real.sin (eu.ez / 2) * Real.cos (eu.ez / 2)) * h2 +
      (-4 * Real.sin (eu.ex / 2) * Real.cos (eu.ex / 2) * Real.sin (eu.ey / 2) * Real.cos (eu.ey / 2)) * h3
  · linear_combination (-2 * Real.sin (eu.ey / 2) * Real.sin (eu.ey / 2) * Real.cos (eu.ez / 2) * Real.cos (eu.ez / 2) - 2 * Real.cos (eu.ey / 2) * Real.cos (eu.ey / 2) * Real.cos (eu.ez / 2) * Real.cos (eu.ez / 2)) * h1 +
      (-2 * Real.cos (eu.ex / 2) * Real.cos (eu.ex / 2) * Real.sin (eu.ez / 2) * Real.sin (eu.ez / 2) + 2 * Real.cos (eu.ex / 2) * Real.cos (eu.ex / 2) * Real.cos (eu.ez / 2) * Real.cos (eu.ez / 2) - 2 * Real.cos (eu.ez / 2) * Real.cos (eu.ez / 2)) * h2 +
      (-2 * Real.cos (eu.ex / 2) * Real.cos (eu.ex / 2)) * h3
  · linear_combination (2 * Real.sin (eu.ex / 2) * Real.cos (eu.ex / 2) * Real.sin (eu.ez / 2) * Real.sin (eu.ez / 2) + 2 * Real.sin (eu.ex / 2) * Real.cos (eu.ex / 2) * Real.cos (eu.ez / 2) * Real.cos (eu.ez / 2)) * h2 +
      (-4 * Real.sin (eu.ex / 2) * Real.cos (eu.ex / 2) * Real.cos (eu.ey / 2) * Real.cos (eu.ey / 2) + 2 * Real.sin (eu.ex / 2) * Real.cos (eu.ex / 2)) * h3
  · linear_combination (-2 * Real.sin (eu.ey / 2) * Real.cos (eu.ey / 2) * Real.sin (eu.ez / 2) * Real.sin (eu.ez / 2) + 2 * Real.sin (eu.ey / 2) * Real.cos (eu.ey / 2) * Real.cos (eu.ez / 2) * Real.cos (eu.ez / 2)) * h1 +
      (4 * Real.sin (eu.ex / 2) * Real.cos (eu.ex / 2) * Real.sin (eu.ez / 2) * Real.cos (eu.ez / 2)) * h2 +
      (4 * Real.cos (eu.ex / 2) * Real.cos (eu.ex / 2) * Real.sin (eu.ey / 2) * Real.cos (eu.ey / 2) - 2 * Real.sin (eu.ey / 2) * Real.cos (eu.ey / 2)) * h3
  · linear_combination (-4 * Real.sin (eu.ey / 2) * Real.cos (eu.ey / 2) * Real.sin (eu.ez / 2) * Real.cos (eu.ez / 2)) * h1 +
      (-2 * Real.sin (eu.ex / 2) * Real.cos (eu.ex / 2) * Real.sin (eu.ez / 2) * Real.sin (eu.ez / 2) + 2 * Real.sin (eu.ex / 2) * Real.cos (eu.ex / 2) * Real.cos (eu.ez / 2) * Real.cos (eu.ez / 2)) * h2 +
      (-2 * Real.sin (eu.ex / 2) * Real.cos (eu.ex / 2)) * h3
  · linear_combination (-2 * Real.cos (eu.ey / 2) * Real.cos (eu.ey / 2) * Real.sin (eu.ez / 2) * Real.sin (eu.ez / 2) - 2 * Real.cos (eu.ey / 2) * Real.cos (eu.ey / 2) * Real.cos (eu.ez / 2) * Real.cos (eu.ez / 2)) * h1 +
      (-2 * Real.cos (eu.ex / 2) * Real.cos (eu.ex / 2) * Real.sin (eu.ez / 2) * Real.sin (eu.ez / 2) - 2 * Real.cos (eu.ex / 2) * Real.cos (eu.ex / 2) * Real.cos (eu.ez / 2) * Real.cos (eu.ez / 2)) * h2 +
      (4 * Real.cos (eu.ex / 2) * Real.cos (eu.ex / 2) * Real.cos (eu.ey / 2) * Real.cos (eu.ey / 2) - 2 * Real.cos (eu.ex / 2) * Real.cos (eu.ex / 2) - 2 * Real.cos (eu.ey / 2) * Real.cos (eu.ey / 2)) * h3

/-- Wrapping each Euler angle modulo `2π` leaves the rotation matrix
unchanged. -/
theorem makeRotationFromEuler_mod (eu : EulerAngles) :
    makeRotationFromEuler ⟨euclideanModulo eu.ex (2 * Real.pi),
      euclideanModulo eu.ey (2 * Real.pi), euclideanModulo eu.ez (2 * Real.pi)⟩ =
      makeRotationFromEuler eu := by
  unfold makeRotationFromEuler
  dsimp only
  simp only [sin_euclideanModulo_two_pi, cos_euclideanModulo_two_pi]

/-- `setFromEuler` always produces a unit quaternion. -/
theorem quatFromEuler_normSq (eu : EulerAngles) :
    Quat.normSq (quatFromEuler eu) = 1 := by
  have h1 : Real.sin (eu.ex / 2) ^ 2 + Real.cos (eu.ex / 2) ^ 2 = 1 :=
    Real.sin_sq_add_cos_sq (eu.ex / 2)
  have h2 : Real.sin (eu.ey / 2) ^ 2 + Real.cos (eu.ey / 2) ^ 2 = 1 :=
    Real.sin_sq_add_cos_sq (eu.ey / 2)
  have h3 : Real.sin (eu.ez / 2) ^ 2 + Real.cos (eu.ez / 2) ^ 2 = 1 :=
    Real.sin_sq_add_cos_sq (eu.ez / 2)
  unfold Quat.normSq Quat.qdot quatFromEuler
  dsimp only
  linear_combination (Real.sin (eu.ey / 2) * Real.sin (eu.ey / 2) * Real.sin (eu.ez / 2) * Real.sin (eu.ez / 2) + Real.sin (eu.ey / 2) * Real.sin (eu.ey / 2) * Real.cos (eu.ez / 2) * Real.cos (eu.ez / 2) + Real.cos (eu.ey / 2) * Real.cos (eu.ey / 2) * Real.sin (eu.ez / 2) * Real.sin (eu.ez / 2) + Real.cos (eu.ey / 2) * Real.cos (eu.ey / 2) * Real.cos (eu.ez / 2) * Real.cos (eu.ez / 2)) * h1 +
      (Real.sin (eu.ez / 2) * Real.sin (eu.ez / 2) + Real.cos (eu.ez / 2) * Real.cos (eu.ez / 2)) * h2 +
      (1 : ℝ) * h3

/-- The Euler-wrap canonicalization always returns a unit quaternion. -/
theorem normalizeQuatEuler_normSq (q : Quat) :
    Quat.normSq (normalizeQuatEuler q) = 1 := by
  unfold normalizeQuatEuler
  exact quatFromEuler_normSq _

theorem atan2_sin_cos {θ : ℝ} (h1 : -Real.pi < θ) (h2 : θ ≤ Real.pi) :
    atan2 (Real.sin θ) (Real.cos θ) = θ := by
  unfold atan2
  have hmk : (⟨Real.cos θ, Real.sin θ⟩ : ℂ) =
      Complex.cos (θ : ℂ) + Complex.sin (θ : ℂ) * Complex.I := by
    rw [← Complex.ofReal_cos, ← Complex.ofReal_sin]
    apply Complex.ext <;>
      simp [Complex.cos_ofReal_re, Complex.sin_ofReal_re, Complex.cos_ofReal_im,
        Complex.sin_ofReal_im]
  rw [hmk]
  exact Complex.arg_cos_add_sin_mul_I ⟨h1, h2⟩

/-- The XYZ Euler extraction is a right inverse of the Euler rotation
matrix on non-gimbal matrices carrying the algebraic identities of
unit-quaternion rotation matrices. -/
theorem makeRotationFromEuler_eulerFromMat_aux {M : RotM}
    (hF1 : M.m13 ^ 2 + M.m23 ^ 2 + M.m33 ^ 2 = 1)
    (hF2 : M.m11 ^ 2 + M.m12 ^ 2 + M.m13 ^ 2 = 1)
    (hI21 : M.m21 * (1 - M.m13 ^ 2) = -(M.m12 * M.m33) - M.m11 * M.m13 * M.m23)
    (hI22 : M.m22 * (1 - M.m13 ^ 2) = M.m11 * M.m33 - M.m12 * M.m13 * M.m23)
    (hI31 : M.m31 * (1 - M.m13 ^ 2) = M.m12 * M.m23 - M.m11 * M.m13 * M.m33)
    (hI32 : M.m32 * (1 - M.m13 ^ 2) = -(M.m11 * M.m23) - M.m12 * M.m13 * M.m33)
    (hng : |M.m13| < 0.9999999) :
    makeRotationFromEuler (eulerFromMat M) = M := by
  have habs1 : |M.m13| < 1 := lt_of_lt_of_le hng (by norm_num)
  have hb := abs_le.mp (le_of_lt habs1)
  have h13sq : M.m13 ^ 2 < 1 := by
    have hq : M.m13 ^ 2 = |M.m13| ^ 2 := (sq_abs _).symm
    nlinarith [abs_nonneg M.m13]
  have hclamp : clamp M.m13 (-1) 1 = M.m13 := by
    unfold clamp
    rw [min_eq_right hb.2, max_eq_right hb.1]
  set ρ := Real.sqrt (1 - M.m13 ^ 2) with hρ
  have hρpos : 0 < ρ := Real.sqrt_pos.mpr (by linarith)
  have hρne : ρ ≠ 0 := ne_of_gt hρpos
  have hρ2 : ρ ^ 2 = 1 - M.m13 ^ 2 := Real.sq_sqrt (by linarith)
  have hsy : Real.sin (Real.arcsin M.m13) = M.m13 := Real.sin_arcsin hb.1 hb.2
  have hcy : Real.cos (Real.arcsin M.m13) = ρ := by
    rw [Real.cos_arcsin]
  have hx23 : M.m33 ^ 2 + (-M.m23) ^ 2 = 1 - M.m13 ^ 2 := by linear_combination hF1
  have hsqx : Real.sqrt (M.m33 ^ 2 + (-M.m23) ^ 2) = ρ := by
    rw [hx23]
  have hsx : Real.sin (atan2 (-M.m23) M.m33) = -M.m23 / ρ := by
    rw [sin_atan2, hsqx]
  have hne23 : ¬ (M.m33 = 0 ∧ -M.m23 = 0) := by
    rintro ⟨ha, hb'⟩
    rw [ha, hb'] at hx23
    norm_num at hx23
    nlinarith
  have hcx : Real.cos (atan2 (-M.m23) M.m33) = M.m33 / ρ := by
    rw [cos_atan2 hne23, hsqx]
  have hz12 : M.m11 ^ 2 + (-M.m12) ^ 2 = 1 - M.m13 ^ 2 := by linear_combination hF2
  have hsqz : Real.sqrt (M.m11 ^ 2 + (-M.m12) ^ 2) = ρ := by
    rw [hz12]
  have hsz : Real.sin (atan2 (-M.m12) M.m11) = -M.m12 / ρ := by
    rw [sin_atan2, hsqz]
  have hne12 : ¬ (M.m11 = 0 ∧ -M.m12 = 0) := by
    rintro ⟨ha, hb'⟩
    rw [ha, hb'] at hz12
    norm_num at hz12
    nlinarith
  have hcz : Real.cos (atan2 (-M.m12) M.m11) = M.m11 / ρ := by
    rw [cos_atan2 hne12, hsqz]
  have hkey21 : M.m21 * ρ ^ 2 = -(M.m12 * M.m33) - M.m11 * M.m13 * M.m23 := by
    rw [hρ2]; exact hI21
  have hkey22 : M.m22 * ρ ^ 2 = M.m11 * M.m33 - M.m12 * M.m13 * M.m23 := by
    rw [hρ2]; exact hI22
  have hkey31 : M.m31 * ρ ^ 2 = M.m12 * M.m23 - M.m11 * M.m13 * M.m33 := by
    rw [hρ2]; exact hI31
  have hkey32 : M.m32 * ρ ^ 2 = -(M.m11 * M.m23) - M.m12 * M.m13 * M.m33 := by
    rw [hρ2]; exact hI32
  have hone : (1 : ℝ) - M.m13 ^ 2 ≠ 0 := ne_of_gt (by linarith)
  unfold eulerFromMat
  dsimp only
  rw [if_pos hng, hclamp]
  unfold makeRotationFromEuler
  dsimp only
  apply RotM.ext_iff_m.mpr
  refine ⟨?_, ?_, ?_, ?_, ?_, ?_, ?_, ?_, ?_⟩
  · rw [hcy, hcz]
    field_simp
  · rw [hcy, hsz]
    field_simp
  · exact hsy
  · rw [hcx, hsz, hsx, hcz, hsy]
    rw [show M.m33 / ρ * (-M.m12 / ρ) + -M.m23 / ρ * (M.m11 / ρ) * M.m13 =
      (-(M.m12 * M.m33) - M.m11 * M.m13 * M.m23) / ρ ^ 2 by ring]
    rw [hρ2, ← hI21, mul_div_assoc, div_self hone, mul_one]
  · rw [hcx, hcz, hsx, hsz, hsy]
    rw [show M.m33 / ρ * (M.m11 / ρ) - -M.m23 / ρ * (-M.m12 / ρ) * M.m13 =
      (M.m11 * M.m33 - M.m12 * M.m13 * M.m23) / ρ ^ 2 by ring]
    rw [hρ2, ← hI22, mul_div_assoc, div_self hone, mul_one]
  · rw [hsx, hcy]
    field_simp
  · rw [hsx, hsz, hcx, hcz, hsy]
    rw [show -M.m23 / ρ * (-M.m12 / ρ) - M.m33 / ρ * (M.m11 / ρ) * M.m13 =
      (M.m12 * M.m23 - M.m11 * M.m13 * M.m33) / ρ ^ 2 by ring]
    rw [hρ2, ← hI31, mul_div_assoc, div_self hone, mul_one]
  · rw [hsx, hcz, hcx, hsz, hsy]
    rw [show -M.m23 / ρ * (M.m11 / ρ) + M.m33 / ρ * (-M.m12 / ρ) * M.m13 =
      (-(M.m11 * M.m23) - M.m12 * M.m13 * M.m33) / ρ ^ 2 by ring]
    rw [hρ2, ← hI32, mul_div_assoc, div_self hone, mul_one]
  · rw [hcx, hcy]
    field_simp

/-- The non-gimbal Euler extraction followed by `makeRotationFromEuler`
recovers the rotation matrix of a unit quaternion. -/
theorem makeRotationFromEuler_eulerFromMat {q : Quat} (h : Quat.normSq q = 1)
    (hng : |(matFromQuat q).m13| < 0.9999999) :
    makeRotationFromEuler (eulerFromMat (matFromQuat q)) = matFromQuat q := by
  have hF1' := matFromQuat_col3_normSq h
  exact makeRotationFromEuler_eulerFromMat_aux hF1' (matFromQuat_row1_normSq h)
    (matFromQuat_I21 h) (matFromQuat_I22 h) (matFromQuat_I31 h)
    (matFromQuat_I32 h) hng

set_option maxHeartbeats 1600000 in
/-- `setFromRotationMatrix` recovers a unit quaternion from its own
rotation matrix, up to the global sign. -/
theorem quatFromMat_matFromQuat {q : Quat} (h : Quat.normSq q = 1) :
    quatFromMat (matFromQuat q) = q ∨ quatFromMat (matFromQuat q) = Quat.negQ q := by
  have hS : q.x ^ 2 + q.y ^ 2 + q.z ^ 2 + q.w ^ 2 = 1 := by
    unfold Quat.normSq Quat.qdot at h
    linear_combination h
  have htr : (matFromQuat q).m11 + (matFromQuat q).m22 + (matFromQuat q).m33 + 1 =
      4 * q.w ^ 2 := by
    unfold matFromQuat
    dsimp only
    linear_combination (-4 : ℝ) * hS
  have hb2 : 1 + (matFromQuat q).m11 - (matFromQuat q).m22 - (matFromQuat q).m33 =
      4 * q.x ^ 2 := by
    unfold matFromQuat
    dsimp only
    ring
  have hb3 : 1 + (matFromQuat q).m22 - (matFromQuat q).m11 - (matFromQuat q).m33 =
      4 * q.y ^ 2 := by
    unfold matFromQuat
    dsimp only
    ring
  have hb4 : 1 + (matFromQuat q).m33 - (matFromQuat q).m11 - (matFromQuat q).m22 =
      4 * q.z ^ 2 := by
    unfold matFromQuat
    dsimp only
    ring
  have hd12 : (matFromQuat q).m11 - (matFromQuat q).m22 = 2 * q.x ^ 2 - 2 * q.y ^ 2 := by
    unfold matFromQuat
    dsimp only
    ring
  have hd13 : (matFromQuat q).m11 - (matFromQuat q).m33 = 2 * q.x ^ 2 - 2 * q.z ^ 2 := by
    unfold matFromQuat
    dsimp only
    ring
  have hd23 : (matFromQuat q).m22 - (matFromQuat q).m33 = 2 * q.y ^ 2 - 2 * q.z ^ 2 := by
    unfold matFromQuat
    dsimp only
    ring
  have hn1 : (matFromQuat q).m32 - (matFromQuat q).m23 = 4 * q.w * q.x := by
    unfold matFromQuat
    dsimp only
    ring
  have hn2 : (matFromQuat q).m13 - (matFromQuat q).m31 = 4 * q.w * q.y := by
    unfold matFromQuat
    dsimp only
    ring
  have hn3 : (matFromQuat q).m21 - (matFromQuat q).m12 = 4 * q.w * q.z := by
    unfold matFromQuat
    dsimp only
    ring
  have hn4 : (matFromQuat q).m12 + (matFromQuat q).m21 = 4 * q.x * q.y := by
    unfold matFromQuat
    dsimp only
    ring
  have hn5 : (matFromQuat q).m13 + (matFromQuat q).m31 = 4 * q.x * q.z := by
    unfold matFromQuat
    dsimp only
    ring
  have hn6 : (matFromQuat q).m23 + (matFromQuat q).m32 = 4 * q.y * q.z := by
    unfold matFromQuat
    dsimp only
    ring
  unfold quatFromMat
  dsimp only
  split_ifs with hc1 hc2 hc3
  · -- trace positive: w² > 1/4
    have hw2 : 1 / 4 < q.w ^ 2 := by nlinarith [htr, hc1]
    have hsq : Real.sqrt ((matFromQuat q).m11 + (matFromQuat q).m22 +
        (matFromQuat q).m33 + 1) = 2 * |q.w| := by
      rw [show (matFromQuat q).m11 + (matFromQuat q).m22 + (matFromQuat q).m33 + 1 =
          (2 * |q.w|) ^ 2 by rw [mul_pow, sq_abs]; linear_combination htr]
      exact Real.sqrt_sq (by positivity)
    rw [hsq, hn1, hn2, hn3]
    rcases lt_trichotomy q.w 0 with hw | hw | hw
    · right
      have hwne : q.w ≠ 0 := ne_of_lt hw
      rw [abs_of_neg hw]
      unfold Quat.negQ
      apply Quat.ext_iff_q.mpr
      refine ⟨?_, ?_, ?_, ?_⟩ <;> field_simp <;> ring
    · exfalso
      rw [hw] at hw2
      norm_num at hw2
    · left
      have hwne : q.w ≠ 0 := ne_of_gt hw
      rw [abs_of_pos hw]
      apply Quat.ext_iff_q.mpr
      refine ⟨?_, ?_, ?_, ?_⟩ <;> field_simp <;> ring
  · -- m11 dominant: x² > 1/4
    push_neg at hc1
    obtain ⟨h21, h22⟩ := hc2
    have hw14 : 4 * q.w ^ 2 ≤ 1 := by linarith [htr, hc1]
    have hyx : q.y ^ 2 < q.x ^ 2 := by nlinarith [hd12, h21]
    have hzx : q.z ^ 2 < q.x ^ 2 := by nlinarith [hd13, h22]
    have hx2 : 1 / 4 < q.x ^ 2 := by linarith [hS, hyx, hzx, hw14]
    have hsq : Real.sqrt (1 + (matFromQuat q).m11 - (matFromQuat q).m22 -
        (matFromQuat q).m33) = 2 * |q.x| := by
      rw [show 1 + (matFromQuat q).m11 - (matFromQuat q).m22 - (matFromQuat q).m33 =
          (2 * |q.x|) ^ 2 by rw [mul_pow, sq_abs]; linear_combination hb2]
      exact Real.sqrt_sq (by positivity)
    rw [hsq, hn1, hn4, hn5]
    rcases lt_trichotomy q.x 0 with hx | hx | hx
    · right
      have hxne : q.x ≠ 0 := ne_of_lt hx
      rw [abs_of_neg hx]
      unfold Quat.negQ
      apply Quat.ext_iff_q.mpr
      refine ⟨?_, ?_, ?_, ?_⟩ <;> field_simp <;> ring
    · exfalso
      rw [hx] at hx2
      norm_num at hx2
    · left
      have hxne : q.x ≠ 0 := ne_of_gt hx
      rw [abs_of_pos hx]
      apply Quat.ext_iff_q.mpr
      refine ⟨?_, ?_, ?_, ?_⟩ <;> field_simp <;> ring
  · -- m22 dominant: y² > 1/4
    push_neg at hc1 hc2
    have hw14 : 4 * q.w ^ 2 ≤ 1 := by linarith [htr, hc1]
    have hzy : q.z ^ 2 < q.y ^ 2 := by nlinarith [hd23, hc3]
    have hy2 : 1 / 4 < q.y ^ 2 := by
      by_cases hcase : (matFromQuat q).m11 > (matFromQuat q).m22
      · have hxz : q.x ^ 2 ≤ q.z ^ 2 := by nlinarith [hd13, hc2 hcase]
        linarith [hS, hxz, hzy, hw14]
      · push_neg at hcase
        have hxy : q.x ^ 2 ≤ q.y ^ 2 := by nlinarith [hd12, hcase]
        linarith [hS, hxy, hzy, hw14]
    have hsq : Real.sqrt (1 + (matFromQuat q).m22 - (matFromQuat q).m11 -
        (matFromQuat q).m33) = 2 * |q.y| := by
      rw [show 1 + (matFromQuat q).m22 - (matFromQuat q).m11 - (matFromQuat q).m33 =
          (2 * |q.y|) ^ 2 by rw [mul_pow, sq_abs]; linear_combination hb3]
      exact Real.sqrt_sq (by positivity)
    rw [hsq, hn2, hn4, hn6]
    rcases lt_trichotomy q.y 0 with hy | hy | hy
    · right
      have hyne : q.y ≠ 0 := ne_of_lt hy
      rw [abs_of_neg hy]
      unfold Quat.negQ
      apply Quat.ext_iff_q.mpr
      refine ⟨?_, ?_, ?_, ?_⟩ <;> field_simp <;> ring
    · exfalso
      rw [hy] at hy2
      norm_num at hy2
    · left
      have hyne : q.y ≠ 0 := ne_of_gt hy
      rw [abs_of_pos hy]
      apply Quat.ext_iff_q.mpr
      refine ⟨?_, ?_, ?_, ?_⟩ <;> field_simp <;> ring
  · -- m33 dominant: z² ≥ 1/4
    push_neg at hc1 hc2 hc3
    have hw14 : 4 * q.w ^ 2 ≤ 1 := by linarith [htr, hc1]
    have hyz : q.y ^ 2 ≤ q.z ^ 2 := by nlinarith [hd23, hc3]
    have hz2 : 1 / 4 ≤ q.z ^ 2 := by
      by_cases hcase : (matFromQuat q).m11 > (matFromQuat q).m22
      · have hxz : q.x ^ 2 ≤ q.z ^ 2 := by nlinarith [hd13, hc2 hcase]
        linarith [hS, hxz, hyz, hw14]
      · push_neg at hcase
        have hxy : q.x ^ 2 ≤ q.y ^ 2 := by nlinarith [hd12, hcase]
        linarith [hS, hxy, hyz, hw14]
    have hsq : Real.sqrt (1 + (matFromQuat q).m33 - (matFromQuat q).m11 -
        (matFromQuat q).m22) = 2 * |q.z| := by
      rw [show 1 + (matFromQuat q).m33 - (matFromQuat q).m11 - (matFromQuat q).m22 =
          (2 * |q.z|) ^ 2 by rw [mul_pow, sq_abs]; linear_combination hb4]
      exact Real.sqrt_sq (by positivity)
    rw [hsq, hn3, hn5, hn6]
    rcases lt_trichotomy q.z 0 with hz | hz | hz
    · right
      have hzne : q.z ≠ 0 := ne_of_lt hz
      rw [abs_of_neg hz]
      unfold Quat.negQ
      apply Quat.ext_iff_q.mpr
      refine ⟨?_, ?_, ?_, ?_⟩ <;> field_simp <;> ring
    · exfalso
      rw [hz] at hz2
      norm_num at hz2
    · left
      have hzne : q.z ≠ 0 := ne_of_gt hz
      rw [abs_of_pos hz]
      apply Quat.ext_iff_q.mpr
      refine ⟨?_, ?_, ?_, ?_⟩ <;> field_simp <;> ring

/-- On unit quaternions whose rotation matrix is away from the gimbal
guard, the Euler-wrap canonicalization preserves the rotation matrix. -/
theorem normalizeQuatEuler_mat {q : Quat} (h : Quat.normSq q = 1)
    (hng : |(matFromQuat q).m13| < 0.9999999) :
    matFromQuat (normalizeQuatEuler q) = matFromQuat q := by
  unfold normalizeQuatEuler
  dsimp only
  rw [Quat.normalize_of_unit_q h, matFromQuat_quatFromEuler, makeRotationFromEuler_mod]
  exact makeRotationFromEuler_eulerFromMat h hng

/-- On the matrix rebuilt from an extracted Euler triple, the extraction
returns the same triple (both in the regular and in the gimbal branch). -/
theorem eulerFromMat_makeRotationFromEuler {q : Quat} (h : Quat.normSq q = 1) :
    eulerFromMat (makeRotationFromEuler (eulerFromQuat q)) = eulerFromQuat q := by
  by_cases hng : |(matFromQuat q).m13| < 0.9999999
  · rw [show eulerFromQuat q = eulerFromMat (matFromQuat q) from rfl,
      makeRotationFromEuler_eulerFromMat h hng]
  · -- gimbal branch
    have habs := matFromQuat_m13_abs_le h
    have hb := abs_le.mp habs
    have hclamp : clamp (matFromQuat q).m13 (-1) 1 = (matFromQuat q).m13 := by
      unfold clamp
      rw [min_eq_right hb.2, max_eq_right hb.1]
    have hsy : Real.sin (Real.arcsin (matFromQuat q).m13) = (matFromQuat q).m13 :=
      Real.sin_arcsin hb.1 hb.2
    have hE0 : eulerFromQuat q = ⟨atan2 (matFromQuat q).m32 (matFromQuat q).m22,
        Real.arcsin (matFromQuat q).m13, 0⟩ := by
      unfold eulerFromQuat eulerFromMat
      dsimp only
      rw [if_neg hng, hclamp]
    rw [hE0]
    unfold makeRotationFromEuler
    dsimp only
    simp only [Real.sin_zero, Real.cos_zero, mul_zero, zero_mul, mul_one, one_mul,
      neg_zero, add_zero, zero_add, sub_zero, hsy]
    unfold eulerFromMat
    dsimp only
    rw [if_neg hng]
    apply EulerAngles.ext_iff_e.mpr
    refine ⟨?_, ?_, rfl⟩
    · exact atan2_sin_cos (neg_pi_lt_atan2 _ _) (atan2_le_pi _ _)
    · rw [hclamp]

/-- The Euler-wrap canonicalization is idempotent. -/
theorem normalizeQuatEuler_idem (q : Quat) :
    normalizeQuatEuler (normalizeQuatEuler q) = normalizeQuatEuler q := by
  have hq1 : Quat.normSq (Quat.normalize q) = 1 := Quat.normalize_normSq q
  have hunit : Quat.normSq (normalizeQuatEuler q) = 1 := normalizeQuatEuler_normSq q
  have hp : normalizeQuatEuler q = quatFromEuler
      ⟨euclideanModulo (eulerFromQuat (Quat.normalize q)).ex (2 * Real.pi),
       euclideanModulo (eulerFromQuat (Quat.normalize q)).ey (2 * Real.pi),
       euclideanModulo (eulerFromQuat (Quat.normalize q)).ez (2 * Real.pi)⟩ := rfl
  have hmatp : matFromQuat (normalizeQuatEuler q) =
      makeRotationFromEuler (eulerFromQuat (Quat.normalize q)) := by
    rw [hp, matFromQuat_quatFromEuler, makeRotationFromEuler_mod]
  have hkey : eulerFromMat (makeRotationFromEuler (eulerFromQuat (Quat.normalize q))) =
      eulerFromQuat (Quat.normalize q) := eulerFromMat_makeRotationFromEuler hq1
  have he : eulerFromQuat (normalizeQuatEuler q) = eulerFromQuat (Quat.normalize q) := by
    rw [show eulerFromQuat (normalizeQuatEuler q) =
        eulerFromMat (matFromQuat (normalizeQuatEuler q)) from rfl, hmatp]
    exact hkey
  show quatFromEuler
      ⟨euclideanModulo (eulerFromQuat (Quat.normalize (normalizeQuatEuler q))).ex (2 * Real.pi),
       euclideanModulo (eulerFromQuat (Quat.normalize (normalizeQuatEuler q))).ey (2 * Real.pi),
       euclideanModulo (eulerFromQuat (Quat.normalize (normalizeQuatEuler q))).ez (2 * Real.pi)⟩ =
    normalizeQuatEuler q
  rw [Quat.normalize_of_unit_q hunit, he]
  exact hp.symm

/-- Shifting `theta` by a whole number of turns and wrapping leaves the
cartesian vector unchanged. -/
theorem Spherical.toVec3_em_shift (sp : Spherical) (n : ℤ) :
    Spherical.toVec3 ⟨sp.radius, sp.phi,
      euclideanModulo (sp.theta + (n : ℝ) * (2 * Real.pi)) (2 * Real.pi)⟩ =
      Spherical.toVec3 sp := by
  unfold Spherical.toVec3
  dsimp only
  rw [sin_euclideanModulo_two_pi, cos_euclideanModulo_two_pi,
    Real.sin_add_int_mul_two_pi, Real.cos_add_int_mul_two_pi]

/-! ### Concrete evaluations at the identity frame -/


theorem Quat.normalize_id : Quat.normalize Quat.id = Quat.id := by
  unfold Quat.normalize Quat.qlength Quat.normSq Quat.qdot Quat.id
  norm_num

theorem atan2_zero_one : atan2 0 1 = 0 := by
  unfold atan2
  have h : (⟨1, 0⟩ : ℂ) = 1 := by
    apply Complex.ext <;> simp
  rw [h, Complex.arg_one]

theorem matFromQuat_id : matFromQuat Quat.id = ⟨1, 0, 0, 0, 1, 0, 0, 0, 1⟩ := by
  unfold matFromQuat Quat.id
  norm_num

theorem clamp_zero_pm_one : clamp 0 (-1) 1 = 0 := by
  unfold clamp
  norm_num

theorem eulerFromQuat_id : eulerFromQuat Quat.id = ⟨0, 0, 0⟩ := by
  unfold eulerFromQuat
  rw [matFromQuat_id]
  unfold eulerFromMat
  dsimp only
  rw [if_pos (by norm_num)]
  rw [clamp_zero_pm_one, Real.arcsin_zero, neg_zero, atan2_zero_one]

theorem quatFromEuler_zero : quatFromEuler ⟨0, 0, 0⟩ = Quat.id := by
  unfold quatFromEuler Quat.id
  dsimp only
  apply Quat.ext_iff_q.mpr
  norm_num

theorem normalizeQuatEuler_id : normalizeQuatEuler Quat.id = Quat.id := by
  unfold normalizeQuatEuler
  dsimp only
  rw [Quat.normalize_id, eulerFromQuat_id]
  dsimp only
  rw [euclideanModulo_zero, quatFromEuler_zero]

theorem length_z2 : Vec3.length ⟨0, 0, 2⟩ = 2 := by
  unfold Vec3.length Vec3.lengthSq Vec3.dot
  norm_num
  exact sqrt_four

theorem normalize_z2 : Vec3.normalize ⟨0, 0, 2⟩ = ⟨0, 0, 1⟩ := by
  unfold Vec3.normalize
  rw [if_neg (by rw [length_z2]; norm_num)]
  rw [length_z2]
  apply Vec3.ext_iff_v.mpr
  norm_num

theorem angleTo_zz : Vec3.angleTo ⟨0, 0, 1⟩ ⟨0, 0, 1⟩ = 0 := by
  unfold Vec3.angleTo Vec3.lengthSq Vec3.dot
  dsimp only
  norm_num
  unfold clamp
  norm_num

theorem setFromUnitVectors_zz :
    Quat.setFromUnitVectors ⟨0, 0, 1⟩ ⟨0, 0, 1⟩ = Quat.id := by
  unfold Quat.setFromUnitVectors
  dsimp only
  rw [if_neg (by
    unfold Vec3.dot
    norm_num
    linarith [number_epsilon_lt_one])]
  unfold Vec3.cross Vec3.dot Quat.normalize Quat.qlength Quat.normSq Quat.qdot
  norm_num
  rw [Quat.ext_iff_q]
  unfold Quat.id
  norm_num [sqrt_four]

/-! ### Claim C8 -/

/-- Claim C8 counterexample: `normalize()` on a Grounded state with a pending
translation of `(0,0,1)` (the default state after such a translation was
accumulated, e.g. by `dolly`) moves the derived camera position from
`(0,0,1)` to `(0,0,2)` — far beyond EPSILON. -/
theorem grounded_normalize_shifts_position :
    ¬ approxEqualVec3
      ((⟨0, Quat.id, EPSILON, 1, ⟨0, 0, 1⟩⟩ : GroundState).normalizeState.position)
      ((⟨0, Quat.id, EPSILON, 1, ⟨0, 0, 1⟩⟩ : GroundState).position) := by
  have hat : (⟨0, Quat.id, EPSILON, 1, ⟨0, 0, 1⟩⟩ : GroundState).applyTranslation
      ⟨0, 0, 1⟩ = ⟨0, Quat.id, EPSILON, 2, 0⟩ := by
    unfold GroundState.applyTranslation GroundState.up GroundState.offset
      GroundState.setDistance GroundState.setLookUpAngle
    dsimp only
    simp only [applyQuat_id]
    have hadd : (⟨0, 0, 1⟩ : Vec3) + ⟨0, 0, 1⟩ = ⟨0, 0, 2⟩ := by
      apply Vec3.ext_iff_v.mpr
      norm_num
    rw [hadd, length_z2, normalize_z2]
    rw [show zAxis = (⟨0, 0, 1⟩ : Vec3) from rfl]
    rw [setFromUnitVectors_zz, angleTo_zz, mul_zero, add_zero, Quat.id_mul]
    have hmax : max EPSILON (2 : ℝ) = 2 := by
      rw [max_eq_right]
      norm_num [EPSILON]
    have hclamp : clamp EPSILON EPSILON (Real.pi - EPSILON) = EPSILON := by
      unfold clamp
      rw [min_eq_right eps_le_pi_sub_eps, max_self]
    rw [hmax, hclamp]
    have hsub : (⟨0, 0, 1⟩ : Vec3) - ⟨0, 0, 1⟩ = 0 := by
      apply Vec3.ext_iff_v.mpr
      norm_num
    rw [hsub]
  have hres : (⟨0, Quat.id, EPSILON, 1, ⟨0, 0, 1⟩⟩ : GroundState).normalizeState =
      ⟨0, Quat.id, EPSILON, 2, 0⟩ := by
    unfold GroundState.normalizeState
    dsimp only
    rw [hat]
    dsimp only
    rw [normalizeQuatEuler_id]
  have hpos0 : (⟨0, Quat.id, EPSILON, 1, ⟨0, 0, 1⟩⟩ : GroundState).position =
      ⟨0, 0, 1⟩ := by
    unfold GroundState.position GroundState.offset
    dsimp only
    rw [applyQuat_id]
    apply Vec3.ext_iff_v.mpr
    norm_num
  have hpos1 : (⟨0, Quat.id, EPSILON, 2, 0⟩ : GroundState).position = ⟨0, 0, 2⟩ := by
    unfold GroundState.position GroundState.offset
    dsimp only
    rw [applyQuat_id]
    apply Vec3.ext_iff_v.mpr
    norm_num
  rw [hres, hpos1, hpos0]
  unfold approxEqualVec3 approxEqual approxZero
  intro h
  have := h.2.2
  norm_num [EPSILON] at this

/-! ### `normalize` as a canonicalization: Isotropic and Grounded -/

/-- Isotropic `normalize` is idempotent. -/
theorem IsoState.normalizeState_idem_iso (s : IsoState) :
    s.normalizeState.normalizeState = s.normalizeState := by
  obtain ⟨oc, q, d⟩ := s
  show (⟨oc, normalizeQuatEuler (normalizeQuatEuler q), d⟩ : IsoState) =
    ⟨oc, normalizeQuatEuler q, d⟩
  rw [normalizeQuatEuler_idem]

/-- Isotropic `normalize` rewrites the quaternion into one built from Euler
angles wrapped into `[0, 2π)`. -/
theorem IsoState.normalizeState_euler (s : IsoState) :
    ∃ eu : EulerAngles,
      (0 ≤ eu.ex ∧ eu.ex < 2 * Real.pi) ∧ (0 ≤ eu.ey ∧ eu.ey < 2 * Real.pi) ∧
      (0 ≤ eu.ez ∧ eu.ez < 2 * Real.pi) ∧
      s.normalizeState.quaternion = quatFromEuler eu := by
  have htwo : (0 : ℝ) < 2 * Real.pi := by positivity
  exact ⟨⟨euclideanModulo (eulerFromQuat (Quat.normalize s.quaternion)).ex (2 * Real.pi),
    euclideanModulo (eulerFromQuat (Quat.normalize s.quaternion)).ey (2 * Real.pi),
    euclideanModulo (eulerFromQuat (Quat.normalize s.quaternion)).ez (2 * Real.pi)⟩,
    ⟨euclideanModulo_nonneg htwo, euclideanModulo_lt htwo⟩,
    ⟨euclideanModulo_nonneg htwo, euclideanModulo_lt htwo⟩,
    ⟨euclideanModulo_nonneg htwo, euclideanModulo_lt htwo⟩, rfl⟩

/-- For unit quaternions away from the gimbal guard, Isotropic `normalize`
preserves the rotation action and hence the whole derived pose. -/
theorem IsoState.normalizeState_pose_iso {s : IsoState} (hq : Quat.normSq s.quaternion = 1)
    (hng : |(matFromQuat s.quaternion).m13| < 0.9999999) :
    (∀ v : Vec3, applyQuat s.normalizeState.quaternion v = applyQuat s.quaternion v) ∧
    s.normalizeState.position = s.position ∧
    s.normalizeState.forward = s.forward ∧
    s.normalizeState.up = s.up ∧
    s.normalizeState.distance = s.distance ∧
    s.normalizeState.orbitCenter = s.orbitCenter := by
  have hmat := normalizeQuatEuler_mat hq hng
  have hv : ∀ v : Vec3, applyQuat s.normalizeState.quaternion v =
      applyQuat s.quaternion v := by
    intro v
    show applyQuat (normalizeQuatEuler s.quaternion) v = applyQuat s.quaternion v
    exact applyQuat_congr_mat hmat v
  refine ⟨hv, ?_, hv (-zAxis), hv yAxis, rfl, rfl⟩
  unfold IsoState.position IsoState.offset IsoState.forward
  rw [show s.normalizeState.quaternion = normalizeQuatEuler s.quaternion from rfl,
    applyQuat_congr_mat hmat]
  rfl

/-- Applying a zero translation to a Grounded state with the reachable-state
invariants (unit quaternion, distance at the floor or above, clamped look-up
angle) is the identity. -/
theorem GroundState.applyTranslation_zero {s : GroundState}
    (hq : Quat.normSq s.offsetQuat = 1) (hd : EPSILON ≤ s.dist)
    (hl : clamp s.lookUpAngle EPSILON (Real.pi - EPSILON) = s.lookUpAngle) :
    s.applyTranslation 0 = s := by
  have hdpos : 0 < s.dist := lt_of_lt_of_le (by norm_num [EPSILON]) hd
  have hadd0 : GroundState.offset s + 0 = GroundState.offset s := by
    apply Vec3.ext_iff_v.mpr
    refine ⟨?_, ?_, ?_⟩ <;> simp
  have hulen : Vec3.lengthSq (GroundState.up s) = 1 := by
    unfold GroundState.up
    rw [applyQuat_lengthSq hq]
    unfold Vec3.lengthSq Vec3.dot zAxis
    norm_num
  have hoff : GroundState.offset s = s.dist • GroundState.up s := by
    unfold GroundState.offset GroundState.up
    rw [show (⟨0, 0, s.dist⟩ : Vec3) = s.dist • zAxis from by
      apply Vec3.ext_iff_v.mpr
      refine ⟨?_, ?_, ?_⟩ <;> simp [zAxis], applyQuat_smul]
  have hnu : Vec3.normalize (GroundState.offset s) = GroundState.up s := by
    rw [hoff]
    exact Vec3.normalize_smul_pos hdpos hulen
  have hlen : Vec3.length (GroundState.offset s) = s.dist := by
    rw [hoff, Vec3.length_smul, abs_of_pos hdpos, Vec3.length_of_unit hulen, mul_one]
  have hdot0 : Vec3.dot (GroundState.forward s) 0 = 0 := by
    unfold Vec3.dot
    simp
  apply GroundState.ext_iff_g.mpr
  refine ⟨rfl, ?_, ?_, ?_, ?_⟩
  · show Quat.mul (Quat.setFromUnitVectors (GroundState.up s)
      (Vec3.normalize (GroundState.offset s + 0))) s.offsetQuat = s.offsetQuat
    rw [hadd0, hnu, Quat.setFromUnitVectors_self hulen, Quat.id_mul]
  · show clamp (s.lookUpAngle + jsSign (Vec3.dot (GroundState.forward s) 0) *
      Vec3.angleTo (GroundState.up s) (Vec3.normalize (GroundState.offset s + 0)))
      EPSILON (Real.pi - EPSILON) = s.lookUpAngle
    rw [hdot0, show jsSign (0 : ℝ) = 0 from by unfold jsSign; exact Real.sign_zero,
      zero_mul, add_zero, hl]
  · show max EPSILON (Vec3.length (GroundState.offset s + 0)) = s.dist
    rw [hadd0, hlen]
    exact approxEqual_max_eps hd
  · show s.translation - 0 = s.translation
    apply Vec3.ext_iff_v.mpr
    refine ⟨?_, ?_, ?_⟩ <;> simp

/-- Grounded `normalize` is idempotent. -/
theorem GroundState.normalizeState_idem_ground (s : GroundState) :
    s.normalizeState.normalizeState = s.normalizeState := by
  have hq1 : Quat.normSq s.normalizeState.offsetQuat = 1 := normalizeQuatEuler_normSq _
  have hd1 : EPSILON ≤ s.normalizeState.dist := le_max_left _ _
  have hclamp2 : ∀ x : ℝ, clamp (clamp x EPSILON (Real.pi - EPSILON)) EPSILON
      (Real.pi - EPSILON) = clamp x EPSILON (Real.pi - EPSILON) := fun x => by
    unfold clamp
    exact clamp_minmax_idem _ _ _ eps_le_pi_sub_eps
  have hl1 : clamp s.normalizeState.lookUpAngle EPSILON (Real.pi - EPSILON) =
      s.normalizeState.lookUpAngle := hclamp2 _
  have htr1 : s.normalizeState.translation = (0 : Vec3) := rfl
  have hat : s.normalizeState.applyTranslation s.normalizeState.translation =
      s.normalizeState := by
    rw [htr1]
    exact GroundState.applyTranslation_zero hq1 hd1 hl1
  apply GroundState.ext_iff_g.mpr
  refine ⟨?_, ?_, ?_, ?_, ?_⟩
  · show (s.normalizeState.applyTranslation s.normalizeState.translation).orbitCenter =
      s.normalizeState.orbitCenter
    rw [hat]
  · show normalizeQuatEuler
      ((s.normalizeState.applyTranslation s.normalizeState.translation).offsetQuat) =
      s.normalizeState.offsetQuat
    rw [hat]
    exact normalizeQuatEuler_idem _
  · show (s.normalizeState.applyTranslation s.normalizeState.translation).lookUpAngle =
      s.normalizeState.lookUpAngle
    rw [hat]
  · show (s.normalizeState.applyTranslation s.normalizeState.translation).dist =
      s.normalizeState.dist
    rw [hat]
  · exact htr1.symm

/-- Grounded `normalize` on a state with no pending translation (and the
reachable-state invariants, away from the gimbal guard) preserves the whole
derived pose. -/
theorem GroundState.normalizeState_pose_ground {s : GroundState} (htr : s.translation = 0)
    (hq : Quat.normSq s.offsetQuat = 1) (hd : EPSILON ≤ s.dist)
    (hl : clamp s.lookUpAngle EPSILON (Real.pi - EPSILON) = s.lookUpAngle)
    (hng : |(matFromQuat s.offsetQuat).m13| < 0.9999999) :
    s.normalizeState.position = s.position ∧
    s.normalizeState.forward = s.forward ∧
    s.normalizeState.orbitCenter = s.orbitCenter ∧
    s.normalizeState.distance = s.distance ∧
    s.normalizeState.lookUpAngle = s.lookUpAngle := by
  have hat : s.applyTranslation s.translation = s := by
    rw [htr]
    exact GroundState.applyTranslation_zero hq hd hl
  have hq' : Quat.normSq (normalizeQuatEuler s.offsetQuat) = 1 :=
    normalizeQuatEuler_normSq _
  have hfa : Quat.normSq (Quat.fromAxisAngle xAxis s.lookUpAngle) = 1 :=
    Quat.fromAxisAngle_normSq lengthSq_xAxis _
  have hmat := normalizeQuatEuler_mat hq hng
  have hNs : s.normalizeState =
      ⟨s.orbitCenter, normalizeQuatEuler s.offsetQuat, s.lookUpAngle, s.dist, 0⟩ := by
    apply GroundState.ext_iff_g.mpr
    refine ⟨?_, ?_, ?_, ?_, rfl⟩
    · show (s.applyTranslation s.translation).orbitCenter = s.orbitCenter
      rw [hat]
    · show normalizeQuatEuler ((s.applyTranslation s.translation).offsetQuat) =
        normalizeQuatEuler s.offsetQuat
      rw [hat]
    · show (s.applyTranslation s.translation).lookUpAngle = s.lookUpAngle
      rw [hat]
    · show (s.applyTranslation s.translation).dist = s.dist
      rw [hat]
  rw [hNs]
  refine ⟨?_, ?_, rfl, rfl, rfl⟩
  · unfold GroundState.position GroundState.offset
    dsimp only
    rw [applyQuat_congr_mat hmat]
  · unfold GroundState.forward GroundState.orientation
    dsimp only
    rw [applyQuat_mul hq' hfa, applyQuat_mul hq hfa, applyQuat_congr_mat hmat]

/-- The derived position is unchanged by Orbit `normalize` when phi is
already in the safe band. -/
theorem OrbitState.normalizeState_position {s : OrbitState}
    (h1 : SPH_EPS ≤ s.phi) (h2 : s.phi ≤ Real.pi - SPH_EPS) :
    s.normalizeState.position = s.position := by
  unfold OrbitState.position
  rw [OrbitState.normalizeState_offset h1 h2]
  rfl

/-- Claim C8 (corrected): `normalize` is an idempotent canonicalization for
all three variants.  Orbit wraps theta into `[0, 2π)` and keeps the derived
offset, position, up and distance (for phi inside the `makeSafe` band, as
every setter-produced phi is).  Isotropic rewrites the quaternion into one
built from Euler angles wrapped into `[0, 2π)` and, for unit quaternions
away from the gimbal guard, preserves the rotation action and hence
position, forward and up.  Grounded is idempotent, and with no pending
translation keeps position, forward, orbit center, distance and look-up
angle.  A pending Grounded translation, however, is folded into the derived
camera position: `normalize` then moves the position by exactly that delta
(see the counterexample), so it is not a pure re-parameterization for
dirty-translation states. -/
theorem normalize_canonicalizes_but_translation_shifts_position :
    (∀ s : OrbitState, s.normalizeState.normalizeState = s.normalizeState) ∧
    (∀ s : OrbitState, 0 ≤ s.normalizeState.theta ∧
      s.normalizeState.theta < 2 * Real.pi) ∧
    (∀ s : OrbitState, SPH_EPS ≤ s.phi → s.phi ≤ Real.pi - SPH_EPS →
      s.normalizeState.offset = s.offset ∧
      s.normalizeState.position = s.position ∧
      s.normalizeState.up = s.up ∧
      s.normalizeState.distance = s.distance) ∧
    (∀ s : IsoState, s.normalizeState.normalizeState = s.normalizeState) ∧
    (∀ s : IsoState, ∃ eu : EulerAngles,
      (0 ≤ eu.ex ∧ eu.ex < 2 * Real.pi) ∧ (0 ≤ eu.ey ∧ eu.ey < 2 * Real.pi) ∧
      (0 ≤ eu.ez ∧ eu.ez < 2 * Real.pi) ∧
      s.normalizeState.quaternion = quatFromEuler eu) ∧
    (∀ s : IsoState, Quat.normSq s.quaternion = 1 →
      |(matFromQuat s.quaternion).m13| < 0.9999999 →
      (∀ v : Vec3, applyQuat s.normalizeState.quaternion v = applyQuat s.quaternion v) ∧
      s.normalizeState.position = s.position ∧
      s.normalizeState.forward = s.forward ∧
      s.normalizeState.up = s.up ∧
      s.normalizeState.distance = s.distance ∧
      s.normalizeState.orbitCenter = s.orbitCenter) ∧
    (∀ s : GroundState, s.normalizeState.normalizeState = s.normalizeState) ∧
    (∀ s : GroundState, s.translation = 0 → Quat.normSq s.offsetQuat = 1 →
      EPSILON ≤ s.dist →
      clamp s.lookUpAngle EPSILON (Real.pi - EPSILON) = s.lookUpAngle →
      |(matFromQuat s.offsetQuat).m13| < 0.9999999 →
      s.normalizeState.position = s.position ∧
      s.normalizeState.forward = s.forward ∧
      s.normalizeState.orbitCenter = s.orbitCenter ∧
      s.normalizeState.distance = s.distance ∧
      s.normalizeState.lookUpAngle = s.lookUpAngle) ∧
    (∀ (s : GroundState) (delta : Vec3),
      Quat.normSq s.offsetQuat = 1 →
      EPSILON ≤ Vec3.length (s.offset + delta) →
      ¬ (Vec3.dot s.up (Vec3.normalize (s.offset + delta)) + 1 < NUMBER_EPSILON) →
      (s.applyTranslation delta).position = s.position + delta ∧
      (s.applyTranslation delta).translation = s.translation - delta ∧
      (s.applyTranslation delta).orbitCenter = s.orbitCenter) :=
  ⟨OrbitState.normalizeState_idem, OrbitState.normalizeState_theta_mem,
   fun _ h1 h2 => ⟨OrbitState.normalizeState_offset h1 h2,
     OrbitState.normalizeState_position h1 h2, rfl, rfl⟩,
   IsoState.normalizeState_idem_iso, IsoState.normalizeState_euler,
   fun _ hq hng => IsoState.normalizeState_pose_iso hq hng,
   GroundState.normalizeState_idem_ground,
   fun _ htr hq hd hl hng => GroundState.normalizeState_pose_ground htr hq hd hl hng,
   fun _ _ hq hlen hb => GroundState.applyTranslation_shifts hq hlen hb⟩

/-! ### Spherical round trip -/




/-- `setFromSpherical ∘ setFromVector3` is the identity on vectors that are
not on the y-axis. -/
theorem Spherical.toVec3_fromVec3 {v : Vec3} (h : 0 < v.x ^ 2 + v.z ^ 2) :
    (Spherical.fromVec3 v).toVec3 = v := by
  have hlsq : Vec3.lengthSq v = v.x ^ 2 + v.y ^ 2 + v.z ^ 2 := by
    unfold Vec3.lengthSq Vec3.dot
    ring
  have hlsqpos : 0 < Vec3.lengthSq v := by
    rw [hlsq]
    nlinarith [sq_nonneg v.y]
  have hrpos : 0 < Vec3.length v := Real.sqrt_pos.mpr hlsqpos
  have hrne : Vec3.length v ≠ 0 := ne_of_gt hrpos
  have hr2 : Vec3.length v ^ 2 = v.x ^ 2 + v.y ^ 2 + v.z ^ 2 := by
    rw [Vec3.length_sq_eq, hlsq]
  set r := Vec3.length v with hrdef
  have hy2 : v.y ^ 2 ≤ r ^ 2 := by
    rw [hr2]
    nlinarith [h]
  have hyabs : |v.y| ≤ r := by
    rw [← Real.sqrt_sq_eq_abs, ← Real.sqrt_sq hrpos.le]
    exact Real.sqrt_le_sqrt hy2
  have hclamp : clamp (v.y / r) (-1) 1 = v.y / r := by
    unfold clamp
    have h1 : v.y / r ≤ 1 := by
      rw [div_le_one hrpos]
      linarith [abs_le.mp hyabs]
    have h2 : (-1 : ℝ) ≤ v.y / r := by
      rw [le_div_iff₀ hrpos]
      linarith [abs_le.mp hyabs]
    rw [min_eq_right h1, max_eq_right h2]
  have hcos : Real.cos (Real.arccos (v.y / r)) = v.y / r :=
    Real.cos_arccos (by
      rw [le_div_iff₀ hrpos]
      linarith [abs_le.mp hyabs]) (by
      rw [div_le_one hrpos]
      linarith [abs_le.mp hyabs])
  have hsin : Real.sin (Real.arccos (v.y / r)) =
      Real.sqrt (v.x ^ 2 + v.z ^ 2) / r := by
    rw [Real.sin_arccos]
    have ht2 : 1 - (v.y / r) ^ 2 = (v.x ^ 2 + v.z ^ 2) / r ^ 2 := by
      field_simp
      linear_combination hr2
    rw [ht2, Real.sqrt_div (by positivity), Real.sqrt_sq hrpos.le]
  have hrho : Real.sqrt (v.z ^ 2 + v.x ^ 2) = Real.sqrt (v.x ^ 2 + v.z ^ 2) := by
    rw [add_comm]
  have hrhopos : 0 < Real.sqrt (v.x ^ 2 + v.z ^ 2) := Real.sqrt_pos.mpr h
  have hrho2 : Real.sqrt (v.x ^ 2 + v.z ^ 2) ^ 2 = v.x ^ 2 + v.z ^ 2 :=
    Real.sq_sqrt h.le
  have hsinθ : Real.sin (atan2 v.x v.z) =
      v.x / Real.sqrt (v.x ^ 2 + v.z ^ 2) := by
    rw [sin_atan2, hrho]
  have hcosθ : Real.cos (atan2 v.x v.z) =
      v.z / Real.sqrt (v.x ^ 2 + v.z ^ 2) := by
    rw [cos_atan2 (by
      intro h0
      rw [h0.1, h0.2] at h
      norm_num at h), hrho]
  unfold Spherical.fromVec3
  rw [← hrdef, if_neg hrne]
  unfold Spherical.toVec3
  dsimp only
  rw [hclamp, hcos, hsin, hsinθ, hcosθ]
  apply Vec3.ext_iff_v.mpr
  refine ⟨?_, ?_, ?_⟩
  · field_simp
  · field_simp
  · field_simp

theorem Vec3.normalize_yAxis : Vec3.normalize yAxis = yAxis := by
  unfold Vec3.normalize Vec3.length Vec3.lengthSq Vec3.dot yAxis
  rw [if_neg (by norm_num)]
  apply Vec3.ext_iff_v.mpr
  norm_num

theorem jsTrunc_zero : jsTrunc 0 = 0 := by
  unfold jsTrunc
  rw [if_pos le_rfl]
  exact Int.floor_zero

theorem OrbitState.withOC_offset (c : Vec3) :
    ((⟨c, Spherical.default, yAxis, Quat.id, Quat.id⟩ : OrbitState)).offset =
      ⟨0, 1, 0⟩ := by
  unfold OrbitState.offset Spherical.default Spherical.toVec3
  dsimp only
  rw [applyQuat_id]
  apply Vec3.ext_iff_v.mpr
  norm_num

/-- The Orbit round trip through a fresh default state, for saves made in the
default frame (up = y-axis, identity conversion quaternions): position and
forward are reproduced exactly when the saved offset is not approximately
zero, differs approximately from the fresh state's offset `(0,1,0)`, and
stays out of the spherical pole band. -/
theorem OrbitState.fresh_load_exact {s : OrbitState}
    (hup : s.upv = yAxis) (_hq1 : s.fromYToUp = Quat.id) (_hq2 : s.fromUpToY = Quat.id)
    (hnz : ¬ approxZeroVec3 s.offset)
    (hne : ¬ approxEqualVec3 ⟨0, 1, 0⟩ s.offset)
    (hxz : 0 < s.offset.x ^ 2 + s.offset.z ^ 2)
    (hphi1 : SPH_EPS ≤ (Spherical.fromVec3 s.offset).phi)
    (hphi2 : (Spherical.fromVec3 s.offset).phi ≤ Real.pi - SPH_EPS) :
    (OrbitState.init.loadState s.saveState).position = s.position ∧
    (OrbitState.init.loadState s.saveState).forward = s.forward := by
  have hsave : s.saveState =
      ⟨s.orbitCenter, s.offset, Vec3.normalize s.forward, yAxis⟩ := by
    unfold OrbitState.saveState
    rw [show s.up = yAxis from hup, Vec3.normalize_yAxis]
  have hsetup : ((⟨s.orbitCenter, Spherical.default, yAxis, Quat.id, Quat.id⟩ :
      OrbitState)).setUp yAxis =
      (⟨s.orbitCenter, Spherical.default, yAxis, Quat.id, Quat.id⟩ : OrbitState) := by
    unfold OrbitState.setUp
    rw [if_pos (show approxEqualVec3
      ((⟨s.orbitCenter, Spherical.default, yAxis, Quat.id, Quat.id⟩ :
        OrbitState)).up yAxis from approxEqualVec3_refl _)]
  have hθb := Spherical.fromVec3_theta_bounds s.offset
  have hsph : (Spherical.fromVec3 (applyQuat Quat.id s.offset)).makeSafe =
      Spherical.fromVec3 s.offset := by
    rw [applyQuat_id]
    exact Spherical.makeSafe_of_mem hphi1 hphi2
  have hload : OrbitState.init.loadState s.saveState =
      (⟨s.orbitCenter,
        Spherical.makeSafe ⟨(Spherical.fromVec3 s.offset).radius,
          (Spherical.fromVec3 s.offset).phi,
          euclideanModulo ((Spherical.fromVec3 s.offset).theta) (2 * Real.pi)⟩,
        yAxis, Quat.id, Quat.id⟩ : OrbitState) := by
    unfold OrbitState.loadState OrbitState.init
    dsimp only
    rw [hsave]
    dsimp only
    rw [hsetup, if_neg hnz]
    unfold OrbitState.setOffset
    rw [if_neg (show ¬ approxEqualVec3
        ((⟨s.orbitCenter, Spherical.default, yAxis, Quat.id, Quat.id⟩ :
          OrbitState)).offset s.offset by
      rw [OrbitState.withOC_offset]
      exact hne)]
    rw [if_neg hnz]
    dsimp only
    unfold OrbitState.theta Spherical.default
    dsimp only
    rw [zero_div, jsTrunc_zero, Int.cast_zero, zero_mul, add_zero, hsph]
    rw [if_neg (by push_neg; linarith [hθb.1]),
      if_neg (by push_neg; linarith [hθb.2])]
    unfold OrbitState.normalizeState
    dsimp only
  have hoffload : (OrbitState.init.loadState s.saveState).offset = s.offset := by
    rw [hload]
    show applyQuat Quat.id (Spherical.toVec3 (Spherical.makeSafe
      ⟨(Spherical.fromVec3 s.offset).radius, (Spherical.fromVec3 s.offset).phi,
        euclideanModulo ((Spherical.fromVec3 s.offset).theta) (2 * Real.pi)⟩)) =
      s.offset
    rw [@Spherical.makeSafe_of_mem ⟨(Spherical.fromVec3 s.offset).radius,
      (Spherical.fromVec3 s.offset).phi,
      euclideanModulo ((Spherical.fromVec3 s.offset).theta) (2 * Real.pi)⟩ hphi1 hphi2]
    rw [Spherical.toVec3_mod_theta (Spherical.fromVec3 s.offset)]
    rw [Spherical.toVec3_fromVec3 hxz, applyQuat_id]
  constructor
  · unfold OrbitState.position
    rw [hoffload, hload]
  · unfold OrbitState.forward
    rw [hoffload]

theorem Vec3.length_z (c : ℝ) : Vec3.length ⟨0, 0, c⟩ = |c| := by
  unfold Vec3.length Vec3.lengthSq Vec3.dot
  rw [show (0 * 0 + 0 * 0 + c * c : ℝ) = c ^ 2 by ring, Real.sqrt_sq_eq_abs]

theorem Vec3.normalize_z_pos {c : ℝ} (h : 0 < c) :
    Vec3.normalize ⟨0, 0, c⟩ = ⟨0, 0, 1⟩ := by
  unfold Vec3.normalize
  rw [Vec3.length_z, abs_of_pos h, if_neg (ne_of_gt h)]
  apply Vec3.ext_iff_v.mpr
  refine ⟨?_, ?_, ?_⟩ <;>
    simp only [Vec3.smul_x, Vec3.smul_y, Vec3.smul_z] <;> field_simp

theorem Vec3.normalize_z_neg {c : ℝ} (h : c < 0) :
    Vec3.normalize ⟨0, 0, c⟩ = ⟨0, 0, -1⟩ := by
  unfold Vec3.normalize
  rw [Vec3.length_z, abs_of_neg h, if_neg (ne_of_gt (neg_pos.mpr h))]
  apply Vec3.ext_iff_v.mpr
  refine ⟨?_, ?_, ?_⟩ <;>
    simp only [Vec3.smul_x, Vec3.smul_y, Vec3.smul_z]
  · ring
  · ring
  · rw [one_div, inv_mul_eq_div, div_neg, div_self (ne_of_lt h)]

/-- `Spherical.setFromVector3` at the unit z vector. -/
theorem Spherical.fromVec3_z1 :
    Spherical.fromVec3 ⟨0, 0, 1⟩ = ⟨1, Real.pi / 2, 0⟩ := by
  have hl : Vec3.length ⟨0, 0, (1 : ℝ)⟩ = 1 := by
    rw [Vec3.length_z]
    norm_num
  unfold Spherical.fromVec3
  dsimp only
  rw [hl, if_neg one_ne_zero]
  have h0 : (⟨0, 0, 1⟩ : Vec3).y / 1 = 0 := by norm_num
  rw [h0, clamp_zero_pm_one, Real.arccos_zero]
  have h1 : atan2 (⟨0, 0, 1⟩ : Vec3).x (⟨0, 0, 1⟩ : Vec3).z = 0 := atan2_zero_one
  rw [h1]

theorem sph_eps_le_pi_div_two : SPH_EPS ≤ Real.pi / 2 := by
  unfold SPH_EPS
  linarith [Real.pi_gt_three]

theorem pi_div_two_le_pi_sub_sph_eps : Real.pi / 2 ≤ Real.pi - SPH_EPS := by
  unfold SPH_EPS
  linarith [Real.pi_gt_three]

/-! ### Same-variant save/load round trips -/

/-- The Isotropic round trip: loading a save made from a state with a unit
quaternion and a distance at or above the floor into any target state
reproduces position and forward exactly. -/
theorem IsoState.load_roundtrip_iso {s : IsoState} (hq : Quat.normSq s.quaternion = 1)
    (hd : EPSILON ≤ s.dist) (t : IsoState) :
    (t.loadState s.saveState).position = s.position ∧
    (t.loadState s.saveState).forward = s.forward := by
  have hdpos : 0 < s.dist := lt_of_lt_of_le (by norm_num [EPSILON]) hd
  have hflen : Vec3.lengthSq (IsoState.forward s) = 1 := by
    unfold IsoState.forward
    rw [applyQuat_lengthSq hq]
    simp [Vec3.lengthSq, Vec3.dot, zAxis]
  have hfwd_n : Vec3.normalize (IsoState.forward s) = IsoState.forward s :=
    Vec3.normalize_of_unit_v hflen
  have hulen : Vec3.lengthSq (IsoState.up s) = 1 := by
    unfold IsoState.up
    rw [applyQuat_lengthSq hq]
    simp [Vec3.lengthSq, Vec3.dot, yAxis]
  have hup_n : Vec3.normalize (IsoState.up s) = IsoState.up s :=
    Vec3.normalize_of_unit_v hulen
  have hsave : s.saveState =
      ⟨s.orbitCenter, IsoState.offset s, IsoState.forward s, IsoState.up s⟩ := by
    unfold IsoState.saveState
    rw [hfwd_n, hup_n]
  have hlen_off : Vec3.length (IsoState.offset s) = s.dist := by
    unfold IsoState.offset
    rw [Vec3.length_smul, abs_neg, abs_of_pos hdpos, Vec3.length_of_unit hflen,
      mul_one]
  have hFiso : (if approxZeroVec3 (IsoState.offset s) then IsoState.forward s
      else Vec3.normalize (-IsoState.offset s)) = IsoState.forward s := by
    split_ifs with hz
    · rfl
    · rw [show -IsoState.offset s = s.dist • IsoState.forward s from by
        unfold IsoState.offset
        apply Vec3.ext_iff_v.mpr
        refine ⟨?_, ?_, ?_⟩ <;> simp <;> ring]
      exact Vec3.normalize_smul_pos hdpos hflen
  have hcr : Vec3.cross (IsoState.forward s) (IsoState.up s) =
      applyQuat s.quaternion xAxis := by
    unfold IsoState.forward IsoState.up
    rw [applyQuat_cross hq]
    congr 1
    apply Vec3.ext_iff_v.mpr
    refine ⟨?_, ?_, ?_⟩ <;> simp [Vec3.cross, zAxis, yAxis, xAxis]
  have hcu : Vec3.cross (applyQuat s.quaternion xAxis) (IsoState.forward s) =
      applyQuat s.quaternion yAxis := by
    unfold IsoState.forward
    rw [applyQuat_cross hq]
    congr 1
    apply Vec3.ext_iff_v.mpr
    refine ⟨?_, ?_, ?_⟩ <;> simp [Vec3.cross, zAxis, yAxis, xAxis]
  have hneg_fwd : -IsoState.forward s = applyQuat s.quaternion zAxis := by
    unfold IsoState.forward
    rw [applyQuat_neg]
    apply Vec3.ext_iff_v.mpr
    refine ⟨?_, ?_, ?_⟩ <;> simp
  have hquat : (t.loadState s.saveState).quaternion =
      quatFromMat (matFromQuat s.quaternion) := by
    rw [hsave]
    show quatFromMat (makeBasis
      (Vec3.cross (if approxZeroVec3 (IsoState.offset s) then IsoState.forward s
        else Vec3.normalize (-IsoState.offset s)) (IsoState.up s))
      (Vec3.cross (Vec3.cross (if approxZeroVec3 (IsoState.offset s) then
        IsoState.forward s else Vec3.normalize (-IsoState.offset s)) (IsoState.up s))
        (if approxZeroVec3 (IsoState.offset s) then IsoState.forward s
        else Vec3.normalize (-IsoState.offset s)))
      (-(if approxZeroVec3 (IsoState.offset s) then IsoState.forward s
        else Vec3.normalize (-IsoState.offset s)))) =
      quatFromMat (matFromQuat s.quaternion)
    rw [hFiso, hcr, hcu, hneg_fwd, makeBasis_applyQuat]
  have hoc : (t.loadState s.saveState).orbitCenter = s.orbitCenter := by
    rw [hsave]
    rfl
  have hdist : (t.loadState s.saveState).dist = s.dist := by
    rw [hsave]
    show max EPSILON (Vec3.length (IsoState.offset s)) = s.dist
    rw [hlen_off]
    exact approxEqual_max_eps hd
  have hfwd_final : (t.loadState s.saveState).forward = IsoState.forward s := by
    unfold IsoState.forward
    rw [hquat]
    rcases quatFromMat_matFromQuat hq with hσ | hσ
    · rw [hσ]
    · rw [hσ, applyQuat_negQ]
  constructor
  · unfold IsoState.position
    rw [hoc]
    unfold IsoState.offset
    rw [hdist, hfwd_final]
  · exact hfwd_final

/-- The Grounded round trip: loading a save made from a reachable state
(unit quaternion, floored distance, clamped look-up angle) whose offset is
not approximately zero and whose view direction is not approximately
collinear with its up axis, into any target state, reproduces position and
forward exactly. -/
theorem GroundState.load_roundtrip_ground {s : GroundState}
    (hq : Quat.normSq s.offsetQuat = 1) (hd : EPSILON ≤ s.dist)
    (hl1 : EPSILON ≤ s.lookUpAngle) (hl2 : s.lookUpAngle ≤ Real.pi - EPSILON)
    (hnz : ¬ approxZeroVec3 s.offset)
    (hcol : ¬ approxCollinear s.forward s.up) (t : GroundState) :
    (t.loadState s.saveState).position = s.position ∧
    (t.loadState s.saveState).forward = s.forward := by
  have hepspos : (0 : ℝ) < EPSILON := by norm_num [EPSILON]
  have hdpos : 0 < s.dist := lt_of_lt_of_le hepspos hd
  have hlpos : 0 < s.lookUpAngle := lt_of_lt_of_le hepspos hl1
  have hlltpi : s.lookUpAngle < Real.pi := lt_of_le_of_lt hl2 (by linarith [hepspos])
  have hsl : 0 < Real.sin s.lookUpAngle :=
    Real.sin_pos_of_pos_of_lt_pi hlpos hlltpi
  have hfa : Quat.normSq (Quat.fromAxisAngle xAxis s.lookUpAngle) = 1 :=
    Quat.fromAxisAngle_normSq lengthSq_xAxis _
  have hfwd_val : GroundState.forward s =
      applyQuat s.offsetQuat ⟨0, Real.sin s.lookUpAngle, -Real.cos s.lookUpAngle⟩ := by
    unfold GroundState.forward GroundState.orientation
    rw [applyQuat_mul hq hfa, applyQuat_rotX_negz]
  have hflen : Vec3.lengthSq (GroundState.forward s) = 1 := by
    rw [hfwd_val, applyQuat_lengthSq hq]
    unfold Vec3.lengthSq Vec3.dot
    dsimp only
    linear_combination Real.sin_sq_add_cos_sq s.lookUpAngle
  have hfwd_n : Vec3.normalize (GroundState.forward s) = GroundState.forward s :=
    Vec3.normalize_of_unit_v hflen
  have hulen : Vec3.lengthSq (GroundState.up s) = 1 := by
    unfold GroundState.up
    rw [applyQuat_lengthSq hq]
    simp [Vec3.lengthSq, Vec3.dot, zAxis]
  have hup_n : Vec3.normalize (GroundState.up s) = GroundState.up s :=
    Vec3.normalize_of_unit_v hulen
  have hoff : GroundState.offset s = s.dist • GroundState.up s := by
    unfold GroundState.offset GroundState.up
    rw [show (⟨0, 0, s.dist⟩ : Vec3) = s.dist • zAxis from by
      apply Vec3.ext_iff_v.mpr
      refine ⟨?_, ?_, ?_⟩ <;> simp [zAxis], applyQuat_smul]
  have hnu : Vec3.normalize (GroundState.offset s) = GroundState.up s := by
    rw [hoff]
    exact Vec3.normalize_smul_pos hdpos hulen
  have hlen : Vec3.length (GroundState.offset s) = s.dist := by
    rw [hoff, Vec3.length_smul, abs_of_pos hdpos, Vec3.length_of_unit hulen, mul_one]
  have hsave : s.saveState =
      ⟨s.orbitCenter, GroundState.offset s, GroundState.forward s, GroundState.up s⟩ := by
    unfold GroundState.saveState
    rw [hfwd_n, hup_n]
  have hcross1 : Vec3.cross (GroundState.up s) (GroundState.forward s) =
      applyQuat s.offsetQuat ⟨-Real.sin s.lookUpAngle, 0, 0⟩ := by
    rw [hfwd_val]
    unfold GroundState.up
    rw [applyQuat_cross hq]
    congr 1
    apply Vec3.ext_iff_v.mpr
    refine ⟨?_, ?_, ?_⟩ <;> simp [Vec3.cross, zAxis] <;> ring
  have hxlen : Vec3.lengthSq (applyQuat s.offsetQuat xAxis) = 1 := by
    rw [applyQuat_lengthSq hq]
    simp [Vec3.lengthSq, Vec3.dot, xAxis]
  have hr : Vec3.normalize (-(Vec3.cross (GroundState.up s) (GroundState.forward s))) =
      applyQuat s.offsetQuat xAxis := by
    rw [hcross1, ← applyQuat_neg,
      show -(⟨-Real.sin s.lookUpAngle, 0, 0⟩ : Vec3) =
        Real.sin s.lookUpAngle • xAxis from by
      apply Vec3.ext_iff_v.mpr
      refine ⟨?_, ?_, ?_⟩ <;> simp [xAxis], applyQuat_smul]
    exact Vec3.normalize_smul_pos hsl hxlen
  have htang : Vec3.cross (GroundState.up s) (applyQuat s.offsetQuat xAxis) =
      applyQuat s.offsetQuat yAxis := by
    unfold GroundState.up
    rw [applyQuat_cross hq]
    congr 1
    apply Vec3.ext_iff_v.mpr
    refine ⟨?_, ?_, ?_⟩ <;> simp [Vec3.cross, zAxis, xAxis, yAxis]
  have hdotuf : Vec3.dot (GroundState.up s) (GroundState.forward s) =
      -Real.cos s.lookUpAngle := by
    rw [hfwd_val]
    unfold GroundState.up
    rw [applyQuat_dot hq]
    simp [Vec3.dot, zAxis]
  have hang : Vec3.angleTo (GroundState.up s) (GroundState.forward s) =
      Real.pi - s.lookUpAngle := by
    unfold Vec3.angleTo
    dsimp only
    rw [hulen, hflen, one_mul, Real.sqrt_one, if_neg one_ne_zero, hdotuf, div_one]
    have hc1 : -Real.cos s.lookUpAngle ≤ 1 := by
      linarith [Real.neg_one_le_cos s.lookUpAngle]
    have hc2 : (-1 : ℝ) ≤ -Real.cos s.lookUpAngle := by
      linarith [Real.cos_le_one s.lookUpAngle]
    rw [show clamp (-Real.cos s.lookUpAngle) (-1) 1 = -Real.cos s.lookUpAngle from by
      unfold clamp
      rw [min_eq_right hc1, max_eq_right hc2]]
    rw [Real.arccos_neg, Real.arccos_cos hlpos.le (le_of_lt hlltpi)]
  have hquat : (t.loadState s.saveState).offsetQuat =
      Quat.normalize (quatFromMat (matFromQuat s.offsetQuat)) := by
    rw [hsave]
    show Quat.normalize (quatFromMat (makeBasis
      (Vec3.normalize (-(Vec3.cross
        (if ¬ approxCollinear (Vec3.normalize (GroundState.forward s))
            (if approxZeroVec3 (GroundState.offset s)
              then -Vec3.normalize (GroundState.forward s)
              else Vec3.normalize (GroundState.offset s))
          then (if approxZeroVec3 (GroundState.offset s)
              then -Vec3.normalize (GroundState.forward s)
              else Vec3.normalize (GroundState.offset s))
          else if ¬ approxCollinear (Vec3.normalize (GroundState.forward s))
              (GroundState.up s)
            then GroundState.up s
            else if ¬ approxCollinear (Vec3.normalize (GroundState.forward s)) yAxis
              then yAxis else zAxis)
        (Vec3.normalize (GroundState.forward s)))))
      (Vec3.cross
        (if approxZeroVec3 (GroundState.offset s)
          then -Vec3.normalize (GroundState.forward s)
          else Vec3.normalize (GroundState.offset s))
        (Vec3.normalize (-(Vec3.cross
        (if ¬ approxCollinear (Vec3.normalize (GroundState.forward s))
            (if approxZeroVec3 (GroundState.offset s)
              then -Vec3.normalize (GroundState.forward s)
              else Vec3.normalize (GroundState.offset s))
          then (if approxZeroVec3 (GroundState.offset s)
              then -Vec3.normalize (GroundState.forward s)
              else Vec3.normalize (GroundState.offset s))
          else if ¬ approxCollinear (Vec3.normalize (GroundState.forward s))
              (GroundState.up s)
            then GroundState.up s
            else if ¬ approxCollinear (Vec3.normalize (GroundState.forward s)) yAxis
              then yAxis else zAxis)
        (Vec3.normalize (GroundState.forward s))))))
      (if approxZeroVec3 (GroundState.offset s)
        then -Vec3.normalize (GroundState.forward s)
        else Vec3.normalize (GroundState.offset s)))) =
      Quat.normalize (quatFromMat (matFromQuat s.offsetQuat))
    rw [hfwd_n, if_neg hnz, hnu, if_pos hcol, hr, htang,
      show GroundState.up s = applyQuat s.offsetQuat zAxis from rfl,
      makeBasis_applyQuat]
  have hq2 : (t.loadState s.saveState).offsetQuat = s.offsetQuat ∨
      (t.loadState s.saveState).offsetQuat = Quat.negQ s.offsetQuat := by
    rw [hquat]
    rcases quatFromMat_matFromQuat hq with hσ | hσ
    · left
      rw [hσ]
      exact Quat.normalize_of_unit_q hq
    · right
      rw [hσ]
      apply Quat.normalize_of_unit_q
      rw [Quat.negQ_normSq]
      exact hq
  have hlua : (t.loadState s.saveState).lookUpAngle = s.lookUpAngle := by
    rw [hsave]
    show clamp (Real.pi - Vec3.angleTo
      (if approxZeroVec3 (GroundState.offset s)
        then -Vec3.normalize (GroundState.forward s)
        else Vec3.normalize (GroundState.offset s))
      (Vec3.normalize (GroundState.forward s))) EPSILON (Real.pi - EPSILON) =
      s.lookUpAngle
    rw [hfwd_n, if_neg hnz, hnu, hang,
      show Real.pi - (Real.pi - s.lookUpAngle) = s.lookUpAngle by ring]
    unfold clamp
    rw [min_eq_right hl2, max_eq_right hl1]
  have hdist : (t.loadState s.saveState).dist = s.dist := by
    rw [hsave]
    show max EPSILON (Vec3.length (GroundState.offset s)) = s.dist
    rw [hlen]
    exact approxEqual_max_eps hd
  have hoc : (t.loadState s.saveState).orbitCenter = s.orbitCenter := by
    rw [hsave]
    rfl
  constructor
  · unfold GroundState.position GroundState.offset
    rw [hoc, hdist]
    rcases hq2 with h | h
    · rw [h]
    · rw [h, applyQuat_negQ]
  · unfold GroundState.forward GroundState.orientation
    rw [hlua]
    rcases hq2 with h | h
    · rw [h]
    · rw [h, Quat.negQ_mul, applyQuat_negQ]

/-- Recovering the offset through the Orbit `offset` setter followed by
`normalize`: the spherical rebuild, turn restoration, shorter-way choice and
theta wrap compose to the identity on the offset (consistent conversion
quaternions, non-aliasing guards, spherical safe band). -/
theorem OrbitState.setOffset_normalize_offset {A : OrbitState} {o : Vec3}
    (hQn : Quat.normSq A.fromUpToY = 1)
    (hYU : A.fromYToUp = Quat.invert A.fromUpToY)
    (hne : ¬ approxEqualVec3 A.offset o) (hnz : ¬ approxZeroVec3 o)
    (hxz : 0 < (applyQuat A.fromUpToY o).x ^ 2 + (applyQuat A.fromUpToY o).z ^ 2)
    (hphi1 : SPH_EPS ≤ (Spherical.fromVec3 (applyQuat A.fromUpToY o)).phi)
    (hphi2 : (Spherical.fromVec3 (applyQuat A.fromUpToY o)).phi ≤
      Real.pi - SPH_EPS) :
    (A.setOffset o).normalizeState.offset = o ∧
    (A.setOffset o).normalizeState.orbitCenter = A.orbitCenter := by
  unfold OrbitState.setOffset
  rw [if_neg hne, if_neg hnz]
  dsimp only
  rw [Spherical.makeSafe_of_mem hphi1 hphi2]
  unfold OrbitState.normalizeState OrbitState.offset
  dsimp only
  refine ⟨?_, rfl⟩
  have hex : ∃ n : ℤ,
      (if OrbitState.theta A - ((Spherical.fromVec3 (applyQuat A.fromUpToY o)).theta +
          ((jsTrunc (OrbitState.theta A / (2 * Real.pi)) : ℤ) : ℝ) * (2 * Real.pi)) >
          Real.pi
        then (Spherical.fromVec3 (applyQuat A.fromUpToY o)).theta +
          ((jsTrunc (OrbitState.theta A / (2 * Real.pi)) : ℤ) : ℝ) * (2 * Real.pi) +
          2 * Real.pi
        else if (Spherical.fromVec3 (applyQuat A.fromUpToY o)).theta +
          ((jsTrunc (OrbitState.theta A / (2 * Real.pi)) : ℤ) : ℝ) * (2 * Real.pi) -
          OrbitState.theta A > Real.pi
        then (Spherical.fromVec3 (applyQuat A.fromUpToY o)).theta +
          ((jsTrunc (OrbitState.theta A / (2 * Real.pi)) : ℤ) : ℝ) * (2 * Real.pi) -
          2 * Real.pi
        else (Spherical.fromVec3 (applyQuat A.fromUpToY o)).theta +
          ((jsTrunc (OrbitState.theta A / (2 * Real.pi)) : ℤ) : ℝ) * (2 * Real.pi)) =
      (Spherical.fromVec3 (applyQuat A.fromUpToY o)).theta + (n : ℝ) * (2 * Real.pi) := by
    split_ifs
    · exact ⟨jsTrunc (OrbitState.theta A / (2 * Real.pi)) + 1, by push_cast; ring⟩
    · exact ⟨jsTrunc (OrbitState.theta A / (2 * Real.pi)) - 1, by push_cast; ring⟩
    · exact ⟨jsTrunc (OrbitState.theta A / (2 * Real.pi)), rfl⟩
  obtain ⟨n, hn⟩ := hex
  rw [hn]
  rw [@Spherical.makeSafe_of_mem ⟨(Spherical.fromVec3 (applyQuat A.fromUpToY o)).radius,
    (Spherical.fromVec3 (applyQuat A.fromUpToY o)).phi,
    euclideanModulo ((Spherical.fromVec3 (applyQuat A.fromUpToY o)).theta +
      (n : ℝ) * (2 * Real.pi)) (2 * Real.pi)⟩ hphi1 hphi2]
  rw [Spherical.toVec3_em_shift (Spherical.fromVec3 (applyQuat A.fromUpToY o)) n]
  rw [Spherical.toVec3_fromVec3 hxz, hYU, applyQuat_invert hQn]

/-- The Orbit round trip: loading a save made from a state with consistent
frame data (unit up vector, setter-produced conversion quaternions) into any
target state carrying the same frame reproduces position and forward
exactly, provided the saved offset is not approximately zero, differs
approximately from the target's current offset, and stays out of the
spherical pole band. -/
theorem OrbitState.load_roundtrip_orbit {s t : OrbitState}
    (hsu : Vec3.lengthSq s.upv = 1)
    (hq1 : s.fromUpToY = Quat.setFromUnitVectors s.upv yAxis)
    (hq2 : s.fromYToUp = Quat.invert s.fromUpToY)
    (ht0 : t.upv = s.upv) (ht1 : t.fromUpToY = s.fromUpToY)
    (ht2 : t.fromYToUp = s.fromYToUp)
    (hnz : ¬ approxZeroVec3 s.offset)
    (htoff : ¬ approxEqualVec3 t.offset s.offset)
    (hxz : 0 < (applyQuat s.fromUpToY s.offset).x ^ 2 +
      (applyQuat s.fromUpToY s.offset).z ^ 2)
    (hphi1 : SPH_EPS ≤ (Spherical.fromVec3 (applyQuat s.fromUpToY s.offset)).phi)
    (hphi2 : (Spherical.fromVec3 (applyQuat s.fromUpToY s.offset)).phi ≤
      Real.pi - SPH_EPS) :
    (t.loadState s.saveState).position = s.position ∧
    (t.loadState s.saveState).forward = s.forward := by
  have hQn : Quat.normSq s.fromUpToY = 1 := by
    rw [hq1]
    exact Quat.setFromUnitVectors_normSq _ _
  have hsup : Vec3.normalize s.upv = s.upv := Vec3.normalize_of_unit_v hsu
  have hsave : s.saveState =
      ⟨s.orbitCenter, OrbitState.offset s, Vec3.normalize s.forward, s.upv⟩ := by
    unfold OrbitState.saveState
    rw [show OrbitState.up s = s.upv from rfl, hsup]
  have hsetup : ({ t with orbitCenter := s.orbitCenter } : OrbitState).setUp s.upv =
      { t with orbitCenter := s.orbitCenter } := by
    unfold OrbitState.setUp
    rw [show OrbitState.up ({ t with orbitCenter := s.orbitCenter } : OrbitState) =
      t.upv from rfl, ht0]
    rw [if_pos (approxEqualVec3_refl s.upv)]
  have hload : t.loadState s.saveState =
      (({ t with orbitCenter := s.orbitCenter } : OrbitState).setOffset
        (OrbitState.offset s)).normalizeState := by
    unfold OrbitState.loadState
    dsimp only
    rw [hsave]
    dsimp only
    rw [hsetup, if_neg hnz]
  have hAup : Quat.normSq (({ t with orbitCenter := s.orbitCenter } :
      OrbitState).fromUpToY) = 1 := by
    rw [show ({ t with orbitCenter := s.orbitCenter } : OrbitState).fromUpToY =
      t.fromUpToY from rfl, ht1]
    exact hQn
  have hAyu : ({ t with orbitCenter := s.orbitCenter } : OrbitState).fromYToUp =
      Quat.invert (({ t with orbitCenter := s.orbitCenter } :
        OrbitState).fromUpToY) := by
    rw [show ({ t with orbitCenter := s.orbitCenter } : OrbitState).fromYToUp =
      t.fromYToUp from rfl,
      show ({ t with orbitCenter := s.orbitCenter } : OrbitState).fromUpToY =
      t.fromUpToY from rfl, ht2, ht1, hq2]
  have hAne : ¬ approxEqualVec3 (OrbitState.offset
      ({ t with orbitCenter := s.orbitCenter } : OrbitState)) (OrbitState.offset s) := by
    rw [show OrbitState.offset ({ t with orbitCenter := s.orbitCenter } : OrbitState) =
      OrbitState.offset t from rfl]
    exact htoff
  have hxz' : 0 < (applyQuat (({ t with orbitCenter := s.orbitCenter } :
      OrbitState).fromUpToY) (OrbitState.offset s)).x ^ 2 +
      (applyQuat (({ t with orbitCenter := s.orbitCenter } :
      OrbitState).fromUpToY) (OrbitState.offset s)).z ^ 2 := by
    rw [show ({ t with orbitCenter := s.orbitCenter } : OrbitState).fromUpToY =
      t.fromUpToY from rfl, ht1]
    exact hxz
  have hphi1' : SPH_EPS ≤ (Spherical.fromVec3 (applyQuat
      (({ t with orbitCenter := s.orbitCenter } : OrbitState).fromUpToY)
      (OrbitState.offset s))).phi := by
    rw [show ({ t with orbitCenter := s.orbitCenter } : OrbitState).fromUpToY =
      t.fromUpToY from rfl, ht1]
    exact hphi1
  have hphi2' : (Spherical.fromVec3 (applyQuat
      (({ t with orbitCenter := s.orbitCenter } : OrbitState).fromUpToY)
      (OrbitState.offset s))).phi ≤ Real.pi - SPH_EPS := by
    rw [show ({ t with orbitCenter := s.orbitCenter } : OrbitState).fromUpToY =
      t.fromUpToY from rfl, ht1]
    exact hphi2
  obtain ⟨hoffr, hocr⟩ := OrbitState.setOffset_normalize_offset hAup hAyu hAne hnz
    hxz' hphi1' hphi2'
  constructor
  · unfold OrbitState.position
    rw [hload, hoffr, hocr]
  · unfold OrbitState.forward
    rw [hload, hoffr]

/-- Claim C4 (corrected): the same-variant save/load round trip reproduces
the camera position and forward direction — exactly, hence within EPSILON —
for all three variants, under the variants' non-degeneracy conditions.
Orbit: any target sharing the saved frame (same up vector and
setter-consistent conversion quaternions), whenever the saved offset is not
approximately zero (see the counterexample for that failure), differs
approximately from the target's current offset, and avoids the spherical
pole band.  Isotropic: any target, whenever the saved state has a unit
quaternion and a distance at or above the EPSILON floor.  Grounded: any
target, for reachable saved states (unit quaternion, floored distance,
clamped look-up angle) whose offset is not approximately zero and whose
view direction is not approximately collinear with the up axis. -/
theorem same_variant_roundtrip_reproduces_pose :
    (∀ s t : OrbitState,
      Vec3.lengthSq s.upv = 1 →
      s.fromUpToY = Quat.setFromUnitVectors s.upv yAxis →
      s.fromYToUp = Quat.invert s.fromUpToY →
      t.upv = s.upv → t.fromUpToY = s.fromUpToY → t.fromYToUp = s.fromYToUp →
      ¬ approxZeroVec3 s.offset →
      ¬ approxEqualVec3 t.offset s.offset →
      0 < (applyQuat s.fromUpToY s.offset).x ^ 2 +
        (applyQuat s.fromUpToY s.offset).z ^ 2 →
      SPH_EPS ≤ (Spherical.fromVec3 (applyQuat s.fromUpToY s.offset)).phi →
      (Spherical.fromVec3 (applyQuat s.fromUpToY s.offset)).phi ≤ Real.pi - SPH_EPS →
      (t.loadState s.saveState).position = s.position ∧
      (t.loadState s.saveState).forward = s.forward ∧
      approxEqualVec3 (t.loadState s.saveState).position s.position ∧
      approxEqualVec3 (t.loadState s.saveState).forward s.forward) ∧
    (∀ s t : IsoState, Quat.normSq s.quaternion = 1 → EPSILON ≤ s.dist →
      (t.loadState s.saveState).position = s.position ∧
      (t.loadState s.saveState).forward = s.forward ∧
      approxEqualVec3 (t.loadState s.saveState).position s.position ∧
      approxEqualVec3 (t.loadState s.saveState).forward s.forward) ∧
    (∀ s t : GroundState, Quat.normSq s.offsetQuat = 1 → EPSILON ≤ s.dist →
      EPSILON ≤ s.lookUpAngle → s.lookUpAngle ≤ Real.pi - EPSILON →
      ¬ approxZeroVec3 s.offset → ¬ approxCollinear s.forward s.up →
      (t.loadState s.saveState).position = s.position ∧
      (t.loadState s.saveState).forward = s.forward ∧
      approxEqualVec3 (t.loadState s.saveState).position s.position ∧
      approxEqualVec3 (t.loadState s.saveState).forward s.forward) := by
  refine ⟨?_, ?_, ?_⟩
  · intro s t hsu hq1 hq2 ht0 ht1 ht2 hnz htoff hxz hphi1 hphi2
    obtain ⟨h1, h2⟩ := OrbitState.load_roundtrip_orbit hsu hq1 hq2 ht0 ht1 ht2 hnz htoff
      hxz hphi1 hphi2
    exact ⟨h1, h2, by rw [h1]; exact approxEqualVec3_refl _,
      by rw [h2]; exact approxEqualVec3_refl _⟩
  · intro s t hq hd
    obtain ⟨h1, h2⟩ := IsoState.load_roundtrip_iso hq hd t
    exact ⟨h1, h2, by rw [h1]; exact approxEqualVec3_refl _,
      by rw [h2]; exact approxEqualVec3_refl _⟩
  · intro s t hq hd hl1 hl2 hnz hcol
    obtain ⟨h1, h2⟩ := GroundState.load_roundtrip_ground hq hd hl1 hl2 hnz hcol t
    exact ⟨h1, h2, by rw [h1]; exact approxEqualVec3_refl _,
      by rw [h2]; exact approxEqualVec3_refl _⟩

/-- Witness for claim C4: the Orbit state with offset `(0,0,1)` loaded into
a fresh default state reproduces position and forward exactly. -/
theorem same_variant_roundtrip_reproduces_pose_witness :
    (OrbitState.init.loadState
      ((⟨0, ⟨1, Real.pi / 2, 0⟩, yAxis, Quat.id, Quat.id⟩ : OrbitState).saveState)).position =
      (⟨0, ⟨1, Real.pi / 2, 0⟩, yAxis, Quat.id, Quat.id⟩ : OrbitState).position ∧
    (OrbitState.init.loadState
      ((⟨0, ⟨1, Real.pi / 2, 0⟩, yAxis, Quat.id, Quat.id⟩ : OrbitState).saveState)).forward =
      (⟨0, ⟨1, Real.pi / 2, 0⟩, yAxis, Quat.id, Quat.id⟩ : OrbitState).forward := by
  have hoff : OrbitState.offset
      (⟨0, ⟨1, Real.pi / 2, 0⟩, yAxis, Quat.id, Quat.id⟩ : OrbitState) = ⟨0, 0, 1⟩ := by
    unfold OrbitState.offset Spherical.toVec3
    dsimp only
    rw [applyQuat_id]
    apply Vec3.ext_iff_v.mpr
    norm_num
  have hioff : OrbitState.offset OrbitState.init = ⟨0, 1, 0⟩ := OrbitState.withOC_offset 0
  have hfuy : (⟨0, ⟨1, Real.pi / 2, 0⟩, yAxis, Quat.id, Quat.id⟩ :
      OrbitState).fromUpToY = Quat.id := rfl
  have h := same_variant_roundtrip_reproduces_pose.1
    ⟨0, ⟨1, Real.pi / 2, 0⟩, yAxis, Quat.id, Quat.id⟩ OrbitState.init
    lengthSq_yAxis
    (Quat.setFromUnitVectors_self lengthSq_yAxis).symm
    Quat.invert_id.symm
    rfl rfl rfl
    (by
      rw [hoff]
      intro hc
      have := hc.2.2
      unfold approxZero at this
      norm_num [EPSILON] at this)
    (by
      rw [hioff, hoff]
      intro hc
      have := hc.2.1
      unfold approxEqual approxZero at this
      norm_num [EPSILON] at this)
    (by
      rw [hfuy, applyQuat_id, hoff]
      norm_num)
    (by
      rw [hfuy, applyQuat_id, hoff, Spherical.fromVec3_z1]
      exact sph_eps_le_pi_div_two)
    (by
      rw [hfuy, applyQuat_id, hoff, Spherical.fromVec3_z1]
      exact pi_div_two_le_pi_sub_sph_eps)
  exact ⟨h.1, h.2.1⟩

/-- Claim C4 counterexample: starting from a fresh Orbit interpolator, move
the camera to `(0,0,1)`, clamp the distance down to EPSILON, jump to the end
state and rotate the target by π.  The displayed state `now` then has the
small offset `(0,0,EPSILON)`; saving it and loading the save back into the
same interpolator hits the approximately-zero branch of the `offset` setter,
which keeps the target state's stale direction: the loaded forward direction
is `(0,0,1)` while `now`'s forward is `(0,0,-1)` — opposite directions, not
within EPSILON. -/
theorem orbit_small_offset_roundtrip_breaks_forward :
    ¬ approxEqualVec3
      (((OrbitInterp.runOps [OrbitOp.setPosition ⟨0, 0, 1⟩,
          OrbitOp.clampDistance EPSILON EPSILON, OrbitOp.jumpToEnd,
          OrbitOp.rotateLeft Real.pi]).loadState
        (OrbitInterp.runOps [OrbitOp.setPosition ⟨0, 0, 1⟩,
          OrbitOp.clampDistance EPSILON EPSILON, OrbitOp.jumpToEnd,
          OrbitOp.rotateLeft Real.pi]).saveState).endS.forward)
      ((OrbitInterp.runOps [OrbitOp.setPosition ⟨0, 0, 1⟩,
        OrbitOp.clampDistance EPSILON EPSILON, OrbitOp.jumpToEnd,
        OrbitOp.rotateLeft Real.pi]).now.forward) := by
  have hpi3 := Real.pi_gt_three
  have hpip := Real.pi_pos
  have hmm1 : min (Real.pi - SPH_EPS) (0 : ℝ) = 0 := min_eq_right (by
    unfold SPH_EPS
    linarith)
  have hmm2 : max SPH_EPS (0 : ℝ) = SPH_EPS := max_eq_left (by
    unfold SPH_EPS
    norm_num)
  have hmm3 : min (Real.pi - SPH_EPS) SPH_EPS = SPH_EPS := min_eq_right sph_eps_le
  have hmm4 : max EPSILON (1 : ℝ) = 1 := max_eq_right (by norm_num [EPSILON])
  have hb1 : min (Real.pi - SPH_EPS) (Real.pi / 2) = Real.pi / 2 :=
    min_eq_right pi_div_two_le_pi_sub_sph_eps
  have hb2 : max SPH_EPS (Real.pi / 2) = Real.pi / 2 :=
    max_eq_right sph_eps_le_pi_div_two
  have hmin_eps1 : min EPSILON (1 : ℝ) = EPSILON := min_eq_left (by norm_num [EPSILON])
  have hem_pi : euclideanModulo Real.pi (2 * Real.pi) = Real.pi :=
    euclideanModulo_of_mem (by positivity) hpip.le (by linarith)
  have hms_pi2 : ∀ r θ : ℝ, Spherical.makeSafe ⟨r, Real.pi / 2, θ⟩ =
      ⟨r, Real.pi / 2, θ⟩ := fun r θ =>
    @Spherical.makeSafe_of_mem ⟨r, Real.pi / 2, θ⟩ sph_eps_le_pi_div_two
      pi_div_two_le_pi_sub_sph_eps
  have h0 : OrbitInterp.init =
      ⟨⟨0, ⟨1, SPH_EPS, 0⟩, yAxis, Quat.id, Quat.id⟩,
       ⟨0, ⟨1, SPH_EPS, 0⟩, yAxis, Quat.id, Quat.id⟩, 0, 0, 0, 0, 0⟩ := by
    unfold OrbitInterp.init OrbitInterp.jumpToEnd OrbitState.init
      OrbitState.normalizeState OrbitState.setPhi OrbitState.setTheta
      OrbitState.setDistance OrbitState.phi OrbitState.theta OrbitState.distance
      Spherical.makeSafe Spherical.default
    dsimp only
    simp only [euclideanModulo_zero, hmm1, hmm2, hmm3, hmm4, max_self]
  have hAoff : OrbitState.offset ⟨0, ⟨1, SPH_EPS, 0⟩, yAxis, Quat.id, Quat.id⟩ =
      ⟨0, Real.cos SPH_EPS, Real.sin SPH_EPS⟩ := by
    unfold OrbitState.offset Spherical.toVec3
    dsimp only
    rw [applyQuat_id]
    apply Vec3.ext_iff_v.mpr
    norm_num
  have hcos_eps : EPSILON < Real.cos SPH_EPS := by
    have h := @Real.one_sub_sq_div_two_le_cos SPH_EPS
    have h2 : SPH_EPS ^ 2 / 2 = 5e-13 := by norm_num [SPH_EPS]
    rw [h2] at h
    unfold EPSILON
    linarith
  have hg1 : ¬ approxEqualVec3
      (OrbitState.offset ⟨0, ⟨1, SPH_EPS, 0⟩, yAxis, Quat.id, Quat.id⟩)
      ⟨0, 0, 1⟩ := by
    rw [hAoff]
    intro hc
    have hy := hc.2.1
    unfold approxEqual approxZero at hy
    rw [sub_zero, abs_of_pos (lt_trans (by norm_num [EPSILON]) hcos_eps)] at hy
    linarith
  have hg2 : ¬ approxZeroVec3 (⟨0, 0, 1⟩ : Vec3) := by
    intro hc
    have hz := hc.2.2
    unfold approxZero at hz
    norm_num [EPSILON] at hz
  have h1 : OrbitInterp.applyOp
      ⟨⟨0, ⟨1, SPH_EPS, 0⟩, yAxis, Quat.id, Quat.id⟩,
       ⟨0, ⟨1, SPH_EPS, 0⟩, yAxis, Quat.id, Quat.id⟩, 0, 0, 0, 0, 0⟩
      (OrbitOp.setPosition ⟨0, 0, 1⟩) =
      ⟨⟨0, ⟨1, SPH_EPS, 0⟩, yAxis, Quat.id, Quat.id⟩,
       ⟨0, ⟨1, Real.pi / 2, 0⟩, yAxis, Quat.id, Quat.id⟩, 0, 0, 0, 0, 0⟩ := by
    unfold OrbitInterp.applyOp OrbitInterp.setPosition OrbitState.setPosition
    dsimp only
    rw [show (⟨0, 0, 1⟩ : Vec3) - (0 : Vec3) = ⟨0, 0, 1⟩ by
      apply Vec3.ext_iff_v.mpr
      norm_num]
    unfold OrbitState.setOffset
    rw [if_neg hg1, if_neg hg2]
    dsimp only
    unfold OrbitState.theta
    dsimp only
    rw [zero_div, jsTrunc_zero, Int.cast_zero, zero_mul, applyQuat_id,
      Spherical.fromVec3_z1, hms_pi2]
    dsimp only
    rw [add_zero]
    rw [if_neg (by push_neg; linarith), if_neg (by push_neg; linarith)]
  have h2 : OrbitInterp.applyOp
      ⟨⟨0, ⟨1, SPH_EPS, 0⟩, yAxis, Quat.id, Quat.id⟩,
       ⟨0, ⟨1, Real.pi / 2, 0⟩, yAxis, Quat.id, Quat.id⟩, 0, 0, 0, 0, 0⟩
      (OrbitOp.clampDistance EPSILON EPSILON) =
      ⟨⟨0, ⟨1, SPH_EPS, 0⟩, yAxis, Quat.id, Quat.id⟩,
       ⟨0, ⟨EPSILON, Real.pi / 2, 0⟩, yAxis, Quat.id, Quat.id⟩, 0, 0, 0, 0, 0⟩ := by
    unfold OrbitInterp.applyOp OrbitInterp.clampDistance OrbitState.setDistance
      OrbitState.distance clamp
    dsimp only
    rw [hmin_eps1, max_self, max_self]
  have h3 : OrbitInterp.applyOp
      ⟨⟨0, ⟨1, SPH_EPS, 0⟩, yAxis, Quat.id, Quat.id⟩,
       ⟨0, ⟨EPSILON, Real.pi / 2, 0⟩, yAxis, Quat.id, Quat.id⟩, 0, 0, 0, 0, 0⟩
      OrbitOp.jumpToEnd =
      ⟨⟨0, ⟨EPSILON, Real.pi / 2, 0⟩, yAxis, Quat.id, Quat.id⟩,
       ⟨0, ⟨EPSILON, Real.pi / 2, 0⟩, yAxis, Quat.id, Quat.id⟩, 0, 0, 0, 0, 0⟩ := by
    unfold OrbitInterp.applyOp OrbitInterp.jumpToEnd OrbitState.normalizeState
      OrbitState.setPhi OrbitState.setTheta OrbitState.setDistance OrbitState.phi
      OrbitState.theta OrbitState.distance Spherical.makeSafe
    dsimp only
    simp only [euclideanModulo_zero, hb1, hb2, max_self]
  have h4 : OrbitInterp.applyOp
      ⟨⟨0, ⟨EPSILON, Real.pi / 2, 0⟩, yAxis, Quat.id, Quat.id⟩,
       ⟨0, ⟨EPSILON, Real.pi / 2, 0⟩, yAxis, Quat.id, Quat.id⟩, 0, 0, 0, 0, 0⟩
      (OrbitOp.rotateLeft Real.pi) =
      ⟨⟨0, ⟨EPSILON, Real.pi / 2, 0⟩, yAxis, Quat.id, Quat.id⟩,
       ⟨0, ⟨EPSILON, Real.pi / 2, Real.pi⟩, yAxis, Quat.id, Quat.id⟩, 0, 0, 0, 0, 0⟩ := by
    unfold OrbitInterp.applyOp OrbitInterp.rotateLeft OrbitState.setTheta
      OrbitState.theta
    dsimp only
    rw [zero_add]
  have hrun : OrbitInterp.runOps [OrbitOp.setPosition ⟨0, 0, 1⟩,
      OrbitOp.clampDistance EPSILON EPSILON, OrbitOp.jumpToEnd,
      OrbitOp.rotateLeft Real.pi] =
      ⟨⟨0, ⟨EPSILON, Real.pi / 2, 0⟩, yAxis, Quat.id, Quat.id⟩,
       ⟨0, ⟨EPSILON, Real.pi / 2, Real.pi⟩, yAxis, Quat.id, Quat.id⟩, 0, 0, 0, 0, 0⟩ := by
    unfold OrbitInterp.runOps
    simp only [List.foldl_cons, List.foldl_nil]
    rw [h0, h1, h2, h3, h4]
  have hCoff : OrbitState.offset ⟨0, ⟨EPSILON, Real.pi / 2, 0⟩, yAxis, Quat.id, Quat.id⟩ =
      ⟨0, 0, EPSILON⟩ := by
    unfold OrbitState.offset Spherical.toVec3
    dsimp only
    rw [applyQuat_id]
    apply Vec3.ext_iff_v.mpr
    norm_num
  have hCfwd : OrbitState.forward ⟨0, ⟨EPSILON, Real.pi / 2, 0⟩, yAxis, Quat.id, Quat.id⟩ =
      ⟨0, 0, -1⟩ := by
    unfold OrbitState.forward
    rw [hCoff, Vec3.normalize_z_pos (by norm_num [EPSILON])]
    apply Vec3.ext_iff_v.mpr
    norm_num
  have hDoff : OrbitState.offset
      ⟨0, ⟨EPSILON, Real.pi / 2, Real.pi⟩, yAxis, Quat.id, Quat.id⟩ =
      ⟨0, 0, -EPSILON⟩ := by
    unfold OrbitState.offset Spherical.toVec3
    dsimp only
    rw [applyQuat_id]
    apply Vec3.ext_iff_v.mpr
    norm_num
  have hDfwd : OrbitState.forward
      ⟨0, ⟨EPSILON, Real.pi / 2, Real.pi⟩, yAxis, Quat.id, Quat.id⟩ = ⟨0, 0, 1⟩ := by
    unfold OrbitState.forward
    rw [hDoff, Vec3.normalize_z_neg (by norm_num [EPSILON])]
    apply Vec3.ext_iff_v.mpr
    norm_num
  have hsaveC : OrbitState.saveState
      ⟨0, ⟨EPSILON, Real.pi / 2, 0⟩, yAxis, Quat.id, Quat.id⟩ =
      ⟨0, ⟨0, 0, EPSILON⟩, ⟨0, 0, -1⟩, yAxis⟩ := by
    unfold OrbitState.saveState OrbitState.up
    dsimp only
    rw [hCoff, hCfwd, Vec3.normalize_z_neg (by norm_num : (-1 : ℝ) < 0),
      Vec3.normalize_yAxis]
  have hzeroeps : approxZeroVec3 (⟨0, 0, EPSILON⟩ : Vec3) := by
    unfold approxZeroVec3 approxZero
    refine ⟨?_, ?_, ?_⟩ <;> rw [abs_le] <;> constructor <;> norm_num [EPSILON]
  have hgD : ¬ approxEqualVec3
      (OrbitState.offset ⟨0, ⟨EPSILON, Real.pi / 2, Real.pi⟩, yAxis, Quat.id, Quat.id⟩)
      ⟨0, 0, EPSILON⟩ := by
    rw [hDoff]
    intro hc
    have hz := hc.2.2
    unfold approxEqual approxZero at hz
    rw [abs_le] at hz
    have := hz.1
    norm_num [EPSILON] at this
  have hloadD : OrbitState.loadState
      ⟨0, ⟨EPSILON, Real.pi / 2, Real.pi⟩, yAxis, Quat.id, Quat.id⟩
      ⟨0, ⟨0, 0, EPSILON⟩, ⟨0, 0, -1⟩, yAxis⟩ =
      ⟨0, ⟨EPSILON, Real.pi / 2, Real.pi⟩, yAxis, Quat.id, Quat.id⟩ := by
    unfold OrbitState.loadState
    dsimp only
    rw [show OrbitState.setUp
        ⟨0, ⟨EPSILON, Real.pi / 2, Real.pi⟩, yAxis, Quat.id, Quat.id⟩ yAxis =
        ⟨0, ⟨EPSILON, Real.pi / 2, Real.pi⟩, yAxis, Quat.id, Quat.id⟩ by
      unfold OrbitState.setUp
      rw [if_pos (show approxEqualVec3 (OrbitState.up
        ⟨0, ⟨EPSILON, Real.pi / 2, Real.pi⟩, yAxis, Quat.id, Quat.id⟩) yAxis from
        approxEqualVec3_refl _)]]
    rw [if_pos hzeroeps]
    rw [show Vec3.setLength (-(⟨0, 0, -1⟩ : Vec3)) EPSILON = ⟨0, 0, EPSILON⟩ by
      unfold Vec3.setLength
      rw [show (-(⟨0, 0, -1⟩ : Vec3)) = ⟨0, 0, 1⟩ by
        apply Vec3.ext_iff_v.mpr
        norm_num]
      rw [Vec3.normalize_z_pos (by norm_num : (0 : ℝ) < 1)]
      apply Vec3.ext_iff_v.mpr
      norm_num]
    unfold OrbitState.setOffset
    rw [if_neg hgD, if_pos hzeroeps]
    unfold OrbitState.setDistance OrbitState.normalizeState Spherical.makeSafe
    dsimp only
    rw [max_self, hem_pi, hb1, hb2]
  rw [hrun]
  unfold OrbitInterp.loadState OrbitInterp.saveState
  dsimp only
  rw [hsaveC, hloadD]
  rw [hDfwd, hCfwd]
  intro hc
  have hz := hc.2.2
  unfold approxEqual approxZero at hz
  rw [abs_le] at hz
  have h2c := hz.2
  norm_num [EPSILON] at h2c

end

end CamCtl
